import Mathlib

/-! # Symbion Station 8 controller: embedding and verified properties

Shallow embedding of the pick-and-place controller (`src/main.cpp` and the drivers
under `src/lib/`) as pure state-passing functions.

Modelling conventions

* Time is a natural number of milliseconds since boot (`Robot.now`).  The 32-bit
  clock value read by `to_ms_since_boot` is `now % 2^32`; every `uint32_t`
  subtraction is `sub32`, which wraps.
* Time advances only in `sleep_ms`.  Instruction time, `printf` and the
  microsecond sleeps of the keypad scan are below the clock resolution and take no
  model time; `elapse` lets a run insert execution time between two ticks, and
  `Reachable` collects the states reached from power-up with any execution time
  between the passes.
* A physical input is a function of time (`Env`).  A driver method that reads the
  clock or a pin takes the value read as an argument.
* `float` quantities (positions, angles, distances) are exact rationals.  Where a
  result depends on rounding, the floating-point arithmetic of the source is
  modelled: `f32` and `f64` round a rational to the nearest `float` and `double`
  (IEEE 754 binary32 and binary64, ties to even); `move_time_ms` evaluates its
  expression in `double` as the source does, and `ServoController.update32` is
  `update()` with every operation rounded to `float`.
* A loop is a structurally recursive function on a fuel counter; running out of
  fuel is the result `Run.outOfFuel`, an out-of-bounds table lookup is
  `Run.undefinedBehaviour`.
* Console output is not modelled.
-/

namespace Symbion

/-! ## Machine arithmetic -/

/-- Difference `a - b` of two `uint32_t` values, wrapping modulo `2^32`. -/
def sub32 (a b : Nat) : Nat :=
  (a % 4294967296 + 4294967296 - b % 4294967296) % 4294967296

/-! ## Binary floating point -/

/-- The number of binary digits of `n`, counted with `fuel` halvings. -/
def bitLength : Nat → Nat → Nat
  | 0, _ => 0
  | fuel + 1, n => if n = 0 then 0 else bitLength fuel (n / 2) + 1

/-- The power `2^e` for an integer exponent. -/
def pow2 (e : ℤ) : ℚ :=
  if 0 ≤ e then ((2 ^ e.toNat : ℕ) : ℚ) else 1 / ((2 ^ (-e).toNat : ℕ) : ℚ)

/-- The binary exponent of a rational `x ≠ 0`: the `e` with `2^e ≤ |x| < 2^(e+1)`. -/
def binExponent (x : ℚ) : ℤ :=
  let e0 : ℤ := (bitLength x.num.natAbs x.num.natAbs : ℤ) - (bitLength x.den x.den : ℤ)
  if pow2 e0 ≤ |x| then e0 else e0 - 1

/-- Rounding to the nearest integer, a tie to the even one. -/
def roundHalfEven (x : ℚ) : ℤ :=
  if x - ⌊x⌋ < 1 / 2 then ⌊x⌋
  else if 1 / 2 < x - ⌊x⌋ then ⌊x⌋ + 1
  else if ⌊x⌋ % 2 = 0 then ⌊x⌋ else ⌊x⌋ + 1

/-- The spacing of the binary floating-point numbers with `prec` significant bits
and least normal exponent `emin` at the magnitude of `x`. -/
def ulp (prec : Nat) (emin : ℤ) (x : ℚ) : ℚ :=
  pow2 (max (binExponent x) emin - ((prec : ℤ) - 1))

/-- The floating-point number nearest to `x`, a tie to the one with even last bit:
the result of an IEEE 754 operation whose exact value is `x` (below the overflow
threshold). -/
def roundBin (prec : Nat) (emin : ℤ) (x : ℚ) : ℚ :=
  (roundHalfEven (x / ulp prec emin x) : ℚ) * ulp prec emin x

/-- Rounding to `float` (IEEE 754 binary32). -/
def f32 (x : ℚ) : ℚ := roundBin 24 (-126) x

/-- Rounding to `double` (IEEE 754 binary64). -/
def f64 (x : ℚ) : ℚ := roundBin 53 (-1022) x

/-- Result of running code that contains loops or table lookups. -/
inductive Run (α : Type) where
  | done (a : α)
  | outOfFuel
  | undefinedBehaviour
deriving DecidableEq, Repr

/-- Sequencing of fallible computations. -/
def Run.bind {α β : Type} (x : Run α) (f : α → Run β) : Run β :=
  match x with
  | .done a => f a
  | .outOfFuel => .outOfFuel
  | .undefinedBehaviour => .undefinedBehaviour

/-- Apply a function to the result of a computation that finished. -/
def Run.map {α β : Type} (f : α → β) (x : Run α) : Run β :=
  x.bind fun a => .done (f a)

/-- The result of a computation that finished, `d` otherwise. -/
def Run.getD {α : Type} (x : Run α) (d : α) : α :=
  match x with
  | .done a => a
  | _ => d

/-! ## PushButton (`src/lib/buttons/PushButton.cpp`) -/

/-- Fields of `class PushButton`. -/
structure PushButton where
  pin_ : Nat
  pull_up_ : Bool
  current_state_ : Bool
  last_state_ : Bool
  debounced_state_ : Bool
  last_change_time_ : Nat
  press_event_ : Bool
  release_event_ : Bool
deriving DecidableEq, Repr

namespace PushButton

/-- Value of `DEBOUNCE_TIME_MS` in `PushButton.h`. -/
def DEBOUNCE_TIME_MS : Nat := 50

/-- Constructor `PushButton(pin, pull_up = true)`. -/
def new (pin : Nat) (pull_up : Bool) : PushButton :=
  { pin_ := pin, pull_up_ := pull_up,
    current_state_ := false, last_state_ := false, debounced_state_ := false,
    last_change_time_ := 0, press_event_ := false, release_event_ := false }

/-- Method `readRaw()`; `level` is the value of `gpio_get(pin_)`. -/
def readRaw (b : PushButton) (level : Bool) : Bool :=
  if b.pull_up_ then !level else level

/-- Method `init()`; `level` is the pin level and `time` the clock value it reads. -/
def init (b : PushButton) (level : Bool) (time : Nat) : PushButton :=
  let d := b.readRaw level
  { b with debounced_state_ := d, last_state_ := d, current_state_ := d,
           last_change_time_ := time }

/-- Method `isPressed()`. -/
def isPressed (b : PushButton) : Bool := b.debounced_state_

/-- Method `wasPressed()`: the returned value and the button afterwards. -/
def wasPressed (b : PushButton) : Bool × PushButton :=
  if b.press_event_ then (true, { b with press_event_ := false }) else (false, b)

/-- Method `wasReleased()`: the returned value and the button afterwards. -/
def wasReleased (b : PushButton) : Bool × PushButton :=
  if b.release_event_ then (true, { b with release_event_ := false }) else (false, b)

/-- Method `update()`; `raw` is the result of `readRaw()` and `current_time` the
clock value read by `to_ms_since_boot`. -/
def update (b : PushButton) (raw : Bool) (current_time : Nat) : PushButton :=
  let b1 := { b with current_state_ := raw }
  let b2 :=
    if b1.current_state_ != b1.last_state_ then
      { b1 with last_change_time_ := current_time, last_state_ := b1.current_state_ }
    else b1
  if sub32 current_time b2.last_change_time_ ≥ DEBOUNCE_TIME_MS then
    if b2.current_state_ != b2.debounced_state_ then
      let b3 := { b2 with debounced_state_ := b2.current_state_ }
      if b3.debounced_state_ then { b3 with press_event_ := true }
      else { b3 with release_event_ := true }
    else b2
  else b2

/-- A sequence of `update()` calls, each given as (raw sample, clock value). -/
def updates (b : PushButton) (samples : List (Bool × Nat)) : PushButton :=
  samples.foldl (fun acc s => acc.update s.1 s.2) b

end PushButton

/-! ## Sequences of `PushButton::update()` calls -/

/-- Raw sample of update number `i` of a sequence (counting from 0). -/
def rawAt (samples : List (Bool × Nat)) (i : Nat) : Bool := (samples.getD i (false, 0)).1

/-- Clock value of update number `i` of a sequence. -/
def timeAt (samples : List (Bool × Nat)) (i : Nat) : Nat := (samples.getD i (false, 0)).2

/-- The button after the first `n` updates of a sequence. -/
def PushButton.after (b : PushButton) (samples : List (Bool × Nat)) (n : Nat) : PushButton :=
  b.updates (samples.take n)

/-- The raw value against which update number `i` compares its sample: the sample of
the update before, and the initial `last_state_` for the first update. -/
def prevRaw (b : PushButton) (samples : List (Bool × Nat)) : Nat → Bool
  | 0 => b.last_state_
  | i + 1 => rawAt samples i

/-- Update number `i` observes a raw change: its sample differs from the one before. -/
def rawChangeAt (b : PushButton) (samples : List (Bool × Nat)) (i : Nat) : Bool :=
  rawAt samples i != prevRaw b samples i

/-- A chattering contact: raw changes at 0, 45, 60 and 105 ms, no value held for
50 ms. -/
def chatter : List (Bool × Nat) :=
  [(true, 0), (true, 30), (false, 45), (true, 60), (true, 100), (false, 105)]

/-- A clean press: the contact reads pressed at 100, 130 and 160 ms. -/
def cleanPress : List (Bool × Nat) := [(true, 100), (true, 130), (true, 160)]

/-! ## MotorDriver (`src/lib/motor/MotorDriver.cpp`) -/

/-- The enumeration `MotorDriver::Direction`. -/
inductive Direction where
  | FORWARD
  | REVERSE
  | BRAKE
deriving DecidableEq, Repr

/-- Fields of `class MotorDriver`, with the levels last written to the two
direction pins and to the PWM channel. -/
structure MotorDriver where
  current_speed_ : Nat
  current_direction_ : Direction
  move_start_time_ : Nat
  move_duration_ : Nat
  timed_move_active_ : Bool
  in1_level : Bool
  in2_level : Bool
  pwm_level : Nat
deriving DecidableEq, Repr

namespace MotorDriver

/-- Value of `PWM_WRAP` in `MotorDriver.h`. -/
def PWM_WRAP : Nat := 999

/-- Constructor; the pin levels before `init()` are taken as low. -/
def new : MotorDriver :=
  { current_speed_ := 0, current_direction_ := .BRAKE,
    move_start_time_ := 0, move_duration_ := 0, timed_move_active_ := false,
    in1_level := false, in2_level := false, pwm_level := 0 }

/-- Method `init()`: both direction pins low, PWM level 0. -/
def init (m : MotorDriver) : MotorDriver :=
  { m with in1_level := false, in2_level := false, pwm_level := 0 }

/-- Method `updatePWM()`. -/
def updatePWM (m : MotorDriver) : MotorDriver :=
  { m with pwm_level := ((m.current_speed_ * PWM_WRAP) / 100) % 65536 }

/-- Method `setSpeed(uint8_t speed)`. -/
def setSpeed (m : MotorDriver) (speed : Nat) : MotorDriver :=
  let s := speed % 256
  let s := if s > 100 then 100 else s
  updatePWM { m with current_speed_ := s }

/-- Method `setDirection(dir)`. -/
def setDirection (m : MotorDriver) (dir : Direction) : MotorDriver :=
  let m1 := { m with current_direction_ := dir }
  match dir with
  | .FORWARD => { m1 with in1_level := true, in2_level := false }
  | .REVERSE => { m1 with in1_level := false, in2_level := true }
  | .BRAKE => { m1 with in1_level := false, in2_level := false }

/-- Method `run(speed, dir)`. -/
def run (m : MotorDriver) (speed : Nat) (dir : Direction) : MotorDriver :=
  (m.setDirection dir).setSpeed speed

/-- Method `stop()`. -/
def stop (m : MotorDriver) : MotorDriver :=
  { ((m.setDirection .BRAKE).setSpeed 0) with timed_move_active_ := false }

/-- Method `moveFor(speed, dir, duration_ms)`; `time` is the clock value read. -/
def moveFor (m : MotorDriver) (speed : Nat) (dir : Direction) (duration_ms : Nat)
    (time : Nat) : MotorDriver :=
  { (m.run speed dir) with
      move_start_time_ := time, move_duration_ := duration_ms % 4294967296,
      timed_move_active_ := true }

/-- Method `isMovementComplete()`; `time` is the clock value read. -/
def isMovementComplete (m : MotorDriver) (time : Nat) : Bool × MotorDriver :=
  if !m.timed_move_active_ then (true, m)
  else
    let elapsed := sub32 time m.move_start_time_
    if elapsed ≥ m.move_duration_ then
      (true, { m.stop with timed_move_active_ := false })
    else (false, m)

/-- The motor is at rest: speed 0, direction BRAKE, no timed move armed. -/
def Stopped (m : MotorDriver) : Prop :=
  m.current_speed_ = 0 ∧ m.current_direction_ = .BRAKE ∧ m.timed_move_active_ = false

instance (m : MotorDriver) : Decidable m.Stopped := by
  unfold Stopped; infer_instance

end MotorDriver

/-! ## ServoController (`src/lib/servo/ServoController.cpp`) -/

/-- Fields of `class ServoController`, with the PWM enable bit and the channel
level last written. -/
structure ServoController where
  pin_ : Nat
  min_pulse_us_ : Nat
  max_pulse_us_ : Nat
  current_angle_ : ℚ
  target_angle_ : ℚ
  start_angle_ : ℚ
  move_start_time_ : Nat
  move_duration_ : Nat
  is_moving_ : Bool
  is_attached_ : Bool
  pwm_enabled : Bool
  pwm_level : Nat
deriving DecidableEq

namespace ServoController

/-- Constructor `ServoController(pin, min_pulse_us = 500, max_pulse_us = 2500)`. -/
def new (pin : Nat) (min_pulse_us max_pulse_us : Nat) : ServoController :=
  { pin_ := pin, min_pulse_us_ := min_pulse_us, max_pulse_us_ := max_pulse_us,
    current_angle_ := 90, target_angle_ := 90, start_angle_ := 90,
    move_start_time_ := 0, move_duration_ := 0, is_moving_ := false,
    is_attached_ := false, pwm_enabled := false, pwm_level := 0 }

/-- Method `angleToPulseWidth(angle)`. -/
def angleToPulseWidth (s : ServoController) (angle : ℚ) : Nat :=
  (s.min_pulse_us_ +
    (Int.toNat ⌊(angle / 180) * ((s.max_pulse_us_ : ℚ) - (s.min_pulse_us_ : ℚ))⌋) % 65536)
    % 65536

/-- Method `setPulseWidth(pulse_us)`. -/
def setPulseWidth (s : ServoController) (pulse_us : Nat) : ServoController :=
  { s with pwm_level := ((pulse_us * 39062) / 20000) % 65536 }

/-- Method `setAngle(angle)`. -/
def setAngle (s : ServoController) (angle : ℚ) : ServoController :=
  let angle := if angle < 0 then 0 else angle
  let angle := if angle > 180 then 180 else angle
  let s1 := { s with current_angle_ := angle, target_angle_ := angle, is_moving_ := false }
  if s1.is_attached_ then s1.setPulseWidth (s1.angleToPulseWidth angle) else s1

/-- Method `init()`. -/
def init (s : ServoController) : ServoController :=
  { (s.setAngle 90) with pwm_enabled := true, is_attached_ := true }

/-- Method `moveToAngle(target_angle, duration_ms)`; `time` is the clock value read. -/
def moveToAngle (s : ServoController) (target_angle : ℚ) (duration_ms : Nat) (time : Nat) :
    ServoController :=
  let target_angle := if target_angle < 0 then 0 else target_angle
  let target_angle := if target_angle > 180 then 180 else target_angle
  { s with start_angle_ := s.current_angle_, target_angle_ := target_angle,
           move_start_time_ := time, move_duration_ := duration_ms % 4294967296,
           is_moving_ := true }

/-- Method `update()`; `current_time` is the clock value read. -/
def update (s : ServoController) (current_time : Nat) : ServoController :=
  if !s.is_moving_ then s
  else
    let elapsed := sub32 current_time s.move_start_time_
    if elapsed ≥ s.move_duration_ then
      { (s.setAngle s.target_angle_) with is_moving_ := false }
    else
      let progress : ℚ := (elapsed : ℚ) / (s.move_duration_ : ℚ)
      let s1 := { s with current_angle_ :=
                    s.start_angle_ + (s.target_angle_ - s.start_angle_) * progress }
      if s1.is_attached_ then s1.setPulseWidth (s1.angleToPulseWidth s1.current_angle_)
      else s1

/-- Method `update()` with the `float` arithmetic of the source, where `update` above
computes exactly: `progress` is the quotient of the two 32-bit values converted to
`float`, and the difference, the product and the sum of the interpolation are each
rounded to `float`.  The two definitions differ in the angle written by the
interpolating branch and in nothing else. -/
def update32 (s : ServoController) (current_time : Nat) : ServoController :=
  if !s.is_moving_ then s
  else
    let elapsed := sub32 current_time s.move_start_time_
    if elapsed ≥ s.move_duration_ then
      { (s.setAngle s.target_angle_) with is_moving_ := false }
    else
      let progress : ℚ := f32 (f32 (elapsed : ℚ) / f32 (s.move_duration_ : ℚ))
      let angle : ℚ :=
        f32 (s.start_angle_ + f32 (f32 (s.target_angle_ - s.start_angle_) * progress))
      let s1 := { s with current_angle_ := angle }
      if s1.is_attached_ then s1.setPulseWidth (s1.angleToPulseWidth s1.current_angle_)
      else s1

/-- Method `isMoving()`. -/
def isMoving (s : ServoController) : Bool := s.is_moving_

/-- Method `getCurrentAngle()`. -/
def getCurrentAngle (s : ServoController) : ℚ := s.current_angle_

/-- Method `detach()`. -/
def detach (s : ServoController) : ServoController :=
  { s with pwm_enabled := false, is_attached_ := false }

/-- Method `attach()`. -/
def attach (s : ServoController) : ServoController :=
  if !s.is_attached_ then
    let s1 := { s with pwm_enabled := true, is_attached_ := true }
    s1.setAngle s1.current_angle_
  else s

end ServoController

/-! ## Buzzer (`src/lib/buttons/Buzzer.cpp`), non-blocking part -/

/-- Fields of `class Buzzer`. -/
structure Buzzer where
  pin_ : Nat
  state_ : Bool
  pattern_active_ : Bool
  pattern_count_ : Nat
  pattern_current_ : Nat
  beep_duration_ : Nat
  pause_duration_ : Nat
  pattern_start_time_ : Nat
  pattern_beep_state_ : Bool
deriving DecidableEq, Repr

namespace Buzzer

/-- Constructor `Buzzer(pin)`. -/
def new (pin : Nat) : Buzzer :=
  { pin_ := pin, state_ := false, pattern_active_ := false,
    pattern_count_ := 0, pattern_current_ := 0, beep_duration_ := 0,
    pause_duration_ := 0, pattern_start_time_ := 0, pattern_beep_state_ := false }

/-- Method `on()` (`on` is reserved in Lean). -/
def switchOn (b : Buzzer) : Buzzer := { b with state_ := true }

/-- Method `off()`. -/
def switchOff (b : Buzzer) : Buzzer := { b with state_ := false }

/-- Method `startBeepPattern(beep_count, beep_duration_ms, pause_duration_ms)`;
`time` is the clock value read. -/
def startBeepPattern (b : Buzzer) (beep_count beep_duration_ms pause_duration_ms : Nat)
    (time : Nat) : Buzzer :=
  switchOn { b with
              pattern_count_ := beep_count % 256, pattern_current_ := 0,
              beep_duration_ := beep_duration_ms % 4294967296,
              pause_duration_ := pause_duration_ms % 4294967296,
              pattern_start_time_ := time, pattern_beep_state_ := true,
              pattern_active_ := true }

/-- Method `updatePattern()`; `current_time` is the clock value read. -/
def updatePattern (b : Buzzer) (current_time : Nat) : Buzzer :=
  let elapsed := sub32 current_time b.pattern_start_time_
  if b.pattern_beep_state_ then
    if elapsed ≥ b.beep_duration_ then
      let b1 : Buzzer := { b.switchOff with
                             pattern_beep_state_ := false,
                             pattern_start_time_ := current_time,
                             pattern_current_ := (b.pattern_current_ + 1) % 256 }
      if b1.pattern_current_ ≥ b1.pattern_count_ then { b1 with pattern_active_ := false }
      else b1
    else b
  else
    if elapsed ≥ b.pause_duration_ then
      { b.switchOn with pattern_beep_state_ := true, pattern_start_time_ := current_time }
    else b

/-- Method `update()`; `current_time` is the clock value read. -/
def update (b : Buzzer) (current_time : Nat) : Buzzer :=
  if !b.pattern_active_ then b else b.updatePattern current_time

/-- Method `isPlaying()`. -/
def isPlaying (b : Buzzer) : Bool := b.pattern_active_

end Buzzer

/-! ## Keypad4x4 (`src/lib/keypad/Keypad4x4.cpp`) -/

/-- The character `'\0'` that `getKey()` returns for "no key". -/
def NUL : Char := Char.ofNat 0

/-- Fields of `class Keypad4x4`; `polls` counts the calls of `getKey()` and is not
read by the code. -/
structure Keypad4x4 where
  last_key_ : Char
  last_key_time_ : Nat
  polls : Nat
deriving DecidableEq, Repr

namespace Keypad4x4

/-- Value of `DEBOUNCE_TIME_MS` in `Keypad4x4.h`. -/
def DEBOUNCE_TIME_MS : Nat := 50

/-- The table `KEYS[4][4]`. -/
def KEYS : List (List Char) :=
  [['1', '2', '3', 'A'],
   ['4', '5', '6', 'B'],
   ['7', '8', '9', 'C'],
   ['*', '0', '#', 'D']]

/-- Constructor. -/
def new : Keypad4x4 := { last_key_ := NUL, last_key_time_ := 0, polls := 0 }

/-- Method `scanRow(row)`: the first column that reads low while `row` is driven
low; `down row col` says whether the key at that crossing is closed. -/
def scanRow (down : Nat → Nat → Bool) (row : Nat) : Option Nat :=
  (List.range 4).find? (fun col => down row col)

/-- The row loop of `getKey()`: the first row, in scan order, with a closed key. -/
def scan (down : Nat → Nat → Bool) : Option (Nat × Nat) :=
  (List.range 4).findSome? (fun row => (scanRow down row).map (fun col => (row, col)))

/-- Method `getKey()`: the returned character and the keypad afterwards;
`current_time` is the clock value read. -/
def getKey (k : Keypad4x4) (down : Nat → Nat → Bool) (current_time : Nat) :
    Char × Keypad4x4 :=
  let k := { k with polls := k.polls + 1 }
  match scan down with
  | some (row, col) =>
    let key := (KEYS.getD row []).getD col NUL
    if key != k.last_key_ || sub32 current_time k.last_key_time_ > DEBOUNCE_TIME_MS then
      (key, { k with last_key_ := key, last_key_time_ := current_time })
    else (NUL, k)
  | none => (NUL, { k with last_key_ := NUL })

end Keypad4x4

/-! ## Ultrasonic (`src/lib/ultrasonic/Ultrasonic.cpp`) -/

namespace Ultrasonic

/-- Value of `SOUND_SPEED_CM_PER_US`: `0.0343 / 2`. -/
def SOUND_SPEED_CM_PER_US : ℚ := (343 / 10000) / 2

/-- Method `measureDistance()`; `pulse_duration` is the result of
`measureEchoPulse()`, 0 on timeout. -/
def measureDistance (pulse_duration : Nat) : ℚ :=
  if pulse_duration = 0 then -1 else (pulse_duration : ℚ) * SOUND_SPEED_CM_PER_US

end Ultrasonic

/-! ## Configuration (`src/include/config.h`) -/

def BUTTON_STOP_PIN : Nat := 17
def BUTTON_HOME_PIN : Nat := 18
def BUTTON_MANUAL_FWD_PIN : Nat := 19
def BUTTON_MANUAL_REV_PIN : Nat := 20
def BUTTON_GRIP_PIN : Nat := 21
def BUTTON_LIMIT_PIN : Nat := 22
def SERVO_GRIPPER_PIN : Nat := 15
def BUZZER_PIN : Nat := 26

/-- The table `PUZZLE_POSITIONS[9]`, millimetres from home. -/
def PUZZLE_POSITIONS : List ℚ := [50, 100, 150, 200, 250, 300, 350, 400, 450]

def DROP_OFF_POSITION : ℚ := 500
def HOME_POSITION : ℚ := 0
def MM_PER_SECOND : ℚ := 50
def MOTOR_SPEED : Nat := 70
def GRIPPER_OPEN_ANGLE : ℚ := 90
def GRIPPER_CLOSED_ANGLE : ℚ := 30
def OBJECT_DETECTION_THRESHOLD_CM : ℚ := 8
def SERVO_MOVE_TIME_MS : Nat := 500
def PICKUP_DELAY_MS : Nat := 300
def RELEASE_DELAY_MS : Nat := 300

/-- The enumeration `RobotState`. -/
inductive RobotState where
  | STATE_INIT
  | STATE_HOMING
  | STATE_IDLE
  | STATE_WAIT_INPUT
  | STATE_MOVE_TO_PICKUP
  | STATE_VERIFY_OBJECT
  | STATE_PICKUP
  | STATE_MOVE_TO_DROPOFF
  | STATE_RELEASE
  | STATE_RETURN_HOME
  | STATE_ERROR
  | STATE_MANUAL_CONTROL
deriving DecidableEq, Repr

/-! ## The program state and its environment (`src/main.cpp`) -/

/-- The physical inputs as functions of time in milliseconds: the level of a GPIO
input pin, the closed crossings of the keypad matrix, and the echo pulse length in
microseconds that a ranging started at that time measures (0 on timeout). -/
structure Env where
  gpio_get : Nat → Nat → Bool
  key_down : Nat → Nat → Nat → Bool
  echo_pulse_us : Nat → Nat

/-- The global objects and variables of `main.cpp`, the static local
`state_start_time` of `updateStateMachine`, the time, and `sound`, the record of
the blocking buzzer calls (pin level and duration of each of their sleeps), which
the code does not read. -/
structure Robot where
  now : Nat
  keypad : Keypad4x4
  motor : MotorDriver
  gripperServo : ServoController
  buzzer : Buzzer
  stopButton : PushButton
  homeButton : PushButton
  manualFwdButton : PushButton
  manualRevButton : PushButton
  gripButton : PushButton
  limitSwitch : PushButton
  currentState : RobotState
  currentPosition : ℚ
  selectedPuzzlePiece : Int
  gripperClosed : Bool
  state_start_time : Nat
  sound : List (Bool × Nat)
deriving DecidableEq

/-- The value of `to_ms_since_boot(get_absolute_time())`. -/
def to_ms_since_boot (r : Robot) : Nat := r.now % 4294967296

/-- The call `sleep_ms(d)`. -/
def sleep_ms (d : Nat) (r : Robot) : Robot := { r with now := r.now + d }

/-- Passage of `d` milliseconds of execution time between two ticks. -/
def elapse (d : Nat) (r : Robot) : Robot := { r with now := r.now + d }

/-! ### Blocking buzzer calls -/

/-- A `sleep_ms(d)` inside a `Buzzer` method, recorded with the pin level it holds. -/
def buzzerSleep (d : Nat) (r : Robot) : Robot :=
  { r with now := r.now + d, sound := r.sound ++ [(r.buzzer.state_, d)] }

/-- Method `Buzzer::beep(duration_ms)`. -/
def beep (duration_ms : Nat) (r : Robot) : Robot :=
  let r1 := { r with buzzer := r.buzzer.switchOn }
  let r2 := buzzerSleep duration_ms r1
  { r2 with buzzer := r2.buzzer.switchOff }

/-- Method `Buzzer::playStartupSequence()`. -/
def playStartupSequence (r : Robot) : Robot :=
  buzzerSleep 100 (beep 200 (buzzerSleep 100 (beep 100 (buzzerSleep 100 (beep 100 r)))))

/-- Method `Buzzer::playSuccessBeep()`. -/
def playSuccessBeep (r : Robot) : Robot :=
  beep 100 (buzzerSleep 50 (beep 100 r))

/-- Method `Buzzer::playErrorBeep()`: the loop body runs three times. -/
def playErrorBeep (r : Robot) : Robot :=
  Nat.iterate (fun x => buzzerSleep 100 (beep 150 x)) 3 r

/-- Method `Buzzer::playConfirmBeep()`. -/
def playConfirmBeep (r : Robot) : Robot := beep 100 r

/-! ### Input and actuator refresh -/

/-- One `update()` of button `b`, sampling its pin and the clock. -/
def readButton (env : Env) (r : Robot) (b : PushButton) : PushButton :=
  b.update (b.readRaw (env.gpio_get b.pin_ r.now)) (to_ms_since_boot r)

/-- Function `updateButtons()`. -/
def updateButtons (env : Env) (r : Robot) : Robot :=
  { r with
      stopButton := readButton env r r.stopButton,
      homeButton := readButton env r r.homeButton,
      manualFwdButton := readButton env r r.manualFwdButton,
      manualRevButton := readButton env r r.manualRevButton,
      gripButton := readButton env r r.gripButton,
      limitSwitch := readButton env r r.limitSwitch }

/-- Function `updateServos()`. -/
def updateServos (r : Robot) : Robot :=
  { r with gripperServo := r.gripperServo.update (to_ms_since_boot r) }

/-- The call `buzzer.update()` of the main loop. -/
def updateBuzzer (r : Robot) : Robot :=
  { r with buzzer := r.buzzer.update (to_ms_since_boot r) }

/-- Function `showError(message)`. -/
def showError (r : Robot) : Robot :=
  { (playErrorBeep r) with currentState := .STATE_ERROR }

/-! ### Homing -/

/-- The wait loop of `homeLinearRail()`.  The flag of the result is true when the
function left through the timeout `return`. -/
def homeWait (env : Env) (home_start_time : Nat) : Nat → Robot → Run (Robot × Bool)
  | 0, _ => .outOfFuel
  | fuel + 1, r =>
    if r.limitSwitch.isPressed then .done (r, false)
    else
      let r1 := { r with limitSwitch := readButton env r r.limitSwitch }
      let r2 := sleep_ms 10 r1
      if sub32 (to_ms_since_boot r2) home_start_time > 10000 then
        .done (showError { r2 with motor := r2.motor.stop }, true)
      else homeWait env home_start_time fuel r2

/-- Function `homeLinearRail()`. -/
def homeLinearRail (env : Env) (fuel : Nat) (r : Robot) : Run Robot :=
  let r1 := { r with motor := r.motor.run 50 .REVERSE }
  let home_start_time := to_ms_since_boot r1
  (homeWait env home_start_time fuel r1).bind fun res =>
    if res.2 then .done res.1
    else
      let r2 := res.1
      .done (playConfirmBeep
        { r2 with motor := r2.motor.stop, currentPosition := HOME_POSITION })

/-! ### Timed moves -/

/-- The `return` statement through which `moveToPosition` left. -/
inductive MoveExit where
  | alreadyThere
  | arrived
  | emergencyStop
deriving DecidableEq, Repr

/-- The value of `(fabs(distance) / MM_PER_SECOND) * 1000.0f`.  The program calls
`fabs` unqualified, which is the C function on `double`: the `float` operands are
converted to `double`, and the quotient and the product are rounded to `double`. -/
def move_time (distance : ℚ) : ℚ :=
  f64 (f64 (|distance| / MM_PER_SECOND) * 1000)

/-- The expression `(uint32_t)((fabs(distance) / MM_PER_SECOND) * 1000.0f)`: the
value truncated to an integer.  The conversion is defined for values below `2^32`,
which every distance of the program gives; above that range the definition reduces
modulo `2^32`. -/
def move_time_ms (distance : ℚ) : Nat :=
  (Int.toNat ⌊move_time distance⌋) % 4294967296

/-- The wait loop of `moveToPosition`.  The flag of the result is true when the
function left through the emergency-stop `return`. -/
def moveWait (env : Env) : Nat → Robot → Run (Robot × Bool)
  | 0, _ => .outOfFuel
  | fuel + 1, r =>
    let c := r.motor.isMovementComplete (to_ms_since_boot r)
    let r1 := { r with motor := c.2 }
    if c.1 then .done (r1, false)
    else
      let r2 := updateButtons env r1
      let p := r2.stopButton.wasPressed
      let r3 := { r2 with stopButton := p.2 }
      if p.1 then .done (playErrorBeep { r3 with motor := r3.motor.stop }, true)
      else moveWait env fuel (sleep_ms 10 r3)

/-- Function `moveToPosition(target_position_mm)`, with the exit taken. -/
def moveToPosition (env : Env) (fuel : Nat) (r : Robot) (target_position_mm : ℚ) :
    Run (Robot × MoveExit) :=
  let distance := target_position_mm - r.currentPosition
  if distance = 0 then .done (r, .alreadyThere)
  else
    let direction := if distance > 0 then Direction.FORWARD else Direction.REVERSE
    let m := r.motor.moveFor MOTOR_SPEED direction (move_time_ms distance)
      (to_ms_since_boot r)
    let r1 := { r with motor := m }
    (moveWait env fuel r1).bind fun res =>
      if res.2 then .done (res.1, .emergencyStop)
      else .done ({ res.1 with currentPosition := target_position_mm }, .arrived)

/-! ### Manual control -/

/-- Function `handleManualControl()`. -/
def handleManualControl (r : Robot) : Robot :=
  let r1 :=
    if r.manualFwdButton.isPressed then
      { r with motor := r.motor.run MOTOR_SPEED .FORWARD }
    else if r.manualRevButton.isPressed then
      { r with motor := r.motor.run MOTOR_SPEED .REVERSE }
    else
      { r with motor := r.motor.stop }
  let g := r1.gripButton.wasPressed
  let r2 := { r1 with gripButton := g.2 }
  if g.1 then
    let r3 :=
      if r2.gripperClosed then
        { r2 with
            gripperServo := (r2.gripperServo.moveToAngle GRIPPER_OPEN_ANGLE
              SERVO_MOVE_TIME_MS (to_ms_since_boot r2)),
            gripperClosed := false }
      else
        { r2 with
            gripperServo := (r2.gripperServo.moveToAngle GRIPPER_CLOSED_ANGLE
              SERVO_MOVE_TIME_MS (to_ms_since_boot r2)),
            gripperClosed := true }
    playConfirmBeep r3
  else r2

/-! ### Pickup and release -/

/-- The loop `while (gripperServo.isMoving()) { updateServos(); sleep_ms(10); }`. -/
def servoWait : Nat → Robot → Run Robot
  | 0, _ => .outOfFuel
  | fuel + 1, r =>
    if r.gripperServo.isMoving then servoWait fuel (sleep_ms 10 (updateServos r))
    else .done r

/-- Function `pickupPuzzlePiece()`. -/
def pickupPuzzlePiece (fuel : Nat) (r : Robot) : Run Robot :=
  let r1 := sleep_ms PICKUP_DELAY_MS r
  let g := r1.gripperServo.moveToAngle GRIPPER_CLOSED_ANGLE SERVO_MOVE_TIME_MS
    (to_ms_since_boot r1)
  let r2 := { r1 with gripperServo := g }
  (servoWait fuel r2).bind fun r3 =>
    .done (playConfirmBeep (sleep_ms 200 { r3 with gripperClosed := true }))

/-- Function `releasePuzzlePiece()`. -/
def releasePuzzlePiece (fuel : Nat) (r : Robot) : Run Robot :=
  let r1 := sleep_ms RELEASE_DELAY_MS r
  let g := r1.gripperServo.moveToAngle GRIPPER_OPEN_ANGLE SERVO_MOVE_TIME_MS
    (to_ms_since_boot r1)
  let r2 := { r1 with gripperServo := g }
  (servoWait fuel r2).bind fun r3 =>
    .done (playSuccessBeep (sleep_ms 200 { r3 with gripperClosed := false }))

/-! ### Keypad waits -/

/-- One call `keypad.getKey()` at the current time. -/
def pollKey (env : Env) (r : Robot) : Char × Robot :=
  let g := r.keypad.getKey (env.key_down r.now) (to_ms_since_boot r)
  (g.1, { r with keypad := g.2 })

/-- First loop of `Keypad4x4::waitForKey()`: wait until no key is reported. -/
def waitNoKey (env : Env) : Nat → Robot → Run Robot
  | 0, _ => .outOfFuel
  | fuel + 1, r =>
    let g := pollKey env r
    if g.1 != NUL then waitNoKey env fuel (sleep_ms 10 g.2) else .done g.2

/-- Second loop of `Keypad4x4::waitForKey()`: wait for a key. -/
def waitAnyKey (env : Env) : Nat → Robot → Run (Char × Robot)
  | 0, _ => .outOfFuel
  | fuel + 1, r =>
    let g := pollKey env r
    let r1 := sleep_ms 10 g.2
    if g.1 == NUL then waitAnyKey env fuel r1 else .done (g.1, r1)

/-- Method `Keypad4x4::waitForKey()`. -/
def waitForKey (env : Env) (fuel : Nat) (r : Robot) : Run (Char × Robot) :=
  (waitNoKey env fuel r).bind fun r1 => waitAnyKey env fuel r1

/-! ### The workflow state machine -/

/-- Function `updateStateMachine()`: one workflow step. -/
def updateStateMachine (env : Env) (fuel : Nat) (r : Robot) : Run Robot :=
  match r.currentState with
  | .STATE_INIT =>
    .done { r with state_start_time := to_ms_since_boot r, currentState := .STATE_HOMING }
  | .STATE_HOMING =>
    (homeLinearRail env fuel r).bind fun r1 =>
      .done { r1 with currentState := .STATE_IDLE }
  | .STATE_IDLE =>
    .done { r with currentState := .STATE_WAIT_INPUT }
  | .STATE_WAIT_INPUT =>
    let g := pollKey env r
    let key := g.1
    let r1 := g.2
    if '1' ≤ key ∧ key ≤ '9' then
      let r2 := { r1 with selectedPuzzlePiece := (key.toNat : Int) - ('0'.toNat : Int) }
      .done { (playConfirmBeep r2) with currentState := .STATE_MOVE_TO_PICKUP }
    else .done r1
  | .STATE_MOVE_TO_PICKUP =>
    let i := r.selectedPuzzlePiece - 1
    if 0 ≤ i ∧ i < 9 then
      (moveToPosition env fuel r (PUZZLE_POSITIONS.getD i.toNat 0)).bind fun res =>
        .done { res.1 with currentState := .STATE_VERIFY_OBJECT }
    else .undefinedBehaviour
  | .STATE_VERIFY_OBJECT =>
    let distance := Ultrasonic.measureDistance (env.echo_pulse_us r.now)
    if distance < 0 then
      .done { (showError r) with currentState := .STATE_IDLE }
    else if distance > OBJECT_DETECTION_THRESHOLD_CM then
      (waitForKey env fuel (showError r)).bind fun res =>
        .done { res.2 with currentState := .STATE_VERIFY_OBJECT }
    else
      .done { r with currentState := .STATE_PICKUP }
  | .STATE_PICKUP =>
    (pickupPuzzlePiece fuel r).bind fun r1 =>
      .done { r1 with currentState := .STATE_MOVE_TO_DROPOFF }
  | .STATE_MOVE_TO_DROPOFF =>
    (moveToPosition env fuel r DROP_OFF_POSITION).bind fun res =>
      .done { res.1 with currentState := .STATE_RELEASE }
  | .STATE_RELEASE =>
    (releasePuzzlePiece fuel r).bind fun r1 =>
      .done { r1 with currentState := .STATE_RETURN_HOME }
  | .STATE_RETURN_HOME =>
    (moveToPosition env fuel r HOME_POSITION).bind fun res =>
      .done { (playSuccessBeep res.1) with currentState := .STATE_IDLE }
  | .STATE_ERROR =>
    (waitForKey env fuel r).bind fun res =>
      .done { res.2 with currentState := .STATE_IDLE }
  | .STATE_MANUAL_CONTROL => .done r

/-! ### One pass of the main loop -/

/-- Steps (1) and (2) of a tick: `updateButtons(); updateServos(); buzzer.update();`. -/
def refresh (env : Env) (r : Robot) : Robot :=
  updateBuzzer (updateServos (updateButtons env r))

/-- The block `if (stopButton.wasPressed()) { ... }` of the main loop. -/
def emergencyStopCheck (r : Robot) : Robot :=
  let p := r.stopButton.wasPressed
  let r1 := { r with stopButton := p.2 }
  if p.1 then
    playErrorBeep { r1 with motor := r1.motor.stop, currentState := .STATE_IDLE }
  else r1

/-- The block `if (homeButton.wasPressed()) { ... }` of the main loop. -/
def homeCheck (r : Robot) : Robot :=
  let p := r.homeButton.wasPressed
  let r1 := { r with homeButton := p.2 }
  if p.1 then { r1 with currentState := .STATE_HOMING } else r1

/-- The condition `manualFwdButton.isPressed() || manualRevButton.isPressed() ||
gripButton.wasPressed()` with its left-to-right short-circuit evaluation: the
value and the state afterwards. -/
def manualRequested (r : Robot) : Bool × Robot :=
  if r.manualFwdButton.isPressed then (true, r)
  else if r.manualRevButton.isPressed then (true, r)
  else
    let g := r.gripButton.wasPressed
    (g.1, { r with gripButton := g.2 })

/-- The rest of a tick after the stop and home checks: either manual control
(`continue`, no sleep) or one workflow step followed by `sleep_ms(10)`. -/
def manualOrStep (env : Env) (fuel : Nat) (r : Robot) : Run Robot :=
  let m := manualRequested r
  if m.1 then .done (handleManualControl m.2)
  else (updateStateMachine env fuel m.2).bind fun r2 => .done (sleep_ms 10 r2)

/-- Steps (3) and (4) of a tick: the preemption checks in program order, then
manual control or the workflow step. -/
def dispatch (env : Env) (fuel : Nat) (r : Robot) : Run Robot :=
  manualOrStep env fuel (homeCheck (emergencyStopCheck r))

/-- One pass of the `while (true)` loop of `main()`. -/
def tick (env : Env) (fuel : Nat) (r : Robot) : Run Robot :=
  dispatch env fuel (refresh env r)

/-! ### Start-up -/

/-- The global objects and variables as constructed before `main()` runs. -/
def globals : Robot :=
  { now := 0,
    keypad := Keypad4x4.new,
    motor := MotorDriver.new,
    gripperServo := ServoController.new SERVO_GRIPPER_PIN 500 2500,
    buzzer := Buzzer.new BUZZER_PIN,
    stopButton := PushButton.new BUTTON_STOP_PIN true,
    homeButton := PushButton.new BUTTON_HOME_PIN true,
    manualFwdButton := PushButton.new BUTTON_MANUAL_FWD_PIN true,
    manualRevButton := PushButton.new BUTTON_MANUAL_REV_PIN true,
    gripButton := PushButton.new BUTTON_GRIP_PIN true,
    limitSwitch := PushButton.new BUTTON_LIMIT_PIN true,
    currentState := .STATE_INIT,
    currentPosition := 0,
    selectedPuzzlePiece := 0,
    gripperClosed := false,
    state_start_time := 0,
    sound := [] }

/-- The call `init()` of button `b`, sampling its pin and the clock. -/
def initButton (env : Env) (r : Robot) (b : PushButton) : PushButton :=
  b.init (env.gpio_get b.pin_ r.now) (to_ms_since_boot r)

/-- Function `initializeHardware()`; `keypad.init()` sleeps 10 ms and
`ultrasonic.init()` 50 ms. -/
def initializeHardware (env : Env) (r : Robot) : Robot :=
  let r1 := sleep_ms 50 (sleep_ms 10 r)
  let r2 := { r1 with motor := r1.motor.init, gripperServo := r1.gripperServo.init,
                      buzzer := r1.buzzer.switchOff }
  let r3 := { r2 with
      stopButton := initButton env r2 r2.stopButton,
      homeButton := initButton env r2 r2.homeButton,
      manualFwdButton := initButton env r2 r2.manualFwdButton,
      manualRevButton := initButton env r2 r2.manualRevButton,
      gripButton := initButton env r2 r2.gripButton,
      limitSwitch := initButton env r2 r2.limitSwitch }
  { r3 with gripperServo := r3.gripperServo.setAngle GRIPPER_OPEN_ANGLE,
            gripperClosed := false, currentState := .STATE_HOMING }

/-- The part of `main()` before the loop. -/
def boot (env : Env) : Robot :=
  playStartupSequence (initializeHardware env (sleep_ms 2000 globals))

/-- The first `n` passes of the main loop, with no execution time between them. -/
def ticks (env : Env) (fuel : Nat) : Nat → Robot → Run Robot
  | 0, r => .done r
  | n + 1, r => (tick env fuel r).bind fun r1 => ticks env fuel n r1

/-! ## Concrete scenarios -/

/-- An environment given by the time windows in which each button is held down
(the pins are pulled up, so a held button reads low), the keypad crossings closed
and the echo pulse measured. -/
def scenario (held : Nat → Nat → Bool) (key_down : Nat → Nat → Nat → Bool)
    (echo_pulse_us : Nat → Nat) : Env :=
  { gpio_get := fun pin t => !(held pin t), key_down := key_down,
    echo_pulse_us := echo_pulse_us }

/-- The time `t` lies in the window from `a` (included) to `b` (excluded). -/
def during (a b t : Nat) : Bool := decide (a ≤ t ∧ t < b)

/-- A pick of piece 1: the limit switch closes at 3000 ms, key `1` is held from
3200 ms to 3400 ms, the object is seen at 3.43 cm, and the emergency stop is held
from 6500 ms to 6700 ms, while the rail travels to the drop-off. -/
def envStopInDropoff : Env :=
  scenario
    (fun pin t =>
      (pin == BUTTON_LIMIT_PIN && during 3000 3400 t) ||
      (pin == BUTTON_STOP_PIN && during 6500 6700 t))
    (fun t row col => row == 0 && col == 0 && during 3200 3400 t)
    (fun _ => 200)

/-- The buttons `pins` held from 2800 ms to 3000 ms; the rail rests on the limit
switch all the time, no key, no echo. -/
def envPress (pins : List Nat) : Env :=
  scenario
    (fun q t => q == BUTTON_LIMIT_PIN || (pins.contains q && during 2800 3000 t))
    (fun _ _ _ => false)
    (fun _ => 0)

/-- The limit switch never closes and the emergency stop is held from 5000 ms on. -/
def envStopInHoming : Env :=
  scenario
    (fun pin t => pin == BUTTON_STOP_PIN && decide (5000 ≤ t))
    (fun _ _ _ => false)
    (fun _ => 0)

/-- The state reached from power-up after `n` passes of the main loop in `env`. -/
def afterTicks (env : Env) (n : Nat) : Robot :=
  (ticks env 2000 n (boot env)).getD globals

/-- The state in which `moveToPosition(50)` returns when it is called right after
power-up and the emergency stop is pressed at 2800 ms. -/
def stoppedMove : Robot :=
  ((moveToPosition (envPress [BUTTON_STOP_PIN]) 100
      (boot (envPress [BUTTON_STOP_PIN])) 50).getD (globals, .arrived)).1

/-- Manual forward held from 2800 ms: the state after the pass at 3020 ms, in which
the input is still debounced-pressed. -/
def manualHeld : Robot :=
  (tick (envPress [BUTTON_MANUAL_FWD_PIN]) 10
    (elapse 100 (afterTicks (envPress [BUTTON_MANUAL_FWD_PIN]) 7))).getD globals

/-! ## Sequences of calls of the driver methods -/

/-- A call of a public method of `PushButton`; `update` carries the raw sample and
the clock value it reads. -/
inductive ButtonOp where
  | update (raw : Bool) (current_time : Nat)
  | isPressed
  | wasPressed
  | wasReleased
deriving DecidableEq, Repr

/-- The call `op` on button `b`: the value returned (false for `update`, which
returns nothing) and the button afterwards. -/
def PushButton.call (b : PushButton) : ButtonOp → Bool × PushButton
  | .update raw current_time => (false, b.update raw current_time)
  | .isPressed => (b.isPressed, b)
  | .wasPressed => b.wasPressed
  | .wasReleased => b.wasReleased

/-- The button after the calls `ops`, made in order. -/
def PushButton.calls (b : PushButton) (ops : List ButtonOp) : PushButton :=
  ops.foldl (fun acc op => (acc.call op).2) b

/-- Successive calls of `isMovementComplete()` at the clock values `times`: the
values returned and the motor afterwards. -/
def MotorDriver.polls (m : MotorDriver) : List Nat → List Bool × MotorDriver
  | [] => ([], m)
  | t :: ts => ((m.isMovementComplete t).1 :: ((m.isMovementComplete t).2.polls ts).1,
      ((m.isMovementComplete t).2.polls ts).2)

/-- The angle `a` clamped into the range 0 to 180 degrees, in the words of the
specification: 0 below the range, 180 above it, `a` inside. -/
def clampedAngle (a : ℚ) : ℚ := if a < 0 then 0 else if a > 180 then 180 else a

/-- Successive calls of `ServoController::update()` at the clock values `times`. -/
def ServoController.updates (s : ServoController) (times : List Nat) : ServoController :=
  times.foldl (fun acc t => acc.update t) s

/-- A call of a public method of `ServoController` that writes the object, with its
arguments and the clock value it reads. -/
inductive ServoOp where
  | init
  | setAngle (angle : ℚ)
  | moveToAngle (target_angle : ℚ) (duration_ms : Nat) (time : Nat)
  | update (current_time : Nat)
  | detach
  | attach
deriving DecidableEq

/-- The servo after the call `op`. -/
def ServoController.call (s : ServoController) : ServoOp → ServoController
  | .init => s.init
  | .setAngle angle => s.setAngle angle
  | .moveToAngle target_angle duration_ms time => s.moveToAngle target_angle duration_ms time
  | .update current_time => s.update current_time
  | .detach => s.detach
  | .attach => s.attach

/-- The servo after the calls `ops`, made in order. -/
def ServoController.calls (s : ServoController) (ops : List ServoOp) : ServoController :=
  ops.foldl (fun acc op => acc.call op) s

/-- The gripper servo as constructed in `main.cpp`. -/
def gripper : ServoController := ServoController.new SERVO_GRIPPER_PIN 500 2500


/-- Successive calls of `ServoController::update()` at the clock values `times`, in
`float` arithmetic. -/
def ServoController.updates32 (s : ServoController) (times : List Nat) : ServoController :=
  times.foldl (fun acc t => acc.update32 t) s

/-- A value of type `float` passed as an angle: not-a-number, an infinity, or a
number. -/
inductive FloatArg where
  | nan
  | negInf
  | posInf
  | num (q : ℚ)
deriving DecidableEq

/-- The comparison `x < c` of a `float` with a constant; false when `x` is NaN. -/
def FloatArg.lt (x : FloatArg) (c : ℚ) : Bool :=
  match x with
  | .nan => false
  | .negInf => true
  | .posInf => false
  | .num q => decide (q < c)

/-- The comparison `x > c` of a `float` with a constant; false when `x` is NaN. -/
def FloatArg.gt (x : FloatArg) (c : ℚ) : Bool :=
  match x with
  | .nan => false
  | .negInf => false
  | .posInf => true
  | .num q => decide (q > c)

/-- The clamp at the head of `setAngle` and of `moveToAngle`,
`if (angle < 0.0f) angle = 0.0f; if (angle > 180.0f) angle = 180.0f;`: the value
the method goes on to store. -/
def FloatArg.clamp (angle : FloatArg) : FloatArg :=
  let angle := if angle.lt 0 then .num 0 else angle
  if angle.gt 180 then .num 180 else angle

/-- The test `0 <= x && x <= 180` on a `float`; false when `x` is NaN. -/
def FloatArg.inRange (x : FloatArg) : Bool :=
  match x with
  | .num q => decide (0 ≤ q ∧ q ≤ 180)
  | _ => false

/-- The servo after the call `op`, with `update()` in `float` arithmetic. -/
def ServoController.call32 (s : ServoController) : ServoOp → ServoController
  | .init => s.init
  | .setAngle angle => s.setAngle angle
  | .moveToAngle target_angle duration_ms time => s.moveToAngle target_angle duration_ms time
  | .update current_time => s.update32 current_time
  | .detach => s.detach
  | .attach => s.attach

/-- The servo after the calls `ops`, made in order, with `update()` in `float`
arithmetic. -/
def ServoController.calls32 (s : ServoController) (ops : List ServoOp) : ServoController :=
  ops.foldl (fun acc op => acc.call32 op) s

/-- The angle passed by the call, if it passes one, is a `float` value. -/
def ServoOp.floatArg : ServoOp → Bool
  | .setAngle angle => decide (f32 angle = angle)
  | .moveToAngle target_angle _ _ => decide (f32 target_angle = target_angle)
  | _ => true

/-- The three stored angles are `float` values in the range 0 to 180 degrees. -/
def ServoController.InRange32 (s : ServoController) : Prop :=
  ((0 ≤ s.current_angle_ ∧ s.current_angle_ ≤ 180) ∧
    (0 ≤ s.target_angle_ ∧ s.target_angle_ ≤ 180) ∧
    (0 ≤ s.start_angle_ ∧ s.start_angle_ ≤ 180)) ∧
  f32 s.current_angle_ = s.current_angle_ ∧ f32 s.target_angle_ = s.target_angle_ ∧
  f32 s.start_angle_ = s.start_angle_

/-- The three stored angles of the servo lie in the range 0 to 180 degrees. -/
def ServoController.InRange (s : ServoController) : Prop :=
  (0 ≤ s.current_angle_ ∧ s.current_angle_ ≤ 180) ∧
  (0 ≤ s.target_angle_ ∧ s.target_angle_ ≤ 180) ∧
  (0 ≤ s.start_angle_ ∧ s.start_angle_ ≤ 180)

/-! ## Runs of the beep pattern and of keypad polls -/

/-- Successive calls of `Buzzer::update()` at the clock values `times`. -/
def Buzzer.updates (b : Buzzer) (times : List Nat) : Buzzer :=
  times.foldl (fun acc t => acc.update t) b

/-- The number of updates among `times` that turn the output from on to off, that
is, that end an on-phase. -/
def Buzzer.switchedOff (b : Buzzer) : List Nat → Nat
  | [] => 0
  | t :: ts =>
    (if b.state_ && !(b.update t).state_ then 1 else 0) + (b.update t).switchedOff ts

/-- The number of updates among `times` that turn the output from off to on, that
is, that end an off-phase. -/
def Buzzer.switchedOn (b : Buzzer) : List Nat → Nat
  | [] => 0
  | t :: ts =>
    (if !b.state_ && (b.update t).state_ then 1 else 0) + (b.update t).switchedOn ts

/-- The phases of a pattern of `n` beeps: an on-phase with fewer than `n` beeps
completed, an off-phase after at least one and fewer than `n` beeps, or the end of
the pattern with `n` beeps completed and the output off. -/
def Buzzer.InPattern (n : Nat) (b : Buzzer) : Prop :=
  b.pattern_count_ = n ∧
  ((b.pattern_active_ = true ∧ b.pattern_beep_state_ = true ∧ b.state_ = true ∧
      b.pattern_current_ < n) ∨
   (b.pattern_active_ = true ∧ b.pattern_beep_state_ = false ∧ b.state_ = false ∧
      1 ≤ b.pattern_current_ ∧ b.pattern_current_ < n) ∨
   (b.pattern_active_ = false ∧ b.pattern_beep_state_ = false ∧ b.state_ = false ∧
      b.pattern_current_ = n))

/-- The number of off-phases a pattern has completed: one less than the number of
completed beeps unless it is in an on-phase. -/
def Buzzer.pausesDone (b : Buzzer) : Nat :=
  if b.pattern_beep_state_ then b.pattern_current_ else b.pattern_current_ - 1


/-- A pattern of three 100 ms beeps with 50 ms pauses, started at 1000 ms. -/
def threeBeeps : Buzzer := (Buzzer.new BUZZER_PIN).startBeepPattern 3 100 50 1000

/-- The clock values of `m` updates spaced `gap` ms apart, the first one `gap` ms
after `t`. -/
def everyGap (gap : Nat) : Nat → Nat → List Nat
  | _, 0 => []
  | t, m + 1 => (t + gap) :: everyGap gap (t + gap) m

/-- The number of phase ends a pattern still has to go through: an on-phase and an
off-phase for every beep not yet started, less the off-phase after the last beep. -/
def Buzzer.phasesLeft (b : Buzzer) : Nat :=
  if !b.pattern_active_ then 0
  else if b.pattern_beep_state_ then 2 * (b.pattern_count_ - b.pattern_current_) - 1
  else 2 * (b.pattern_count_ - b.pattern_current_)

/-- The character `KEYS[row][col]`. -/
def Keypad4x4.keyAt (row col : Nat) : Char := (Keypad4x4.KEYS.getD row []).getD col NUL

/-- Successive `getKey()` polls, each given by the closed crossings and the clock
value at the poll: the characters returned and the keypad afterwards. -/
def Keypad4x4.getKeys (k : Keypad4x4) :
    List ((Nat → Nat → Bool) × Nat) → List Char × Keypad4x4
  | [] => ([], k)
  | p :: ps => ((k.getKey p.1 p.2).1 :: ((k.getKey p.1 p.2).2.getKeys ps).1,
      ((k.getKey p.1 p.2).2.getKeys ps).2)

/-- Key `5` held down, polled every 10 ms from 0 ms to 100 ms. -/
def held5 : List ((Nat → Nat → Bool) × Nat) :=
  (List.range 11).map fun i => (fun row col => row == 1 && col == 1, 10 * i)

/-- The wait of `homeLinearRail()` as that function starts it: the motor running in
reverse at speed 50 and the start time just read.  The flag of the result is true
when the wait left through the timeout. -/
def homingWait (env : Env) (fuel : Nat) (r : Robot) : Run (Robot × Bool) :=
  homeWait env (to_ms_since_boot r) fuel { r with motor := r.motor.run 50 .REVERSE }

/-- A pick of piece 1 with nothing at the pickup place: the limit switch closes at
3000 ms, key `1` is held from 3200 ms to 3400 ms, the echo pulse of 1000 us reads
17.15 cm, and key `2` is held from 6000 ms to 6200 ms. -/
def envNoObject : Env :=
  scenario
    (fun pin t => pin == BUTTON_LIMIT_PIN && during 3000 3400 t)
    (fun t row col => (row == 0 && col == 0 && during 3200 3400 t) ||
      (row == 0 && col == 1 && during 6000 6200 t))
    (fun _ => 1000)

/-- A pick of piece 1 with a ranging sensor that times out: the limit switch closes
at 3000 ms, key `1` is held from 3200 ms to 3400 ms, no echo pulse is measured, and
no key is pressed afterwards. -/
def envSensorFailure : Env :=
  scenario
    (fun pin t => pin == BUTTON_LIMIT_PIN && during 3000 3400 t)
    (fun t row col => row == 0 && col == 0 && during 3200 3400 t)
    (fun _ => 0)

/-- No input at all: no button is ever pressed, the limit switch never closes. -/
def envNoInput : Env :=
  scenario (fun _ _ => false) (fun _ _ _ => false) (fun _ => 0)

/-- A complete pick of piece 1 with no other input: the limit switch closes at
3000 ms, key `1` is held from 3200 ms to 3400 ms, the object is seen at 3.43 cm. -/
def envPickOne : Env :=
  scenario
    (fun pin t => pin == BUTTON_LIMIT_PIN && during 3000 3400 t)
    (fun t row col => row == 0 && col == 0 && during 3200 3400 t)
    (fun _ => 200)

/-! ## Runs of workflow steps -/

/-- The input of button `b` is never asserted (the pin is pulled up and reads high at
every time) and the object is at rest: every state bit released, no press pending. -/
def NeverPressed (env : Env) (b : PushButton) : Prop :=
  b.pull_up_ = true ∧ b.current_state_ = false ∧ b.last_state_ = false ∧
  b.debounced_state_ = false ∧ b.press_event_ = false ∧
  ∀ t, env.gpio_get b.pin_ t = true

/-- Successive workflow steps: `n` calls of `updateStateMachine()`, one after the
other. -/
def steps (env : Env) (fuel : Nat) : Nat → Robot → Run Robot
  | 0, r => .done r
  | n + 1, r => (updateStateMachine env fuel r).bind fun r1 => steps env fuel n r1

/-- The workflow states visited by `n` successive workflow steps: the state in which
each step starts, then the state the last one leaves. -/
def visited (env : Env) (fuel : Nat) : Nat → Robot → Run (List RobotState)
  | 0, r => .done [r.currentState]
  | n + 1, r =>
    (updateStateMachine env fuel r).bind fun r1 =>
      (visited env fuel n r1).map fun l => r.currentState :: l

/-- The key character polled by a WAIT_INPUT step that starts in `r`. -/
def polledKey (env : Env) (r : Robot) : Char := (pollKey env r).1

/-- The distance reading taken by a VERIFY_OBJECT step that starts in `r`. -/
def reading (env : Env) (r : Robot) : ℚ :=
  Ultrasonic.measureDistance (env.echo_pulse_us r.now)

/-- A pick of piece 5: the limit switch closes at 3000 ms, key `5` is held from
3100 ms to 3400 ms, the object is seen at 3.43 cm; no button is pressed. -/
def envPickFive : Env :=
  scenario
    (fun pin t => pin == BUTTON_LIMIT_PIN && during 3000 3400 t)
    (fun t row col => row == 1 && col == 1 && during 3100 3400 t)
    (fun _ => 200)

/-- The state at the end of start-up in `envPickFive`, put in INIT. -/
def initFive : Robot := { boot envPickFive with currentState := .STATE_INIT }

/-! ## Sound patterns and the start of a move -/

/-- The error pattern as a sequence of (pin level, duration in ms): three beeps of
150 ms, each followed by a pause of 100 ms. -/
def errorPattern : List (Bool × Nat) :=
  [(true, 150), (false, 100), (true, 150), (false, 100), (true, 150), (false, 100)]

/-- The success pattern: two beeps of 100 ms with a pause of 50 ms between them. -/
def successPattern : List (Bool × Nat) := [(true, 100), (false, 50), (true, 100)]

/-- The confirmation pattern: one beep of 100 ms. -/
def confirmPattern : List (Bool × Nat) := [(true, 100)]


/-- The state in which `moveToPosition(target)` enters its wait loop when the target
differs from the current position: the timed move just armed by `motor.moveFor`. -/
def startMove (r : Robot) (target_position_mm : ℚ) : Robot :=
  let distance := target_position_mm - r.currentPosition
  let direction := if distance > 0 then Direction.FORWARD else Direction.REVERSE
  { r with motor := (r.motor.moveFor MOTOR_SPEED direction (move_time_ms distance)
      (to_ms_since_boot r)) }

/-- The workflow state is consistent: in MOVE_TO_PICKUP the selected target is one of
1 to 9, and the state is neither ERROR nor MANUAL_CONTROL. -/
def Consistent (r : Robot) : Prop :=
  (r.currentState = .STATE_MOVE_TO_PICKUP →
    1 ≤ r.selectedPuzzlePiece ∧ r.selectedPuzzlePiece ≤ 9) ∧
  r.currentState ≠ .STATE_ERROR ∧ r.currentState ≠ .STATE_MANUAL_CONTROL

/-- The state in which a tick that starts in `r` reaches the test for manual control,
after the refresh and the stop and home checks, with the result of that test: when
it is false, the second component is the state in which the workflow step starts. -/
def stepStart (env : Env) (r : Robot) : Bool × Robot :=
  manualRequested (homeCheck (emergencyStopCheck (refresh env r)))

/-- The states in which the program can stand at the top of the `while (true)` loop
of `main()` in the environment `env`: the state after start-up; from such a state,
the state `d` milliseconds of execution time later; and the state in which a pass
that starts in such a state returns, whatever the bound `fuel` on its inner loops. -/
inductive Reachable (env : Env) : Robot → Prop
  | start : Reachable env (boot env)
  | wait (d : Nat) (r : Robot) : Reachable env r → Reachable env (elapse d r)
  | pass (fuel : Nat) (r r' : Robot) : Reachable env r → tick env fuel r = .done r' →
      Reachable env r'

/-- Passes of the main loop with execution time: before each pass the next entry of
`delays`, in milliseconds, elapses. -/
def passes (env : Env) (fuel : Nat) : List Nat → Robot → Run Robot
  | [], r => .done r
  | d :: delays, r => (tick env fuel (elapse d r)).bind fun r1 => passes env fuel delays r1

/-- A pick of piece 1 after a tap on the manual-forward button: the limit switch
closes at 3000 ms, manual forward is held from 3500 ms to 3700 ms, key `1` is held
from 3900 ms to 4200 ms, the object is seen at 3.43 cm. -/
def envManualThenPick : Env :=
  scenario
    (fun pin t => (pin == BUTTON_LIMIT_PIN && during 3000 3400 t) ||
      (pin == BUTTON_MANUAL_FWD_PIN && during 3500 3700 t))
    (fun t row col => row == 0 && col == 0 && during 3900 4200 t)
    (fun _ => 200)

/-- The execution times, in milliseconds, before the successive passes of the run in
`envManualThenPick`: the fourth to sixth pass fall into the manual-forward hold. -/
def manualPickDelays : List Nat := [0, 0, 330, 60, 100, 60, 60, 140]

/-- The state reached from power-up in `envManualThenPick` after the first `n` passes
of that run. -/
def afterPasses (n : Nat) : Robot :=
  (passes envManualThenPick 2000 (manualPickDelays.take n)
    (boot envManualThenPick)).getD globals

/-! # Theorems -/

/-! ## Binary floating point: rounding is monotone and exact on representable numbers -/

/-- The powers of two: `pow2 e` is `2^e`, positive, multiplicative and strictly
increasing in the exponent, and a power of two is a whole multiple of every smaller
one. -/
theorem pow2_facts :
    (∀ e : ℤ, pow2 e = (2 : ℚ) ^ e) ∧
    (∀ e : ℤ, 0 < pow2 e) ∧
    (∀ a b : ℤ, pow2 (a + b) = pow2 a * pow2 b) ∧
    (∀ {a b : ℤ}, a ≤ b → pow2 a ≤ pow2 b) ∧
    (∀ {a b : ℤ}, pow2 a < pow2 b ↔ a < b) ∧
    (∀ n : ℕ, pow2 (n : ℤ) = ((2 ^ n : ℕ) : ℚ)) ∧
    (∀ {a g : ℤ}, g ≤ a → pow2 a = (((2 ^ (a - g).toNat : ℕ) : ℤ) : ℚ) * pow2 g) ∧
    (∀ a : ℤ, pow2 (a + 1) = 2 * pow2 a) := by
  have pow2_eq : ∀ e : ℤ, pow2 e = (2 : ℚ) ^ e := by
    intro e
    unfold pow2
    split
    · rename_i h
      have h1 : (e.toNat : ℤ) = e := Int.toNat_of_nonneg h
      rw [Nat.cast_pow, Nat.cast_ofNat, ← zpow_natCast, h1]
    · rename_i h
      have h1 : ((-e).toNat : ℤ) = -e := Int.toNat_of_nonneg (by omega)
      rw [Nat.cast_pow, Nat.cast_ofNat, ← zpow_natCast, h1, zpow_neg, one_div, inv_inv]
  have pow2_pos : ∀ e : ℤ, 0 < pow2 e := by
    intro e
    rw [pow2_eq]; positivity
  have pow2_add : ∀ a b : ℤ, pow2 (a + b) = pow2 a * pow2 b := by
    intro a b
    simp only [pow2_eq]
    exact zpow_add₀ (by norm_num) a b
  have pow2_le_pow2 : ∀ {a b : ℤ}, a ≤ b → pow2 a ≤ pow2 b := by
    intro a b h
    simp only [pow2_eq]
    exact zpow_le_zpow_right₀ (by norm_num) h
  have pow2_lt_pow2_iff : ∀ {a b : ℤ}, pow2 a < pow2 b ↔ a < b := by
    intro a b
    simp only [pow2_eq]
    exact zpow_lt_zpow_iff_right₀ (by norm_num)
  have pow2_natCast : ∀ n : ℕ, pow2 (n : ℤ) = ((2 ^ n : ℕ) : ℚ) := by
    intro n
    rw [pow2_eq, zpow_natCast, Nat.cast_pow, Nat.cast_ofNat]
  have pow2_on_grid : ∀ {a g : ℤ}, g ≤ a →
      pow2 a = (((2 ^ (a - g).toNat : ℕ) : ℤ) : ℚ) * pow2 g := by
    intro a g h
    have h1 : ((a - g).toNat : ℤ) = a - g := Int.toNat_of_nonneg (by omega)
    rw [Int.cast_natCast, ← pow2_natCast, h1, ← pow2_add]
    congr 1
    omega
  have pow2_succ : ∀ a : ℤ, pow2 (a + 1) = 2 * pow2 a := by
    intro a
    have h1 : pow2 1 = 2 := by rw [pow2_eq]; norm_num
    rw [pow2_add, h1, mul_comm]
  exact ⟨pow2_eq, pow2_pos, pow2_add, pow2_le_pow2, pow2_lt_pow2_iff, pow2_natCast,
    pow2_on_grid, pow2_succ⟩

theorem bitLength_spec :
    ∀ (fuel n : Nat), n ≤ fuel →
      n < 2 ^ bitLength fuel n ∧ (n ≠ 0 → 2 ^ (bitLength fuel n - 1) ≤ n) := by
  intro fuel
  induction fuel with
  | zero =>
    intro n h
    have : n = 0 := by omega
    subst this
    simp [bitLength]
  | succ fuel ih =>
    intro n h
    unfold bitLength
    by_cases hn : n = 0
    · subst hn; simp
    · rw [if_neg hn]
      obtain ⟨h1, h2⟩ := ih (n / 2) (by omega)
      constructor
      · rw [pow_succ]; omega
      · intro _
        rw [Nat.add_sub_cancel]
        by_cases h0 : n / 2 = 0
        · have hb : bitLength fuel (n / 2) = 0 := by
            rw [h0]; cases fuel <;> simp [bitLength]
          rw [hb]; simp; omega
        · have h3 := h2 h0
          have hb : 1 ≤ bitLength fuel (n / 2) := by
            by_contra hc
            have : bitLength fuel (n / 2) = 0 := by omega
            rw [this] at h1
            simp at h1
            exact h0 h1
          have : 2 ^ bitLength fuel (n / 2) = 2 * 2 ^ (bitLength fuel (n / 2) - 1) := by
            conv_lhs => rw [show bitLength fuel (n / 2) = (bitLength fuel (n / 2) - 1) + 1 by omega]
            rw [pow_succ, mul_comm]
          omega

/-- The exponent brackets the magnitude: `2^e ≤ |x| < 2^(e+1)`. -/
theorem binExponent_spec (x : ℚ) (hx : x ≠ 0) :
    pow2 (binExponent x) ≤ |x| ∧ |x| < pow2 (binExponent x + 1) := by
  obtain ⟨_, pow2_pos, pow2_add, _, _, pow2_natCast, _, _⟩ := pow2_facts
  have hN0 : x.num.natAbs ≠ 0 := by
    simpa using hx
  have hD0 : x.den ≠ 0 := x.den_nz
  obtain ⟨hN1, hN2⟩ := bitLength_spec x.num.natAbs x.num.natAbs le_rfl
  obtain ⟨hD1, hD2⟩ := bitLength_spec x.den x.den le_rfl
  have hN2 := hN2 hN0
  have hD2 := hD2 hD0
  set a := bitLength x.num.natAbs x.num.natAbs with ha
  set b := bitLength x.den x.den with hb
  have ha1 : 1 ≤ a := by
    by_contra hc
    have : a = 0 := by omega
    rw [this, pow_zero] at hN1; omega
  have hb1 : 1 ≤ b := by
    by_contra hc
    have : b = 0 := by omega
    rw [this, pow_zero] at hD1; omega
  have habs : |x| = (x.num.natAbs : ℚ) / (x.den : ℚ) := by
    conv_lhs => rw [← Rat.num_div_den x]
    rw [abs_div, Nat.abs_cast, ← Int.cast_abs, Int.abs_eq_natAbs, Int.cast_natCast]
  have hDpos : (0 : ℚ) < x.den := by exact_mod_cast Nat.pos_of_ne_zero hD0
  have qN1 : (x.num.natAbs : ℚ) < pow2 a := by
    rw [pow2_natCast]; exact_mod_cast hN1
  have qN2 : pow2 ((a : ℤ) - 1) ≤ (x.num.natAbs : ℚ) := by
    have : ((a : ℤ) - 1) = ((a - 1 : ℕ) : ℤ) := by omega
    rw [this, pow2_natCast]; exact_mod_cast hN2
  have qD1 : (x.den : ℚ) < pow2 b := by
    rw [pow2_natCast]; exact_mod_cast hD1
  have qD2 : pow2 ((b : ℤ) - 1) ≤ (x.den : ℚ) := by
    have : ((b : ℤ) - 1) = ((b - 1 : ℕ) : ℤ) := by omega
    rw [this, pow2_natCast]; exact_mod_cast hD2
  have hlow : pow2 ((a : ℤ) - b - 1) ≤ |x| := by
    rw [habs, le_div_iff₀ hDpos]
    calc pow2 ((a : ℤ) - b - 1) * (x.den : ℚ)
        ≤ pow2 ((a : ℤ) - b - 1) * pow2 b :=
          mul_le_mul_of_nonneg_left qD1.le (pow2_pos _).le
      _ = pow2 ((a : ℤ) - 1) := by rw [← pow2_add]; congr 1; omega
      _ ≤ _ := qN2
  have hupp : |x| < pow2 ((a : ℤ) - b + 1) := by
    rw [habs, div_lt_iff₀ hDpos]
    calc (x.num.natAbs : ℚ) < pow2 a := qN1
      _ = pow2 ((a : ℤ) - b + 1) * pow2 ((b : ℤ) - 1) := by
          rw [← pow2_add]; congr 1; omega
      _ ≤ pow2 ((a : ℤ) - b + 1) * (x.den : ℚ) :=
          mul_le_mul_of_nonneg_left qD2 (pow2_pos _).le
  show pow2 (if pow2 ((a : ℤ) - b) ≤ |x| then (a : ℤ) - b else (a : ℤ) - b - 1) ≤ |x| ∧
    |x| < pow2 ((if pow2 ((a : ℤ) - b) ≤ |x| then (a : ℤ) - b else (a : ℤ) - b - 1) + 1)
  split
  · rename_i h
    exact ⟨h, hupp⟩
  · rename_i h
    refine ⟨hlow, ?_⟩
    rw [show (a : ℤ) - b - 1 + 1 = (a : ℤ) - b by omega]
    exact not_le.mp h

/-- Rounding to the nearest integer leaves an integer unchanged, is monotone, and
moves a number by at most one half. -/
theorem roundHalfEven_facts :
    (∀ n : ℤ, roundHalfEven (n : ℚ) = n) ∧
    (∀ {x y : ℚ}, x ≤ y → roundHalfEven x ≤ roundHalfEven y) ∧
    (∀ x : ℚ, |(roundHalfEven x : ℚ) - x| ≤ 1 / 2) := by
  refine ⟨?_, ?_, ?_⟩
  · intro n
    simp [roundHalfEven]
  · intro x y h
    have hf : ⌊x⌋ ≤ ⌊y⌋ := Int.floor_le_floor h
    have hx1 := Int.floor_le x
    have hx2 := Int.lt_floor_add_one x
    have hy1 := Int.floor_le y
    have hy2 := Int.lt_floor_add_one y
    rcases hf.lt_or_eq with hlt | heq
    · have hxle : roundHalfEven x ≤ ⌊x⌋ + 1 := by
        unfold roundHalfEven; split_ifs <;> omega
      have hyge : ⌊y⌋ ≤ roundHalfEven y := by
        unfold roundHalfEven; split_ifs <;> omega
      omega
    · unfold roundHalfEven
      rw [← heq]
      have hxy : x - ⌊x⌋ ≤ y - ⌊x⌋ := by linarith
      split_ifs <;> first | omega | (exfalso; linarith)
  · intro x
    have hx1 := Int.floor_le x
    have hx2 := Int.lt_floor_add_one x
    rw [abs_le]
    unfold roundHalfEven
    split_ifs <;> push_cast <;> constructor <;> linarith

/-- Rounding and order.  A whole multiple of the spacing at `x` bounds the rounded
value as it bounds `x`; rounding keeps the sign and zero, and is monotone. -/
theorem roundBin_order (prec : Nat) (emin : ℤ) (hp : 1 ≤ prec) :
    (∀ x : ℚ, 0 < ulp prec emin x) ∧
    (∀ (x : ℚ) (n : ℤ),
      (x ≤ n * ulp prec emin x → roundBin prec emin x ≤ n * ulp prec emin x) ∧
      ((n : ℚ) * ulp prec emin x ≤ x →
        (n : ℚ) * ulp prec emin x ≤ roundBin prec emin x)) ∧
    (∀ {x : ℚ}, 0 ≤ x → 0 ≤ roundBin prec emin x) ∧
    (∀ {x : ℚ}, x ≤ 0 → roundBin prec emin x ≤ 0) ∧
    roundBin prec emin 0 = 0 ∧
    (∀ {x y : ℚ}, x ≤ y → roundBin prec emin x ≤ roundBin prec emin y) := by
  obtain ⟨_, pow2_pos, _, pow2_le_pow2, pow2_lt_pow2_iff, _, pow2_on_grid, _⟩ := pow2_facts
  obtain ⟨roundHalfEven_intCast, roundHalfEven_mono, _⟩ := roundHalfEven_facts
  have ulp_pos : ∀ x : ℚ, 0 < ulp prec emin x := fun x => pow2_pos _
  have roundBin_grid : ∀ (x : ℚ) (n : ℤ),
      (x ≤ n * ulp prec emin x → roundBin prec emin x ≤ n * ulp prec emin x) ∧
      ((n : ℚ) * ulp prec emin x ≤ x →
        (n : ℚ) * ulp prec emin x ≤ roundBin prec emin x) := by
    intro x n
    have hu := ulp_pos x
    constructor
    · intro h
      have h1 : x / ulp prec emin x ≤ n := by rwa [div_le_iff₀ hu]
      have h2 := roundHalfEven_mono h1
      rw [roundHalfEven_intCast] at h2
      unfold roundBin
      exact mul_le_mul_of_nonneg_right (by exact_mod_cast h2) hu.le
    · intro h
      have h1 : (n : ℚ) ≤ x / ulp prec emin x := by rwa [le_div_iff₀ hu]
      have h2 := roundHalfEven_mono h1
      rw [roundHalfEven_intCast] at h2
      unfold roundBin
      exact mul_le_mul_of_nonneg_right (by exact_mod_cast h2) hu.le
  have roundBin_nonneg : ∀ {x : ℚ}, 0 ≤ x → 0 ≤ roundBin prec emin x := by
    intro x h
    have := (roundBin_grid x 0).2 (by simpa using h)
    simpa using this
  have roundBin_nonpos : ∀ {x : ℚ}, x ≤ 0 → roundBin prec emin x ≤ 0 := by
    intro x h
    have := (roundBin_grid x 0).1 (by simpa using h)
    simpa using this
  -- a power of two not below the spacing at `x`, and its negative, bound the rounded
  -- value as they bound `x`
  have roundBin_pow2 : ∀ (x : ℚ) (a : ℤ),
      max (binExponent x) emin - ((prec : ℤ) - 1) ≤ a →
      (x ≤ pow2 a → roundBin prec emin x ≤ pow2 a) ∧
      (pow2 a ≤ x → pow2 a ≤ roundBin prec emin x) ∧
      (x ≤ -pow2 a → roundBin prec emin x ≤ -pow2 a) ∧
      (-pow2 a ≤ x → -pow2 a ≤ roundBin prec emin x) := by
    intro x a h
    have hg := pow2_on_grid h
    have hg' : -pow2 a
        = ((-((2 ^ (a - (max (binExponent x) emin - ((prec : ℤ) - 1))).toNat : ℕ) : ℤ) : ℤ)
            : ℚ) * pow2 (max (binExponent x) emin - ((prec : ℤ) - 1)) := by
      rw [Int.cast_neg, neg_mul, ← hg]
    have hu : ulp prec emin x = pow2 (max (binExponent x) emin - ((prec : ℤ) - 1)) := rfl
    refine ⟨?_, ?_, ?_, ?_⟩
    · intro hx
      have := (roundBin_grid x _).1 (by rw [hu, ← hg]; exact hx)
      rwa [hu, ← hg] at this
    · intro hx
      have := (roundBin_grid x _).2 (by rw [hu, ← hg]; exact hx)
      rwa [hu, ← hg] at this
    · intro hx
      have := (roundBin_grid x _).1 (by rw [hu, ← hg']; exact hx)
      rwa [hu, ← hg'] at this
    · intro hx
      have := (roundBin_grid x _).2 (by rw [hu, ← hg']; exact hx)
      rwa [hu, ← hg'] at this
  have roundBin_same_ulp : ∀ {x y : ℚ}, x ≤ y → ulp prec emin x = ulp prec emin y →
      roundBin prec emin x ≤ roundBin prec emin y := by
    intro x y h hu
    unfold roundBin
    rw [hu]
    have hpos := ulp_pos y
    have h1 : x / ulp prec emin y ≤ y / ulp prec emin y :=
      div_le_div_of_nonneg_right h hpos.le
    exact mul_le_mul_of_nonneg_right (by exact_mod_cast roundHalfEven_mono h1) hpos.le
  have binExponent_le : ∀ {x y : ℚ}, x ≠ 0 → y ≠ 0 → |x| ≤ |y| →
      binExponent x ≤ binExponent y := by
    intro x y hx hy h
    obtain ⟨x1, _⟩ := binExponent_spec x hx
    obtain ⟨_, y2⟩ := binExponent_spec y hy
    have h1 : pow2 (binExponent x) < pow2 (binExponent y + 1) :=
      lt_of_le_of_lt (x1.trans h) y2
    have := pow2_lt_pow2_iff.mp h1
    omega
  refine ⟨ulp_pos, roundBin_grid, roundBin_nonneg, roundBin_nonpos,
    le_antisymm (roundBin_nonpos le_rfl) (roundBin_nonneg le_rfl), ?_⟩
  intro x y h
  rcases le_or_lt x 0 with hx0 | hx0
  · rcases le_or_lt 0 y with hy0 | hy0
    · exact (roundBin_nonpos hx0).trans (roundBin_nonneg hy0)
    · have hxneg : x < 0 := lt_of_le_of_lt h hy0
      have hle : binExponent y ≤ binExponent x :=
        binExponent_le (ne_of_lt hy0) (ne_of_lt hxneg)
          (by rw [abs_of_neg hy0, abs_of_neg hxneg]; linarith)
      by_cases heq : max (binExponent y) emin = max (binExponent x) emin
      · exact roundBin_same_ulp h (by unfold ulp; rw [heq])
      · obtain ⟨x1, _⟩ := binExponent_spec x (ne_of_lt hxneg)
        obtain ⟨_, y2⟩ := binExponent_spec y (ne_of_lt hy0)
        rw [abs_of_neg hxneg] at x1
        rw [abs_of_neg hy0] at y2
        have hlt : binExponent y + 1 ≤ binExponent x := by omega
        have hy3 : -pow2 (binExponent x) ≤ y := by
          have := pow2_le_pow2 hlt
          linarith
        have a1 := (roundBin_pow2 x (binExponent x) (by omega)).2.2.1 (by linarith)
        have a2 := (roundBin_pow2 y (binExponent x) (by omega)).2.2.2 hy3
        exact a1.trans a2
  · have hypos : 0 < y := lt_of_lt_of_le hx0 h
    have hle : binExponent x ≤ binExponent y :=
      binExponent_le (ne_of_gt hx0) (ne_of_gt hypos)
        (by rw [abs_of_pos hx0, abs_of_pos hypos]; exact h)
    by_cases heq : max (binExponent x) emin = max (binExponent y) emin
    · exact roundBin_same_ulp h (by unfold ulp; rw [heq])
    · obtain ⟨_, x2⟩ := binExponent_spec x (ne_of_gt hx0)
      obtain ⟨y1, _⟩ := binExponent_spec y (ne_of_gt hypos)
      rw [abs_of_pos hx0] at x2
      rw [abs_of_pos hypos] at y1
      have hlt : binExponent x + 1 ≤ binExponent y := by omega
      have hx3 : x ≤ pow2 (binExponent y) := by
        have := pow2_le_pow2 hlt
        linarith
      have a1 := (roundBin_pow2 x (binExponent y) (by omega)).1 hx3
      have a2 := (roundBin_pow2 y (binExponent y) (by omega)).2.1 y1
      exact a1.trans a2

/-- Rounding and the numbers of the format.  Rounding leaves a number of the format
unchanged (an integer of fewer than `prec` bits times a power of two not below the
least spacing; in particular a natural number below `2^prec`); the rounded value is
such a number, so rounding it again or negating it gives a number of the format; and
below `2^(k+1)` the rounding error is at most `2^(k - prec)`, half the spacing. -/
theorem roundBin_exact (prec : Nat) (emin : ℤ) (hp : 1 ≤ prec) :
    (∀ m k : ℤ, emin - ((prec : ℤ) - 1) ≤ k → |m| < 2 ^ prec →
      roundBin prec emin ((m : ℚ) * pow2 k) = (m : ℚ) * pow2 k) ∧
    (∀ n : ℕ, emin ≤ (prec : ℤ) - 1 → n < 2 ^ prec → roundBin prec emin (n : ℚ) = n) ∧
    (∀ x : ℚ, roundBin prec emin (roundBin prec emin x) = roundBin prec emin x) ∧
    (∀ x : ℚ, roundBin prec emin x = x → roundBin prec emin (-x) = -x) ∧
    (∀ (x : ℚ) (k : ℤ), emin ≤ k → |x| < pow2 (k + 1) →
      |roundBin prec emin x - x| ≤ pow2 (k - (prec : ℤ))) := by
  obtain ⟨pow2_eq, pow2_pos, pow2_add, pow2_le_pow2, pow2_lt_pow2_iff, pow2_natCast,
    pow2_on_grid, pow2_succ⟩ := pow2_facts
  obtain ⟨roundHalfEven_intCast, roundHalfEven_mono, roundHalfEven_error⟩ :=
    roundHalfEven_facts
  obtain ⟨ulp_pos, roundBin_grid, _, _, roundBin_zero, _⟩ := roundBin_order prec emin hp
  have roundBin_fix : ∀ m k : ℤ, emin - ((prec : ℤ) - 1) ≤ k → |m| < 2 ^ prec →
      roundBin prec emin ((m : ℚ) * pow2 k) = (m : ℚ) * pow2 k := by
    intro m k hk hm
    by_cases hm0 : m = 0
    · subst hm0
      simp only [Int.cast_zero, zero_mul]
      exact roundBin_zero
    have hgrid : max (binExponent ((m : ℚ) * pow2 k)) emin - ((prec : ℤ) - 1) ≤ k := by
      have hne : (m : ℚ) * pow2 k ≠ 0 :=
        mul_ne_zero (by exact_mod_cast hm0) (ne_of_gt (pow2_pos k))
      obtain ⟨c1, _⟩ := binExponent_spec _ hne
      rw [abs_mul, abs_of_pos (pow2_pos k)] at c1
      have hm' : |(m : ℚ)| < pow2 (prec : ℤ) := by
        rw [pow2_natCast, ← Int.cast_abs]
        exact_mod_cast hm
      have : pow2 (binExponent ((m : ℚ) * pow2 k)) < pow2 ((prec : ℤ) + k) := by
        rw [pow2_add]
        exact lt_of_le_of_lt c1 (mul_lt_mul_of_pos_right hm' (pow2_pos k))
      have := pow2_lt_pow2_iff.mp this
      omega
    have hg := pow2_on_grid hgrid
    have hu : ulp prec emin ((m : ℚ) * pow2 k)
        = pow2 (max (binExponent ((m : ℚ) * pow2 k)) emin - ((prec : ℤ) - 1)) := rfl
    have hc : (m : ℚ) * pow2 k
        = ((m * ((2 ^ (k - (max (binExponent ((m : ℚ) * pow2 k)) emin
            - ((prec : ℤ) - 1))).toNat : ℕ) : ℤ) : ℤ) : ℚ)
          * ulp prec emin ((m : ℚ) * pow2 k) := by
      rw [hu, Int.cast_mul, mul_assoc, ← hg]
    obtain ⟨g1, g2⟩ := roundBin_grid ((m : ℚ) * pow2 k)
      (m * ((2 ^ (k - (max (binExponent ((m : ℚ) * pow2 k)) emin
            - ((prec : ℤ) - 1))).toNat : ℕ) : ℤ))
    rw [← hc] at g1 g2
    exact le_antisymm (g1 le_rfl) (g2 le_rfl)
  -- the rounded value is a number of the format
  have roundBin_rep : ∀ x : ℚ, ∃ m k : ℤ, emin - ((prec : ℤ) - 1) ≤ k ∧ |m| < 2 ^ prec ∧
      roundBin prec emin x = (m : ℚ) * pow2 k := by
    intro x
    by_cases hx : x = 0
    · subst hx
      exact ⟨0, emin - ((prec : ℤ) - 1), le_rfl, by simp, by simp [roundBin_zero]⟩
    obtain ⟨_, hupp⟩ := binExponent_spec x hx
    have hu : ulp prec emin x = pow2 (max (binExponent x) emin - ((prec : ℤ) - 1)) := rfl
    have hupos := ulp_pos x
    have hbig : pow2 (binExponent x + 1) ≤ ((2 ^ prec : ℕ) : ℚ) * ulp prec emin x := by
      rw [hu, ← pow2_natCast, ← pow2_add]
      exact pow2_le_pow2 (by omega)
    have hq1 : x / ulp prec emin x ≤ (((2 ^ prec : ℕ) : ℤ) : ℚ) := by
      rw [div_le_iff₀ hupos, Int.cast_natCast]
      exact (le_abs_self x).trans (hupp.le.trans hbig)
    have hq2 : ((-((2 ^ prec : ℕ) : ℤ) : ℤ) : ℚ) ≤ x / ulp prec emin x := by
      rw [le_div_iff₀ hupos, Int.cast_neg, Int.cast_natCast, neg_mul]
      have := (neg_abs_le x)
      linarith [hupp.le.trans hbig]
    have hn1 := roundHalfEven_mono hq1
    have hn2 := roundHalfEven_mono hq2
    rw [roundHalfEven_intCast] at hn1 hn2
    have hpow : (2 : ℤ) ^ prec = 2 * 2 ^ (prec - 1) := by
      conv_lhs => rw [show prec = (prec - 1) + 1 by omega]
      rw [pow_succ, mul_comm]
    have hpos : (0 : ℤ) < 2 ^ (prec - 1) := by positivity
    push_cast at hn1 hn2
    by_cases hlt : |roundHalfEven (x / ulp prec emin x)| < 2 ^ prec
    · exact ⟨_, max (binExponent x) emin - ((prec : ℤ) - 1), by omega, hlt, rfl⟩
    · have habs : |roundHalfEven (x / ulp prec emin x)| = 2 ^ prec := by
        apply le_antisymm
        · exact abs_le.2 ⟨hn2, hn1⟩
        · exact not_lt.1 hlt
      have h2 : pow2 (max (binExponent x) emin - ((prec : ℤ) - 1) + 1)
          = 2 * pow2 (max (binExponent x) emin - ((prec : ℤ) - 1)) := pow2_succ _
      rcases abs_eq (by positivity : (0 : ℤ) ≤ 2 ^ prec) |>.1 habs with h | h
      · refine ⟨2 ^ (prec - 1), max (binExponent x) emin - ((prec : ℤ) - 1) + 1, by omega,
          ?_, ?_⟩
        · rw [abs_of_pos hpos, hpow]; omega
        · unfold roundBin
          rw [h, h2, ← hu, hpow]
          push_cast
          ring
      · refine ⟨-2 ^ (prec - 1), max (binExponent x) emin - ((prec : ℤ) - 1) + 1, by omega,
          ?_, ?_⟩
        · rw [abs_neg, abs_of_pos hpos, hpow]; omega
        · unfold roundBin
          rw [h, h2, ← hu, hpow]
          push_cast
          ring
  refine ⟨roundBin_fix, ?_, ?_, ?_, ?_⟩
  · intro n hmin hn
    have h := roundBin_fix (n : ℤ) 0 (by omega)
      (by rw [abs_of_nonneg (by omega)]; exact_mod_cast hn)
    have h1 : pow2 0 = 1 := by rw [pow2_eq]; simp
    rw [h1, mul_one] at h
    exact_mod_cast h
  · intro x
    obtain ⟨m, k, hk, hm, h⟩ := roundBin_rep x
    rw [h]
    exact roundBin_fix m k hk hm
  · intro x h
    obtain ⟨m, k, hk, hm, h'⟩ := roundBin_rep x
    rw [h] at h'
    have := roundBin_fix (-m) k hk (by rwa [abs_neg])
    rw [h']
    push_cast at this
    rw [neg_mul] at this
    exact this
  · intro x k hk hx
    by_cases h0 : x = 0
    · subst h0
      rw [roundBin_zero, sub_zero, abs_zero]
      exact (pow2_pos _).le
    obtain ⟨hlow, _⟩ := binExponent_spec x h0
    have h1 : binExponent x < k + 1 := pow2_lt_pow2_iff.mp (lt_of_le_of_lt hlow hx)
    have h2 : ulp prec emin x ≤ pow2 (k - (prec : ℤ) + 1) :=
      pow2_le_pow2 (by omega)
    have h3 : pow2 (k - (prec : ℤ) + 1) = 2 * pow2 (k - (prec : ℤ)) := pow2_succ _
    have hu := ulp_pos x
    have h := roundHalfEven_error (x / ulp prec emin x)
    have e : roundBin prec emin x - x
        = ((roundHalfEven (x / ulp prec emin x) : ℚ) - x / ulp prec emin x)
          * ulp prec emin x := by
      unfold roundBin
      field_simp
    have herr : |roundBin prec emin x - x| ≤ ulp prec emin x / 2 := by
      rw [e, abs_mul, abs_of_pos hu]
      calc _ ≤ 1 / 2 * ulp prec emin x := mul_le_mul_of_nonneg_right h hu.le
        _ = _ := by ring
    linarith

/-- Rounding to `float`: monotone, sign-preserving, exact on `float` values (the
natural numbers below `2^24`, the rounded values and their negatives), with an error
of at most `2^-17` below 256; a sum that exceeds 180 by `2^-17` rounds to 180. -/
theorem f32_facts :
    (∀ {x y : ℚ}, x ≤ y → f32 x ≤ f32 y) ∧
    (∀ {x : ℚ}, 0 ≤ x → 0 ≤ f32 x) ∧
    (∀ {x : ℚ}, x ≤ 0 → f32 x ≤ 0) ∧
    (∀ n : ℕ, n < 16777216 → f32 (n : ℚ) = n) ∧
    (f32 0 = 0 ∧ f32 1 = 1 ∧ f32 90 = 90 ∧ f32 180 = 180) ∧
    (∀ x : ℚ, f32 (f32 x) = f32 x) ∧
    (∀ x : ℚ, f32 x = x → f32 (-x) = -x) ∧
    (∀ x : ℚ, |x| < 256 → |f32 x - x| ≤ 1 / 131072) ∧
    f32 (180 + 1 / 131072) = 180 := by
  obtain ⟨_, _, nonneg, nonpos, zero, mono⟩ := roundBin_order 24 (-126) (by norm_num)
  obtain ⟨_, natCast, idem, neg, err⟩ := roundBin_exact 24 (-126) (by norm_num)
  have hnat : ∀ n : ℕ, n < 16777216 → f32 (n : ℚ) = n :=
    fun n hn => natCast n (by norm_num) (by norm_num; exact hn)
  refine ⟨mono, nonneg, nonpos, hnat, ⟨zero, ?_, ?_, ?_⟩, idem, neg, ?_, by decide!⟩
  · exact_mod_cast hnat 1 (by norm_num)
  · exact_mod_cast hnat 90 (by norm_num)
  · exact_mod_cast hnat 180 (by norm_num)
  · intro x hx
    have h256 : pow2 (7 + 1) = 256 := by decide!
    have hpw : pow2 (7 - ((24 : ℕ) : ℤ)) = 1 / 131072 := by decide!
    have := err x 7 (by norm_num) (by rw [h256]; exact hx)
    rwa [hpw] at this

/-- Rounding to `double`: monotone, and exact on the natural numbers below `2^53`. -/
theorem f64_facts :
    (∀ {x y : ℚ}, x ≤ y → f64 x ≤ f64 y) ∧
    (∀ n : ℕ, n < 9007199254740992 → f64 (n : ℚ) = n) := by
  obtain ⟨_, _, _, _, _, mono⟩ := roundBin_order 53 (-1022) (by norm_num)
  obtain ⟨_, natCast, _, _, _⟩ := roundBin_exact 53 (-1022) (by norm_num)
  exact ⟨mono, fun n hn => natCast n (by norm_num) (by norm_num; exact hn)⟩

/-! ## Frame lemmas -/

theorem stop_Stopped (m : MotorDriver) : m.stop.Stopped := by
  simp [MotorDriver.Stopped, MotorDriver.stop, MotorDriver.setSpeed, MotorDriver.updatePWM,
    MotorDriver.setDirection]

theorem playErrorBeep_motor (r : Robot) : (playErrorBeep r).motor = r.motor := rfl
theorem playErrorBeep_currentPosition (r : Robot) :
    (playErrorBeep r).currentPosition = r.currentPosition := rfl
theorem playErrorBeep_currentState (r : Robot) :
    (playErrorBeep r).currentState = r.currentState := rfl
theorem playErrorBeep_homeButton (r : Robot) :
    (playErrorBeep r).homeButton = r.homeButton := rfl

theorem wasPressed_fst (b : PushButton) : b.wasPressed.1 = b.press_event_ := by
  unfold PushButton.wasPressed; split <;> simp_all

theorem wasPressed_snd_of_false (b : PushButton) (h : b.press_event_ = false) :
    b.wasPressed.2 = b := by
  unfold PushButton.wasPressed; simp [h]

theorem Run.bind_eq_done {α β : Type} {x : Run α} {f : α → Run β} {b : β}
    (h : x.bind f = .done b) : ∃ a, x = .done a ∧ f a = .done b := by
  cases x with
  | done a => exact ⟨a, rfl, h⟩
  | outOfFuel => simp [Run.bind] at h
  | undefinedBehaviour => simp [Run.bind] at h

/-! ## Timed moves -/

/-- C1 (evaluation of the code at the failing input). In the run `envStopInDropoff`
the workflow is in MOVE_TO_DROPOFF at position 50 mm after eight passes of the main
loop; in the ninth pass `moveToPosition` leaves through its emergency-stop `return`,
and the workflow state after that step is RELEASE, not IDLE; the motor is stopped
and the position is still 50 mm. -/
theorem C1_stop_in_dropoff_move_goes_to_release :
    (afterTicks envStopInDropoff 8).currentState = .STATE_MOVE_TO_DROPOFF ∧
    (afterTicks envStopInDropoff 8).currentPosition = 50 ∧
    (moveToPosition envStopInDropoff 2000
        (manualRequested (homeCheck (emergencyStopCheck
          (refresh envStopInDropoff (afterTicks envStopInDropoff 8))))).2
        DROP_OFF_POSITION).map (fun res => res.2) = .done .emergencyStop ∧
    (tick envStopInDropoff 2000 (afterTicks envStopInDropoff 8)).map
        (fun r => (r.currentState, r.currentPosition, r.motor.current_speed_))
      = .done (.STATE_RELEASE, 50, 0) := by
  decide!


/-- When the wait loop of `moveToPosition` leaves through the emergency-stop
`return`, the motor is at rest and the position variable was not written. -/
theorem moveWait_emergencyStop (env : Env) :
    ∀ (fuel : Nat) (r res : Robot), moveWait env fuel r = .done (res, true) →
      res.motor.Stopped ∧ res.currentPosition = r.currentPosition := by
  intro fuel
  induction fuel with
  | zero => intro r res h; simp [moveWait] at h
  | succ n ih =>
    intro r res h
    unfold moveWait at h
    simp only at h
    split at h
    · simp at h
    · split at h
      · simp only [Run.done.injEq, Prod.mk.injEq, and_true] at h
        subst h
        exact ⟨stop_Stopped _, rfl⟩
      · have := ih _ _ h
        exact ⟨this.1, this.2.trans rfl⟩

/-- C2. For every target and start position: if `moveToPosition` leaves through the
emergency-stop `return` of its wait loop (the stop press edge was detected before the
timed move completed), then on return the rail motor is stopped (speed 0, direction
BRAKE, no timed move active) and `currentPosition` still has its pre-move value,
which is not the target. -/
theorem C2_moveToPosition_stop_keeps_position (env : Env) (fuel : Nat) (r r' : Robot)
    (target : ℚ)
    (h : moveToPosition env fuel r target = .done (r', .emergencyStop)) :
    r'.motor.Stopped ∧ r'.currentPosition = r.currentPosition ∧
      r'.currentPosition ≠ target := by
  unfold moveToPosition at h
  simp only at h
  split at h
  · simp at h
  · rename_i hne
    obtain ⟨res, hw, hres⟩ := Run.bind_eq_done h
    obtain ⟨r1, flag⟩ := res
    cases flag with
    | false => simp at hres
    | true =>
      simp only [if_true, Run.done.injEq, Prod.mk.injEq, and_true] at hres
      subst hres
      have hs := moveWait_emergencyStop env fuel _ _ hw
      refine ⟨hs.1, hs.2, ?_⟩
      rw [hs.2]
      intro heq
      apply hne
      simp only at heq
      rw [heq]; simp

/-- Witness for C2: the emergency stop pressed 40 ms into a move from 0 to 50 mm. -/
theorem C2_moveToPosition_stop_keeps_position_witness :
    moveToPosition (envPress [BUTTON_STOP_PIN]) 100 (boot (envPress [BUTTON_STOP_PIN])) 50
        = .done (stoppedMove, .emergencyStop) ∧
      (stoppedMove.motor.Stopped ∧
        stoppedMove.currentPosition = (boot (envPress [BUTTON_STOP_PIN])).currentPosition ∧
        stoppedMove.currentPosition ≠ 50) :=
  ⟨by decide!,
    C2_moveToPosition_stop_keeps_position (envPress [BUTTON_STOP_PIN]) 100
      (boot (envPress [BUTTON_STOP_PIN])) stoppedMove 50 (by decide!)⟩

/-! ## The preemption checks -/

theorem emergencyStopCheck_homeButton (r : Robot) :
    (emergencyStopCheck r).homeButton = r.homeButton := by
  unfold emergencyStopCheck
  simp only
  split <;> rfl

/-- C3. For every workflow state: when the stop button's press edge is pending after
the input refresh of a tick, the emergency-stop block leaves the rail motor stopped
(speed 0, direction BRAKE, no timed move active) and the workflow state IDLE, not
ERROR, with the edge consumed; the rest of the tick (home check, manual control or
workflow step) runs after it, on that state. -/
theorem C3_emergency_stop_forces_idle (env : Env) (fuel : Nat) (r : Robot)
    (h : (refresh env r).stopButton.press_event_ = true) :
    (emergencyStopCheck (refresh env r)).motor.Stopped ∧
    (emergencyStopCheck (refresh env r)).currentState = .STATE_IDLE ∧
    (emergencyStopCheck (refresh env r)).currentState ≠ .STATE_ERROR ∧
    (emergencyStopCheck (refresh env r)).stopButton.press_event_ = false ∧
    tick env fuel r
      = manualOrStep env fuel (homeCheck (emergencyStopCheck (refresh env r))) := by
  have hs : (emergencyStopCheck (refresh env r)) =
      playErrorBeep { (refresh env r) with
        stopButton := { (refresh env r).stopButton with press_event_ := false },
        motor := (refresh env r).motor.stop, currentState := .STATE_IDLE } := by
    simp [emergencyStopCheck, PushButton.wasPressed, h]
  rw [hs]
  refine ⟨stop_Stopped _, rfl, ?_, rfl, ?_⟩
  · show RobotState.STATE_IDLE ≠ RobotState.STATE_ERROR
    decide
  · rw [← hs]; rfl

/-- Witness for C3: the stop button pressed at 2800 ms while the workflow waits for
input; the pass at 2920 ms sees the debounced press edge. -/
theorem C3_emergency_stop_forces_idle_witness :
    (refresh (envPress [BUTTON_STOP_PIN])
        (afterTicks (envPress [BUTTON_STOP_PIN]) 6)).stopButton.press_event_ = true ∧
    ((emergencyStopCheck (refresh (envPress [BUTTON_STOP_PIN])
        (afterTicks (envPress [BUTTON_STOP_PIN]) 6))).motor.Stopped ∧
     (emergencyStopCheck (refresh (envPress [BUTTON_STOP_PIN])
        (afterTicks (envPress [BUTTON_STOP_PIN]) 6))).currentState = .STATE_IDLE ∧
     (emergencyStopCheck (refresh (envPress [BUTTON_STOP_PIN])
        (afterTicks (envPress [BUTTON_STOP_PIN]) 6))).currentState ≠ .STATE_ERROR ∧
     (emergencyStopCheck (refresh (envPress [BUTTON_STOP_PIN])
        (afterTicks (envPress [BUTTON_STOP_PIN]) 6))).stopButton.press_event_ = false ∧
     tick (envPress [BUTTON_STOP_PIN]) 10 (afterTicks (envPress [BUTTON_STOP_PIN]) 6)
      = manualOrStep (envPress [BUTTON_STOP_PIN]) 10
          (homeCheck (emergencyStopCheck (refresh (envPress [BUTTON_STOP_PIN])
            (afterTicks (envPress [BUTTON_STOP_PIN]) 6))))) :=
  ⟨by decide!,
    C3_emergency_stop_forces_idle (envPress [BUTTON_STOP_PIN]) 10
      (afterTicks (envPress [BUTTON_STOP_PIN]) 6) (by decide!)⟩

/-- C4 (evaluation of the code at the failing input). In the run `envStopInHoming`
the limit switch never closes and the emergency stop is pressed at 5000 ms and held,
2240 ms into the homing wait that starts at 2760 ms.  The wait loop is still running
after 1000 iterations, that is 10 000 ms after it started (out of fuel at 1000).
`homeLinearRail` returns only through the safety timeout, taken at 12 770 ms (it
returns in state ERROR at 13 520 ms, after the 750 ms error beep), and the stop
button was never sampled: its debounced state and press flag are still false. -/
theorem C4_homing_wait_ignores_emergency_stop :
    (boot envStopInHoming).now = 2760 ∧
    (boot envStopInHoming).currentState = .STATE_HOMING ∧
    envStopInHoming.gpio_get BUTTON_STOP_PIN 5000 = false ∧
    envStopInHoming.gpio_get BUTTON_STOP_PIN 13520 = false ∧
    homeLinearRail envStopInHoming 1000 (refresh envStopInHoming (boot envStopInHoming))
      = .outOfFuel ∧
    (homeLinearRail envStopInHoming 1001
        (refresh envStopInHoming (boot envStopInHoming))).map
        (fun r => (r.now, r.currentState, r.motor.current_speed_,
          r.stopButton.debounced_state_, r.stopButton.press_event_))
      = .done (13520, .STATE_ERROR, 0, false, false) := by
  decide!

/-- C5. For every workflow state: when the home button's press edge is pending after
the input refresh of a tick, the workflow state after the stop and home checks is
HOMING, whether or not a stop press edge is pending too; the rest of the tick runs on
that state. -/
theorem C5_home_press_forces_homing (env : Env) (fuel : Nat) (r : Robot)
    (h : (refresh env r).homeButton.press_event_ = true) :
    (homeCheck (emergencyStopCheck (refresh env r))).currentState = .STATE_HOMING ∧
    tick env fuel r
      = manualOrStep env fuel (homeCheck (emergencyStopCheck (refresh env r))) := by
  refine ⟨?_, rfl⟩
  have h2 : (emergencyStopCheck (refresh env r)).homeButton.press_event_ = true := by
    rw [emergencyStopCheck_homeButton]; exact h
  simp [homeCheck, PushButton.wasPressed, h2]

/-- Witness for C5: stop and home pressed together at 2800 ms; the pass at 2920 ms
sees both press edges. -/
theorem C5_home_press_forces_homing_witness :
    ((refresh (envPress [BUTTON_STOP_PIN, BUTTON_HOME_PIN])
        (afterTicks (envPress [BUTTON_STOP_PIN, BUTTON_HOME_PIN]) 6)).homeButton.press_event_
        = true ∧
     (refresh (envPress [BUTTON_STOP_PIN, BUTTON_HOME_PIN])
        (afterTicks (envPress [BUTTON_STOP_PIN, BUTTON_HOME_PIN]) 6)).stopButton.press_event_
        = true) ∧
    ((homeCheck (emergencyStopCheck (refresh (envPress [BUTTON_STOP_PIN, BUTTON_HOME_PIN])
        (afterTicks (envPress [BUTTON_STOP_PIN, BUTTON_HOME_PIN]) 6)))).currentState
        = .STATE_HOMING ∧
     tick (envPress [BUTTON_STOP_PIN, BUTTON_HOME_PIN]) 10
        (afterTicks (envPress [BUTTON_STOP_PIN, BUTTON_HOME_PIN]) 6)
      = manualOrStep (envPress [BUTTON_STOP_PIN, BUTTON_HOME_PIN]) 10
          (homeCheck (emergencyStopCheck
            (refresh (envPress [BUTTON_STOP_PIN, BUTTON_HOME_PIN])
              (afterTicks (envPress [BUTTON_STOP_PIN, BUTTON_HOME_PIN]) 6))))) :=
  ⟨by decide!,
    C5_home_press_forces_homing (envPress [BUTTON_STOP_PIN, BUTTON_HOME_PIN]) 10
      (afterTicks (envPress [BUTTON_STOP_PIN, BUTTON_HOME_PIN]) 6) (by decide!)⟩

/-! ## Manual control -/

theorem emergencyStopCheck_of_no_edge (r : Robot) (h : r.stopButton.press_event_ = false) :
    emergencyStopCheck r = r := by
  simp [emergencyStopCheck, PushButton.wasPressed, h]

theorem homeCheck_of_no_edge (r : Robot) (h : r.homeButton.press_event_ = false) :
    homeCheck r = r := by
  simp [homeCheck, PushButton.wasPressed, h]

/-- The function `handleManualControl` writes neither the workflow state, the
selected target, the position nor the keypad. -/
theorem handleManualControl_frame (r : Robot) :
    (handleManualControl r).currentState = r.currentState ∧
    (handleManualControl r).selectedPuzzlePiece = r.selectedPuzzlePiece ∧
    (handleManualControl r).currentPosition = r.currentPosition ∧
    (handleManualControl r).keypad = r.keypad := by
  unfold handleManualControl
  simp only
  split_ifs <;> exact ⟨rfl, rfl, rfl, rfl⟩

/-- C6. For every tick in which the manual-forward or the manual-reverse input is
debounced-pressed after the input refresh and neither a stop nor a home press edge is
pending: the tick finishes, and the workflow state, the selected target, the
dead-reckoned position and the whole keypad object (its debounce memory and the count
of `getKey()` calls) are as before the tick; no key is polled or consumed, in
WAIT_INPUT as in every other state. -/
theorem C6_manual_drive_skips_workflow_step (env : Env) (fuel : Nat) (r : Robot)
    (hdrive : (refresh env r).manualFwdButton.isPressed = true ∨
      (refresh env r).manualRevButton.isPressed = true)
    (hstop : (refresh env r).stopButton.press_event_ = false)
    (hhome : (refresh env r).homeButton.press_event_ = false) :
    ∃ r', tick env fuel r = .done r' ∧
      r' = handleManualControl (refresh env r) ∧
      r'.currentState = r.currentState ∧
      r'.selectedPuzzlePiece = r.selectedPuzzlePiece ∧
      r'.currentPosition = r.currentPosition ∧
      r'.keypad = r.keypad ∧ r'.keypad.polls = r.keypad.polls := by
  have hm : manualRequested (refresh env r) = (true, refresh env r) := by
    unfold manualRequested
    rcases hdrive with h | h
    · simp [h]
    · simp [h]
  have ht : tick env fuel r = .done (handleManualControl (refresh env r)) := by
    unfold tick dispatch manualOrStep
    rw [emergencyStopCheck_of_no_edge _ hstop, homeCheck_of_no_edge _ hhome]
    simp [hm]
  have hf := handleManualControl_frame (refresh env r)
  refine ⟨_, ht, rfl, hf.1.trans rfl, hf.2.1.trans rfl, hf.2.2.1.trans rfl,
    hf.2.2.2.trans rfl, ?_⟩
  rw [hf.2.2.2]; rfl

/-- Witness for C6: manual forward pressed at 2800 ms with the workflow in
WAIT_INPUT; the pass at 2920 ms sees the input debounced-pressed. -/
theorem C6_manual_drive_skips_workflow_step_witness :
    (afterTicks (envPress [BUTTON_MANUAL_FWD_PIN]) 6).currentState = .STATE_WAIT_INPUT ∧
    ∃ r', tick (envPress [BUTTON_MANUAL_FWD_PIN]) 10
          (afterTicks (envPress [BUTTON_MANUAL_FWD_PIN]) 6) = .done r' ∧
      r' = handleManualControl (refresh (envPress [BUTTON_MANUAL_FWD_PIN])
          (afterTicks (envPress [BUTTON_MANUAL_FWD_PIN]) 6)) ∧
      r'.currentState = (afterTicks (envPress [BUTTON_MANUAL_FWD_PIN]) 6).currentState ∧
      r'.selectedPuzzlePiece
        = (afterTicks (envPress [BUTTON_MANUAL_FWD_PIN]) 6).selectedPuzzlePiece ∧
      r'.currentPosition = (afterTicks (envPress [BUTTON_MANUAL_FWD_PIN]) 6).currentPosition ∧
      r'.keypad = (afterTicks (envPress [BUTTON_MANUAL_FWD_PIN]) 6).keypad ∧
      r'.keypad.polls = (afterTicks (envPress [BUTTON_MANUAL_FWD_PIN]) 6).keypad.polls :=
  ⟨by decide!,
    C6_manual_drive_skips_workflow_step (envPress [BUTTON_MANUAL_FWD_PIN]) 10
      (afterTicks (envPress [BUTTON_MANUAL_FWD_PIN]) 6)
      (Or.inl (by decide!)) (by decide!) (by decide!)⟩

/-- The toggle branch of `handleManualControl` is dead when no drive input is held:
the main loop's condition has already consumed the grip press edge.  With the grip
edge pending, neither drive input held and no stop or home edge, the tick stops the
motor and leaves the gripper flag and the servo as they were after the refresh. -/
theorem tick_grip_edge_without_drive (env : Env) (fuel : Nat) (r : Robot)
    (_hgrip : (refresh env r).gripButton.press_event_ = true)
    (hfwd : (refresh env r).manualFwdButton.isPressed = false)
    (hrev : (refresh env r).manualRevButton.isPressed = false)
    (hstop : (refresh env r).stopButton.press_event_ = false)
    (hhome : (refresh env r).homeButton.press_event_ = false) :
    ∃ r', tick env fuel r = .done r' ∧ r'.gripperClosed = r.gripperClosed ∧
      r'.gripperServo = (refresh env r).gripperServo ∧
      r'.gripButton.press_event_ = false := by
  unfold tick dispatch manualOrStep
  rw [emergencyStopCheck_of_no_edge _ hstop, homeCheck_of_no_edge _ hhome]
  simp [manualRequested, hfwd, hrev, PushButton.wasPressed, _hgrip, handleManualControl,
    PushButton.isPressed]
  simp [PushButton.isPressed] at hfwd hrev
  simp [hfwd, hrev]
  rfl

/-- C7 (evaluation of the code at the failing input). In the run
`envPress [BUTTON_GRIP_PIN]` the grip button is pressed at 2800 ms; in the pass at
2920 ms its press edge is pending after the refresh, neither drive input is held and
the gripper is open.  The pass consumes the edge and leaves `gripperClosed` false
and the servo idle at its target of 90 degrees: the gripper is not toggled and no
interpolation is armed. -/
theorem C7_grip_edge_does_not_toggle_gripper :
    (refresh (envPress [BUTTON_GRIP_PIN])
        (afterTicks (envPress [BUTTON_GRIP_PIN]) 6)).gripButton.press_event_ = true ∧
    (refresh (envPress [BUTTON_GRIP_PIN])
        (afterTicks (envPress [BUTTON_GRIP_PIN]) 6)).manualFwdButton.isPressed = false ∧
    (refresh (envPress [BUTTON_GRIP_PIN])
        (afterTicks (envPress [BUTTON_GRIP_PIN]) 6)).manualRevButton.isPressed = false ∧
    (afterTicks (envPress [BUTTON_GRIP_PIN]) 6).gripperClosed = false ∧
    (tick (envPress [BUTTON_GRIP_PIN]) 10 (afterTicks (envPress [BUTTON_GRIP_PIN]) 6)).map
        (fun r => (r.gripperClosed, r.gripperServo.is_moving_, r.gripperServo.target_angle_,
          r.gripButton.press_event_))
      = .done (false, false, 90, false) ∧
    (ticks (envPress [BUTTON_GRIP_PIN]) 10 100 (afterTicks (envPress [BUTTON_GRIP_PIN]) 6)).map
        (fun r => (r.gripperClosed, r.gripperServo.current_angle_))
      = .done (false, 90) := by
  decide!

/-- C8 (evaluation of the code at the failing input). In the run
`envPress [BUTTON_MANUAL_FWD_PIN]` manual forward is held from 2800 ms to 3000 ms.
In the pass at 3020 ms the input is still debounced-pressed and the rail runs forward
at speed 70 (`manualHeld`).  In the next pass, 60 ms later, no drive input is held,
no grip, stop or home edge is pending, the workflow is in WAIT_INPUT and no key is
down; after that pass, and after 100 further passes, the rail motor still runs
forward at speed 70. -/
theorem C8_rail_keeps_running_after_release :
    (refresh (envPress [BUTTON_MANUAL_FWD_PIN])
        (elapse 100 (afterTicks (envPress [BUTTON_MANUAL_FWD_PIN]) 7))).manualFwdButton.isPressed
      = true ∧
    (manualHeld.motor.current_speed_, manualHeld.motor.current_direction_)
      = (70, Direction.FORWARD) ∧
    (refresh (envPress [BUTTON_MANUAL_FWD_PIN]) (elapse 60 manualHeld)).manualFwdButton.isPressed
      = false ∧
    (refresh (envPress [BUTTON_MANUAL_FWD_PIN]) (elapse 60 manualHeld)).manualRevButton.isPressed
      = false ∧
    (refresh (envPress [BUTTON_MANUAL_FWD_PIN]) (elapse 60 manualHeld)).gripButton.press_event_
      = false ∧
    (refresh (envPress [BUTTON_MANUAL_FWD_PIN]) (elapse 60 manualHeld)).stopButton.press_event_
      = false ∧
    (refresh (envPress [BUTTON_MANUAL_FWD_PIN]) (elapse 60 manualHeld)).homeButton.press_event_
      = false ∧
    (elapse 60 manualHeld).currentState = .STATE_WAIT_INPUT ∧
    Keypad4x4.scan ((envPress [BUTTON_MANUAL_FWD_PIN]).key_down (elapse 60 manualHeld).now)
      = none ∧
    (tick (envPress [BUTTON_MANUAL_FWD_PIN]) 10 (elapse 60 manualHeld)).map
        (fun r => (r.currentState, r.motor.current_speed_, r.motor.current_direction_))
      = .done (.STATE_WAIT_INPUT, 70, Direction.FORWARD) ∧
    ((tick (envPress [BUTTON_MANUAL_FWD_PIN]) 10 (elapse 60 manualHeld)).bind
        (fun r => ticks (envPress [BUTTON_MANUAL_FWD_PIN]) 10 100 r)).map
        (fun r => (r.motor.current_speed_, r.motor.current_direction_))
      = .done (70, Direction.FORWARD) := by
  decide!

/-! ## Debouncing -/

theorem sub32_self (t : Nat) : sub32 t t = 0 := by
  unfold sub32
  have : t % 4294967296 ≤ 4294967296 := (Nat.mod_lt t (by decide)).le
  omega

theorem sub32_of_le {a b : Nat} (hab : b ≤ a) (ha : a < 4294967296) : sub32 a b = a - b := by
  unfold sub32
  omega

theorem PushButton.update_last_state (b : PushButton) (raw : Bool) (t : Nat) :
    (b.update raw t).last_state_ = raw := by
  unfold PushButton.update
  simp only
  split_ifs <;> simp_all

theorem PushButton.update_last_change_time (b : PushButton) (raw : Bool) (t : Nat) :
    (b.update raw t).last_change_time_ = if raw = b.last_state_ then b.last_change_time_ else t := by
  unfold PushButton.update
  simp only
  split_ifs <;> simp_all

/-- An update changes the debounced state only to the raw sample, only when that
sample equals the one before, and only when the time since `last_change_time_` has
reached the debounce window. -/
theorem PushButton.update_flip (b : PushButton) (raw : Bool) (t : Nat)
    (h : (b.update raw t).debounced_state_ ≠ b.debounced_state_) :
    raw = b.last_state_ ∧ raw ≠ b.debounced_state_ ∧
      50 ≤ sub32 t b.last_change_time_ := by
  unfold PushButton.update at h
  simp only at h
  by_cases hr : raw = b.last_state_
  · subst hr
    simp only [bne_self_eq_false, Bool.false_eq_true, if_false] at h
    split_ifs at h <;> simp_all [PushButton.DEBOUNCE_TIME_MS]
  · have hne : (raw != b.last_state_) = true := by simpa using hr
    simp only [hne, if_true, sub32_self, PushButton.DEBOUNCE_TIME_MS] at h
    simp at h

/-- An update that keeps the debounced state keeps both edge flags. -/
theorem PushButton.update_flags_of_no_flip (b : PushButton) (raw : Bool) (t : Nat)
    (h : (b.update raw t).debounced_state_ = b.debounced_state_) :
    (b.update raw t).press_event_ = b.press_event_ ∧
      (b.update raw t).release_event_ = b.release_event_ := by
  unfold PushButton.update at h ⊢
  simp only at h ⊢
  split_ifs at h ⊢ <;> simp_all

/-- The debounced state after an update is the old one or the raw sample. -/
theorem PushButton.update_debounced (b : PushButton) (raw : Bool) (t : Nat) :
    (b.update raw t).debounced_state_ = b.debounced_state_ ∨
      (b.update raw t).debounced_state_ = raw := by
  unfold PushButton.update
  simp only
  split_ifs <;> simp_all

theorem getD_of_lt (samples : List (Bool × Nat)) (k : Nat) (hk : k < samples.length) :
    samples[k]? = some (rawAt samples k, timeAt samples k) := by
  simp [rawAt, timeAt, List.getD_eq_getElem _ _ hk, List.getElem?_eq_getElem hk]

theorem PushButton.after_zero (b : PushButton) (samples : List (Bool × Nat)) :
    b.after samples 0 = b := by
  simp [PushButton.after, PushButton.updates]

theorem PushButton.after_succ (b : PushButton) (samples : List (Bool × Nat)) (k : Nat)
    (hk : k < samples.length) :
    b.after samples (k + 1) = (b.after samples k).update (rawAt samples k) (timeAt samples k) := by
  simp [PushButton.after, PushButton.updates, List.take_succ, getD_of_lt samples k hk,
    List.foldl_append]

theorem timeAt_mono (samples : List (Bool × Nat))
    (hsorted : samples.Pairwise (fun s t => s.2 ≤ t.2)) (j k : Nat) (hjk : j < k)
    (hk : k < samples.length) : timeAt samples j ≤ timeAt samples k := by
  have hj : j < samples.length := lt_trans hjk hk
  have := (List.pairwise_iff_getElem.1 hsorted) j k hj hk hjk
  unfold timeAt
  rw [List.getD_eq_getElem _ _ hj, List.getD_eq_getElem _ _ hk]
  exact this

theorem timeAt_lt (samples : List (Bool × Nat)) (hclock : ∀ s ∈ samples, s.2 < 4294967296)
    (k : Nat) (hk : k < samples.length) : timeAt samples k < 4294967296 := by
  have := hclock samples[k] (List.getElem_mem hk)
  unfold timeAt
  rw [List.getD_eq_getElem _ _ hk]
  exact this

/-- Invariant of a run of updates from a button whose `last_state_` equals its
debounced state: `last_state_` is the latest sample, and either the debounced state
equals it, or `last_change_time_` is the time of the latest observed raw change. -/
theorem PushButton.after_inv (b : PushButton) (samples : List (Bool × Nat))
    (hinit : b.last_state_ = b.debounced_state_) :
    ∀ n, n ≤ samples.length →
      (b.after samples n).last_state_ = prevRaw b samples n ∧
      ((b.after samples n).debounced_state_ = (b.after samples n).last_state_ ∨
        ∃ j, j < n ∧ rawChangeAt b samples j = true ∧
          (∀ i, j ≤ i → i < n → rawAt samples i = prevRaw b samples n) ∧
          (b.after samples n).last_change_time_ = timeAt samples j) := by
  intro n
  induction n with
  | zero =>
    intro _
    rw [PushButton.after_zero]
    exact ⟨rfl, Or.inl hinit.symm⟩
  | succ n ih =>
    intro hn
    have hlt : n < samples.length := hn
    obtain ⟨hlast, hcase⟩ := ih (Nat.le_of_lt hlt)
    rw [PushButton.after_succ b samples n hlt]
    refine ⟨PushButton.update_last_state _ _ _, ?_⟩
    rw [PushButton.update_last_state, PushButton.update_last_change_time]
    by_cases hr : rawAt samples n = (b.after samples n).last_state_
    · rw [if_pos hr]
      rcases PushButton.update_debounced (b.after samples n) (rawAt samples n)
          (timeAt samples n) with hd | hd
      · rcases hcase with hc | ⟨j, hj, hch, hconst, hlct⟩
        · left; rw [hd, hc, hr]
        · right
          refine ⟨j, Nat.lt_succ_of_lt hj, hch, ?_, hlct⟩
          intro i hji hin
          show rawAt samples i = rawAt samples n
          rcases Nat.lt_succ_iff_lt_or_eq.1 hin with h | h
          · rw [hconst i hji h, ← hlast, hr]
          · rw [h]
      · left; exact hd
    · rw [if_neg hr]
      right
      refine ⟨n, Nat.lt_succ_self n, ?_, ?_, rfl⟩
      · simp only [rawChangeAt, bne_iff_ne, ne_eq]
        rw [← hlast]; exact hr
      · intro i hni hin
        have : i = n := by omega
        rw [this]; rfl

/-- A change of the debounced state in update `k` comes at least 50 ms after the
update `j` that observed the last raw change, with the raw sample constant from `j`
to `k`. -/
theorem PushButton.flip_after_window (b : PushButton) (samples : List (Bool × Nat)) (k : Nat)
    (hinit : b.last_state_ = b.debounced_state_)
    (hsorted : samples.Pairwise (fun s t => s.2 ≤ t.2))
    (hclock : ∀ s ∈ samples, s.2 < 4294967296)
    (hk : k < samples.length)
    (hflip : (b.after samples (k + 1)).debounced_state_
      ≠ (b.after samples k).debounced_state_) :
    ∃ j, j ≤ k ∧ rawChangeAt b samples j = true ∧
      (∀ i, j ≤ i → i ≤ k → rawAt samples i = rawAt samples k) ∧
      timeAt samples j + 50 ≤ timeAt samples k := by
  rw [PushButton.after_succ b samples k hk] at hflip
  obtain ⟨hraw, hne, hwin⟩ := PushButton.update_flip _ _ _ hflip
  obtain ⟨hlast, hcase⟩ := PushButton.after_inv b samples hinit k (Nat.le_of_lt hk)
  rcases hcase with hc | ⟨j, hj, hch, hconst, hlct⟩
  · exact absurd (hraw.trans hc.symm) hne
  · refine ⟨j, Nat.le_of_lt hj, hch, ?_, ?_⟩
    · intro i hji hik
      rcases Nat.lt_or_eq_of_le hik with h | h
      · rw [hconst i hji h, ← hlast, hraw]
      · rw [h]
    · rw [hlct, sub32_of_le (timeAt_mono samples hsorted j k hj hk)
        (timeAt_lt samples hclock k hk)] at hwin
      omega

/-- C9. For every sequence of `update()` calls with non-decreasing clock values,
started from a button whose `last_state_` equals its debounced state (as the
constructor and `init()` leave it): if update number `k` changes the debounced state,
there is an update `j` at or before it that observed the last raw change, every
update from `j` to `k` sampled the same raw value, and update `j` lies at least
50 ms before update `k`. -/
theorem C9_debounce_window (b : PushButton) (samples : List (Bool × Nat)) (k : Nat)
    (hinit : b.last_state_ = b.debounced_state_)
    (hsorted : samples.Pairwise (fun s t => s.2 ≤ t.2))
    (hclock : ∀ s ∈ samples, s.2 < 4294967296)
    (hk : k < samples.length)
    (hflip : (b.after samples (k + 1)).debounced_state_
      ≠ (b.after samples k).debounced_state_) :
    ∃ j, j ≤ k ∧ rawChangeAt b samples j = true ∧
      (∀ i, j ≤ i → i ≤ k → rawAt samples i = rawAt samples k) ∧
      timeAt samples j + 50 ≤ timeAt samples k :=
  PushButton.flip_after_window b samples k hinit hsorted hclock hk hflip

/-- Witness for C9: a press sampled at 100, 130 and 160 ms; the third update flips
the debounced state, 60 ms after the raw change. -/
theorem C9_debounce_window_witness :
    (PushButton.after (PushButton.new 17 true) cleanPress 3).debounced_state_
      ≠ (PushButton.after (PushButton.new 17 true) cleanPress 2).debounced_state_ ∧
    ∃ j, j ≤ 2 ∧
      rawChangeAt (PushButton.new 17 true) cleanPress j = true ∧
      (∀ i, j ≤ i → i ≤ 2 →
        rawAt cleanPress i
          = rawAt cleanPress 2) ∧
      timeAt cleanPress j + 50
        ≤ timeAt cleanPress 2 :=
  ⟨by decide,
    C9_debounce_window (PushButton.new 17 true) cleanPress 2
      (by decide) (by decide) (by decide) (by decide) (by decide)⟩

/-- C10. Under chatter shorter than the window nothing is reported: for every
sequence of `update()` calls with non-decreasing clock values, started from a button
whose `last_state_` equals its debounced state, in which two consecutive observed raw
changes are always less than 50 ms apart and no run of equal raw samples spans 50 ms,
no update changes the debounced state and no update raises the press or the release
flag: after every number of updates the three fields have their initial values.
(The proof uses only the second condition on the sequence.) -/
theorem C10_chatter_reports_nothing (b : PushButton) (samples : List (Bool × Nat))
    (hinit : b.last_state_ = b.debounced_state_)
    (hsorted : samples.Pairwise (fun s t => s.2 ≤ t.2))
    (hclock : ∀ s ∈ samples, s.2 < 4294967296)
    (_hchatter : ∀ j' < samples.length, ∀ j < j',
      rawChangeAt b samples j = true → rawChangeAt b samples j' = true →
      (∀ i < j', j < i → rawChangeAt b samples i = false) →
      timeAt samples j' < timeAt samples j + 50)
    (hunstable : ∀ k < samples.length, ∀ j ≤ k,
      (∀ i ≤ k, j ≤ i → rawAt samples i = rawAt samples k) →
      timeAt samples k < timeAt samples j + 50) :
    ∀ n ≤ samples.length,
      (b.after samples n).debounced_state_ = b.debounced_state_ ∧
      (b.after samples n).press_event_ = b.press_event_ ∧
      (b.after samples n).release_event_ = b.release_event_ := by
  intro n
  induction n with
  | zero => intro _; rw [PushButton.after_zero]; exact ⟨rfl, rfl, rfl⟩
  | succ n ih =>
    intro hn
    have hlt : n < samples.length := hn
    obtain ⟨hd, hp, hr⟩ := ih (Nat.le_of_lt hlt)
    have hsame : (b.after samples (n + 1)).debounced_state_
        = (b.after samples n).debounced_state_ := by
      by_contra hflip
      obtain ⟨j, hj, _, hconst, hwin⟩ :=
        PushButton.flip_after_window b samples n hinit hsorted hclock hlt hflip
      have := hunstable n hlt j hj (fun i hin hji => hconst i hji hin)
      omega
    have hflags := PushButton.update_flags_of_no_flip (b.after samples n)
      (rawAt samples n) (timeAt samples n)
      (by rw [← PushButton.after_succ b samples n hlt]; exact hsame)
    rw [← PushButton.after_succ b samples n hlt] at hflags
    exact ⟨hsame.trans hd, hflags.1.trans hp, hflags.2.trans hr⟩

set_option synthInstance.maxSize 1024 in
/-- Witness for C10: the chattering contact `chatter` on a freshly constructed
button; after all six updates nothing has been reported. -/
theorem C10_chatter_reports_nothing_witness :
    (PushButton.after (PushButton.new 17 true) chatter 6).debounced_state_
        = (PushButton.new 17 true).debounced_state_ ∧
      (PushButton.after (PushButton.new 17 true) chatter 6).press_event_
        = (PushButton.new 17 true).press_event_ ∧
      (PushButton.after (PushButton.new 17 true) chatter 6).release_event_
        = (PushButton.new 17 true).release_event_ :=
  C10_chatter_reports_nothing (PushButton.new 17 true) chatter
    (by decide) (by decide) (by decide) (by decide) (by decide) 6 (by decide)


/-! ## Edge flags -/

theorem PushButton.calls_cons (b : PushButton) (op : ButtonOp) (ops : List ButtonOp) :
    b.calls (op :: ops) = (b.call op).2.calls ops := rfl

/-- An update raises the press flag only when it changes the debounced state from
released to pressed. -/
theorem PushButton.update_press_raised (b : PushButton) (raw : Bool) (t : Nat)
    (hafter : (b.update raw t).press_event_ = true) (hbefore : b.press_event_ = false) :
    b.debounced_state_ = false ∧ (b.update raw t).debounced_state_ = true := by
  unfold PushButton.update at hafter ⊢
  simp only at hafter ⊢
  split_ifs at hafter ⊢ <;> simp_all

/-- An update raises the release flag only when it changes the debounced state from
pressed to released. -/
theorem PushButton.update_release_raised (b : PushButton) (raw : Bool) (t : Nat)
    (hafter : (b.update raw t).release_event_ = true) (hbefore : b.release_event_ = false) :
    b.debounced_state_ = true ∧ (b.update raw t).debounced_state_ = false := by
  unfold PushButton.update at hafter ⊢
  simp only at hafter ⊢
  split_ifs at hafter ⊢ <;> simp_all

/-- If the press flag is clear before a sequence of calls and set after it, one of
the calls is an update that changes the debounced state from released to pressed. -/
theorem PushButton.press_flag_needs_flip (ops : List ButtonOp) :
    ∀ b : PushButton, b.press_event_ = false → (b.calls ops).press_event_ = true →
      ∃ ops1 raw t ops2, ops = ops1 ++ ButtonOp.update raw t :: ops2 ∧
        (b.calls ops1).debounced_state_ = false ∧
        ((b.calls ops1).update raw t).debounced_state_ = true := by
  induction ops with
  | nil => intro b h0 h1; simp [PushButton.calls, h0] at h1
  | cons op rest ih =>
    intro b h0 h1
    rw [PushButton.calls_cons] at h1
    by_cases hp : (b.call op).2.press_event_ = false
    · obtain ⟨ops1, raw, t, ops2, hdec, hb, ha⟩ := ih _ hp h1
      exact ⟨op :: ops1, raw, t, ops2, by rw [hdec]; rfl, hb, ha⟩
    · have hp1 : (b.call op).2.press_event_ = true := by simpa using hp
      cases op with
      | update raw t =>
        have := PushButton.update_press_raised b raw t hp1 h0
        exact ⟨[], raw, t, rest, rfl, this.1, this.2⟩
      | isPressed => simp [PushButton.call, h0] at hp1
      | wasPressed => simp [PushButton.call, PushButton.wasPressed, h0] at hp1
      | wasReleased =>
        exfalso
        simp only [PushButton.call, PushButton.wasReleased] at hp1
        split_ifs at hp1 <;> simp_all

/-- If the release flag is clear before a sequence of calls and set after it, one of
the calls is an update that changes the debounced state from pressed to released. -/
theorem PushButton.release_flag_needs_flip (ops : List ButtonOp) :
    ∀ b : PushButton, b.release_event_ = false → (b.calls ops).release_event_ = true →
      ∃ ops1 raw t ops2, ops = ops1 ++ ButtonOp.update raw t :: ops2 ∧
        (b.calls ops1).debounced_state_ = true ∧
        ((b.calls ops1).update raw t).debounced_state_ = false := by
  induction ops with
  | nil => intro b h0 h1; simp [PushButton.calls, h0] at h1
  | cons op rest ih =>
    intro b h0 h1
    rw [PushButton.calls_cons] at h1
    by_cases hp : (b.call op).2.release_event_ = false
    · obtain ⟨ops1, raw, t, ops2, hdec, hb, ha⟩ := ih _ hp h1
      exact ⟨op :: ops1, raw, t, ops2, by rw [hdec]; rfl, hb, ha⟩
    · have hp1 : (b.call op).2.release_event_ = true := by simpa using hp
      cases op with
      | update raw t =>
        have := PushButton.update_release_raised b raw t hp1 h0
        exact ⟨[], raw, t, rest, rfl, this.1, this.2⟩
      | isPressed => simp [PushButton.call, h0] at hp1
      | wasReleased => simp [PushButton.call, PushButton.wasReleased, h0] at hp1
      | wasPressed =>
        exfalso
        simp only [PushButton.call, PushButton.wasPressed] at hp1
        split_ifs at hp1 <;> simp_all

theorem wasPressed_snd_press (b : PushButton) : b.wasPressed.2.press_event_ = false := by
  unfold PushButton.wasPressed; split_ifs <;> simp_all

theorem wasReleased_fst (b : PushButton) : b.wasReleased.1 = b.release_event_ := by
  unfold PushButton.wasReleased; split <;> simp_all

theorem wasReleased_snd_release (b : PushButton) : b.wasReleased.2.release_event_ = false := by
  unfold PushButton.wasReleased; split_ifs <;> simp_all

/-- The debounced state changes only in updates: if it has the value `v` before a
sequence of calls and not after it, one of the calls is an update that changes it
from `v`. -/
theorem PushButton.debounced_change_needs_flip (v : Bool) (ops : List ButtonOp) :
    ∀ b : PushButton, b.debounced_state_ = v → (b.calls ops).debounced_state_ ≠ v →
      ∃ ops1 raw t ops2, ops = ops1 ++ ButtonOp.update raw t :: ops2 ∧
        (b.calls ops1).debounced_state_ = v ∧
        ((b.calls ops1).update raw t).debounced_state_ ≠ v := by
  induction ops with
  | nil => intro b h0 h1; exact absurd h0 h1
  | cons op rest ih =>
    intro b h0 h1
    rw [PushButton.calls_cons] at h1
    by_cases hp : (b.call op).2.debounced_state_ = v
    · obtain ⟨ops1, raw, t, ops2, hdec, hb, ha⟩ := ih _ hp h1
      exact ⟨op :: ops1, raw, t, ops2, by rw [hdec]; rfl, hb, ha⟩
    · cases op with
      | update raw t => exact ⟨[], raw, t, rest, rfl, h0, hp⟩
      | isPressed => exact absurd h0 hp
      | wasPressed =>
        exfalso; apply hp
        simp only [PushButton.call, PushButton.wasPressed]
        split_ifs <;> simp_all
      | wasReleased =>
        exfalso; apply hp
        simp only [PushButton.call, PushButton.wasReleased]
        split_ifs <;> simp_all

theorem wasPressed_snd_debounced (b : PushButton) :
    b.wasPressed.2.debounced_state_ = b.debounced_state_ := by
  unfold PushButton.wasPressed; split_ifs <;> simp_all

theorem wasReleased_snd_debounced (b : PushButton) :
    b.wasReleased.2.debounced_state_ = b.debounced_state_ := by
  unfold PushButton.wasReleased; split_ifs <;> simp_all

/-- Two reports of a press that is still held at the first report are separated by
an update that releases the debounced state and a later one that presses it. -/
theorem PushButton.press_reports_separated (b : PushButton) (ops : List ButtonOp)
    (hheld : b.debounced_state_ = true)
    (h2 : (b.wasPressed.2.calls ops).wasPressed.1 = true) :
    ∃ ops0 raw0 t0 ops1 raw1 t1 ops2,
      ops = ops0 ++ ButtonOp.update raw0 t0 :: (ops1 ++ ButtonOp.update raw1 t1 :: ops2) ∧
      (b.wasPressed.2.calls ops0).debounced_state_ = true ∧
      ((b.wasPressed.2.calls ops0).update raw0 t0).debounced_state_ = false ∧
      (b.wasPressed.2.calls (ops0 ++ ButtonOp.update raw0 t0 :: ops1)).debounced_state_
        = false ∧
      ((b.wasPressed.2.calls (ops0 ++ ButtonOp.update raw0 t0 :: ops1)).update raw1 t1
        ).debounced_state_ = true := by
  rw [wasPressed_fst] at h2
  obtain ⟨opsA, raw1, t1, ops2, hdec, hb, ha⟩ :=
    PushButton.press_flag_needs_flip ops _ (wasPressed_snd_press b) h2
  have hstart : b.wasPressed.2.debounced_state_ = true := by
    rw [wasPressed_snd_debounced]; exact hheld
  obtain ⟨ops0, raw0, t0, ops1, hdecA, hb0, ha0⟩ :=
    PushButton.debounced_change_needs_flip true opsA _ hstart (by rw [hb]; decide)
  refine ⟨ops0, raw0, t0, ops1, raw1, t1, ops2, ?_, hb0, by simpa using ha0, ?_, ?_⟩
  · rw [hdec, hdecA]; simp
  · rw [← hdecA]; exact hb
  · rw [← hdecA]; exact ha

/-- Two reports of a release that still holds at the first report are separated by
an update that presses the debounced state and a later one that releases it. -/
theorem PushButton.release_reports_separated (b : PushButton) (ops : List ButtonOp)
    (hheld : b.debounced_state_ = false)
    (h2 : (b.wasReleased.2.calls ops).wasReleased.1 = true) :
    ∃ ops0 raw0 t0 ops1 raw1 t1 ops2,
      ops = ops0 ++ ButtonOp.update raw0 t0 :: (ops1 ++ ButtonOp.update raw1 t1 :: ops2) ∧
      (b.wasReleased.2.calls ops0).debounced_state_ = false ∧
      ((b.wasReleased.2.calls ops0).update raw0 t0).debounced_state_ = true ∧
      (b.wasReleased.2.calls (ops0 ++ ButtonOp.update raw0 t0 :: ops1)).debounced_state_
        = true ∧
      ((b.wasReleased.2.calls (ops0 ++ ButtonOp.update raw0 t0 :: ops1)).update raw1 t1
        ).debounced_state_ = false := by
  rw [wasReleased_fst] at h2
  obtain ⟨opsA, raw1, t1, ops2, hdec, hb, ha⟩ :=
    PushButton.release_flag_needs_flip ops _ (wasReleased_snd_release b) h2
  have hstart : b.wasReleased.2.debounced_state_ = false := by
    rw [wasReleased_snd_debounced]; exact hheld
  obtain ⟨ops0, raw0, t0, ops1, hdecA, hb0, ha0⟩ :=
    PushButton.debounced_change_needs_flip false opsA _ hstart (by rw [hb]; decide)
  refine ⟨ops0, raw0, t0, ops1, raw1, t1, ops2, ?_, hb0, by simpa using ha0, ?_, ?_⟩
  · rw [hdec, hdecA]; simp
  · rw [← hdecA]; exact hb
  · rw [← hdecA]; exact ha

/-- C11. A state flip is reported at most once per stable transition.  For every
button state and every update: the update raises the press flag only if it changes the
debounced state from released to pressed (and the release flag only if it changes it
from pressed to released).  For every button state and every sequence `ops` of calls
of `update`, `isPressed`, `wasPressed` and `wasReleased`: when `wasPressed()` returns
true, then the calls `ops` are made, and `wasPressed()` returns true again, one of the
calls in `ops` is an update before which the debounced state is released and after
which it is pressed; and when the button was debounced-pressed at the first report, an
earlier call in `ops` is an update that changes the debounced state from pressed to
released.  The same holds for `wasReleased()` with pressed and released exchanged. -/
theorem C11_flip_reported_once (b : PushButton) (raw : Bool) (t : Nat)
    (ops : List ButtonOp) :
    ((b.update raw t).press_event_ = true → b.press_event_ = false →
      b.debounced_state_ = false ∧ (b.update raw t).debounced_state_ = true) ∧
    ((b.update raw t).release_event_ = true → b.release_event_ = false →
      b.debounced_state_ = true ∧ (b.update raw t).debounced_state_ = false) ∧
    (b.wasPressed.1 = true → (b.wasPressed.2.calls ops).wasPressed.1 = true →
      (∃ ops1 raw1 t1 ops2, ops = ops1 ++ ButtonOp.update raw1 t1 :: ops2 ∧
        (b.wasPressed.2.calls ops1).debounced_state_ = false ∧
        ((b.wasPressed.2.calls ops1).update raw1 t1).debounced_state_ = true) ∧
      (b.debounced_state_ = true →
        ∃ ops0 raw0 t0 ops1 raw1 t1 ops2,
          ops = ops0 ++ ButtonOp.update raw0 t0 ::
            (ops1 ++ ButtonOp.update raw1 t1 :: ops2) ∧
          (b.wasPressed.2.calls ops0).debounced_state_ = true ∧
          ((b.wasPressed.2.calls ops0).update raw0 t0).debounced_state_ = false ∧
          (b.wasPressed.2.calls
            (ops0 ++ ButtonOp.update raw0 t0 :: ops1)).debounced_state_ = false ∧
          ((b.wasPressed.2.calls
            (ops0 ++ ButtonOp.update raw0 t0 :: ops1)).update raw1 t1).debounced_state_
            = true)) ∧
    (b.wasReleased.1 = true → (b.wasReleased.2.calls ops).wasReleased.1 = true →
      (∃ ops1 raw1 t1 ops2, ops = ops1 ++ ButtonOp.update raw1 t1 :: ops2 ∧
        (b.wasReleased.2.calls ops1).debounced_state_ = true ∧
        ((b.wasReleased.2.calls ops1).update raw1 t1).debounced_state_ = false) ∧
      (b.debounced_state_ = false →
        ∃ ops0 raw0 t0 ops1 raw1 t1 ops2,
          ops = ops0 ++ ButtonOp.update raw0 t0 ::
            (ops1 ++ ButtonOp.update raw1 t1 :: ops2) ∧
          (b.wasReleased.2.calls ops0).debounced_state_ = false ∧
          ((b.wasReleased.2.calls ops0).update raw0 t0).debounced_state_ = true ∧
          (b.wasReleased.2.calls
            (ops0 ++ ButtonOp.update raw0 t0 :: ops1)).debounced_state_ = true ∧
          ((b.wasReleased.2.calls
            (ops0 ++ ButtonOp.update raw0 t0 :: ops1)).update raw1 t1).debounced_state_
            = false)) := by
  refine ⟨PushButton.update_press_raised b raw t, PushButton.update_release_raised b raw t,
    ?_, ?_⟩
  · intro _ h2
    refine ⟨?_, fun hheld => PushButton.press_reports_separated b ops hheld h2⟩
    rw [wasPressed_fst] at h2
    exact PushButton.press_flag_needs_flip ops _ (wasPressed_snd_press b) h2
  · intro _ h2
    refine ⟨?_, fun hheld => PushButton.release_reports_separated b ops hheld h2⟩
    rw [wasReleased_fst] at h2
    exact PushButton.release_flag_needs_flip ops _ (wasReleased_snd_release b) h2

/-- C12. For every button state and every update: if the update changes the debounced
state, it sets the press flag when the new state is pressed and the release flag when
it is released, and the other flag keeps its value; if the update does not change the
debounced state, both flags keep their values. -/
theorem C12_update_raises_exactly_one_flag (b : PushButton) (raw : Bool) (t : Nat) :
    ((b.update raw t).debounced_state_ ≠ b.debounced_state_ →
      ((b.update raw t).debounced_state_ = true →
        (b.update raw t).press_event_ = true ∧
        (b.update raw t).release_event_ = b.release_event_) ∧
      ((b.update raw t).debounced_state_ = false →
        (b.update raw t).release_event_ = true ∧
        (b.update raw t).press_event_ = b.press_event_)) ∧
    ((b.update raw t).debounced_state_ = b.debounced_state_ →
      (b.update raw t).press_event_ = b.press_event_ ∧
      (b.update raw t).release_event_ = b.release_event_) := by
  refine ⟨?_, PushButton.update_flags_of_no_flip b raw t⟩
  unfold PushButton.update
  simp only
  split_ifs <;> simp_all

/-- C13. Read-once edge flags.  For every button state: `wasPressed()` returns the
press flag and leaves the button with that flag false and every other field
unchanged, so a repeated call returns false, and the debounced state and the release
flag are untouched; the same for `wasReleased()` and the release flag; `isPressed()`
returns the debounced state and leaves the button as it is. -/
theorem C13_edge_flags_read_once (b : PushButton) :
    (b.wasPressed.1 = b.press_event_ ∧
      b.wasPressed.2 = { b with press_event_ := false } ∧
      b.wasPressed.2.wasPressed.1 = false ∧
      b.wasPressed.2.debounced_state_ = b.debounced_state_ ∧
      b.wasPressed.2.release_event_ = b.release_event_) ∧
    (b.wasReleased.1 = b.release_event_ ∧
      b.wasReleased.2 = { b with release_event_ := false } ∧
      b.wasReleased.2.wasReleased.1 = false ∧
      b.wasReleased.2.debounced_state_ = b.debounced_state_ ∧
      b.wasReleased.2.press_event_ = b.press_event_) ∧
    (b.isPressed = b.debounced_state_ ∧
      b.call ButtonOp.isPressed = (b.debounced_state_, b)) := by
  refine ⟨?_, ?_, rfl, rfl⟩
  · unfold PushButton.wasPressed
    cases h : b.press_event_ <;> simp [h]
    cases b; simp_all
  · unfold PushButton.wasReleased
    cases h : b.release_event_ <;> simp [h]
    cases b; simp_all

/-! ## Timed motor moves -/

theorem MotorDriver.isMovementComplete_of_inactive (m : MotorDriver) (now : Nat)
    (h : m.timed_move_active_ = false) : m.isMovementComplete now = (true, m) := by
  simp [MotorDriver.isMovementComplete, h]

theorem MotorDriver.polls_of_inactive (times : List Nat) :
    ∀ m : MotorDriver, m.timed_move_active_ = false →
      m.polls times = (List.replicate times.length true, m) := by
  induction times with
  | nil => intro m _; rfl
  | cons t ts ih =>
    intro m h
    unfold MotorDriver.polls
    rw [MotorDriver.isMovementComplete_of_inactive m t h, ih m h]
    rfl

/-- The poll of a timed move armed at clock value `s` for `duration` ms. -/
theorem MotorDriver.isMovementComplete_moveFor (m : MotorDriver) (speed : Nat)
    (dir : Direction) (duration s now : Nat) (hd : duration < 4294967296) :
    (m.moveFor speed dir duration s).isMovementComplete now =
      if duration ≤ sub32 now s then
        (true, { (m.moveFor speed dir duration s).stop with timed_move_active_ := false })
      else (false, m.moveFor speed dir duration s) := by
  simp [MotorDriver.isMovementComplete, MotorDriver.moveFor, Nat.mod_eq_of_lt hd]

/-- C14. For every motor state, every timed move armed by `moveFor(speed, dir,
duration)` at clock value `s` and every poll at clock value `now`:
`isMovementComplete()` returns true if and only if the elapsed time `now - s`,
computed in 32-bit arithmetic, is at least `duration`; when it returns true the
motor has speed 0, direction BRAKE and no timed move active; when it returns false
the motor is unchanged; a motor with no timed move active returns true and is
unchanged; and when the clock has not wrapped (`s ≤ now`) the elapsed time is the
plain difference. -/
theorem C14_isMovementComplete_after_moveFor (m : MotorDriver) (speed : Nat)
    (dir : Direction) (duration s now : Nat) (hd : duration < 4294967296) :
    (((m.moveFor speed dir duration s).isMovementComplete now).1 = true ↔
      duration ≤ sub32 now s) ∧
    (((m.moveFor speed dir duration s).isMovementComplete now).1 = true →
      ((m.moveFor speed dir duration s).isMovementComplete now).2.Stopped) ∧
    (((m.moveFor speed dir duration s).isMovementComplete now).1 = false →
      ((m.moveFor speed dir duration s).isMovementComplete now).2
        = m.moveFor speed dir duration s) ∧
    (∀ idle : MotorDriver, idle.timed_move_active_ = false →
      idle.isMovementComplete now = (true, idle)) ∧
    (s ≤ now → now < 4294967296 → sub32 now s = now - s) := by
  rw [MotorDriver.isMovementComplete_moveFor m speed dir duration s now hd]
  refine ⟨?_, ?_, ?_, fun idle h => MotorDriver.isMovementComplete_of_inactive idle now h,
    fun h1 h2 => sub32_of_le h1 h2⟩
  · split_ifs with h <;> simp [h]
  · split_ifs with h
    · intro _
      have hs := stop_Stopped (m.moveFor speed dir duration s)
      exact ⟨hs.1, hs.2.1, rfl⟩
    · simp
  · split_ifs with h <;> simp

/-- Witness for C14: a 1000 ms move armed at 5000 ms and polled at 6000 ms. -/
theorem C14_isMovementComplete_after_moveFor_witness :
    (((MotorDriver.new.moveFor 70 Direction.FORWARD 1000 5000).isMovementComplete 6000).1
        = true ↔ 1000 ≤ sub32 6000 5000) ∧
    (((MotorDriver.new.moveFor 70 Direction.FORWARD 1000 5000).isMovementComplete 6000).1
        = true →
      ((MotorDriver.new.moveFor 70 Direction.FORWARD 1000 5000).isMovementComplete
        6000).2.Stopped) ∧
    (((MotorDriver.new.moveFor 70 Direction.FORWARD 1000 5000).isMovementComplete 6000).1
        = false →
      ((MotorDriver.new.moveFor 70 Direction.FORWARD 1000 5000).isMovementComplete 6000).2
        = MotorDriver.new.moveFor 70 Direction.FORWARD 1000 5000) ∧
    (∀ idle : MotorDriver, idle.timed_move_active_ = false →
      idle.isMovementComplete 6000 = (true, idle)) ∧
    (5000 ≤ 6000 → 6000 < 4294967296 → sub32 6000 5000 = 6000 - 5000) :=
  C14_isMovementComplete_after_moveFor MotorDriver.new 70 Direction.FORWARD 1000 5000 6000
    (by decide)

/-- C15. For every motor state, with or without a timed move in progress, and every
sequence of later poll times: `stop()` leaves speed 0, direction BRAKE and PWM level
0, every following `isMovementComplete()` returns true, and the polls leave the motor
as `stop()` left it. -/
theorem C15_stop_completes_timed_move (m : MotorDriver) (times : List Nat) :
    m.stop.current_speed_ = 0 ∧ m.stop.current_direction_ = Direction.BRAKE ∧
    m.stop.pwm_level = 0 ∧
    (m.stop.polls times).1 = List.replicate times.length true ∧
    (m.stop.polls times).2 = m.stop := by
  have hs := stop_Stopped m
  have hp := MotorDriver.polls_of_inactive times m.stop hs.2.2
  refine ⟨hs.1, hs.2.1, ?_, by rw [hp], by rw [hp]⟩
  simp [MotorDriver.stop, MotorDriver.setSpeed, MotorDriver.updatePWM,
    MotorDriver.setDirection]

/-! ## Servo interpolation -/

theorem clampedAngle_range (a : ℚ) : 0 ≤ clampedAngle a ∧ clampedAngle a ≤ 180 := by
  unfold clampedAngle
  split_ifs with h1 h2
  · norm_num
  · norm_num
  · exact ⟨le_of_not_lt h1, le_of_not_lt h2⟩

theorem clampedAngle_of_range {a : ℚ} (h0 : 0 ≤ a) (h1 : a ≤ 180) : clampedAngle a = a := by
  unfold clampedAngle
  rw [if_neg (not_lt.2 h0), if_neg (not_lt.2 h1)]

/-- The two successive tests of `setAngle` and `moveToAngle` clamp into 0..180. -/
theorem clamp_steps (a : ℚ) :
    (if (if a < 0 then (0 : ℚ) else a) > 180 then (180 : ℚ) else (if a < 0 then 0 else a))
      = clampedAngle a := by
  unfold clampedAngle
  split_ifs with h1 h2 <;> first | rfl | (exfalso; linarith)

theorem ServoController.setAngle_fields (s : ServoController) (a : ℚ) :
    (s.setAngle a).current_angle_ = clampedAngle a ∧
    (s.setAngle a).target_angle_ = clampedAngle a ∧
    (s.setAngle a).is_moving_ = false ∧
    (s.setAngle a).start_angle_ = s.start_angle_ ∧
    (s.setAngle a).is_attached_ = s.is_attached_ := by
  unfold ServoController.setAngle
  simp only [clamp_steps]
  split_ifs <;> simp [ServoController.setPulseWidth]

theorem ServoController.update_of_not_moving (s : ServoController) (t : Nat)
    (h : s.is_moving_ = false) : s.update t = s := by
  simp [ServoController.update, h]

theorem ServoController.updates_of_not_moving (times : List Nat) :
    ∀ s : ServoController, s.is_moving_ = false → s.updates times = s := by
  induction times with
  | nil => intro s _; rfl
  | cons t ts ih =>
    intro s h
    show (s.update t).updates ts = s
    rw [ServoController.update_of_not_moving s t h]
    exact ih s h

theorem ServoController.moveToAngle_fields (s : ServoController) (target : ℚ)
    (duration t0 : Nat) :
    (s.moveToAngle target duration t0).is_moving_ = true ∧
    (s.moveToAngle target duration t0).target_angle_ = clampedAngle target ∧
    (s.moveToAngle target duration t0).start_angle_ = s.current_angle_ ∧
    (s.moveToAngle target duration t0).current_angle_ = s.current_angle_ ∧
    (s.moveToAngle target duration t0).move_start_time_ = t0 ∧
    (s.moveToAngle target duration t0).move_duration_ = duration % 4294967296 ∧
    (s.moveToAngle target duration t0).is_attached_ = s.is_attached_ := by
  refine ⟨rfl, ?_, rfl, rfl, rfl, rfl, rfl⟩
  exact clamp_steps target

/-- An update of a moving servo whose elapsed time has reached the duration snaps
to the target and ends the motion. -/
theorem ServoController.update_complete (s : ServoController) (t : Nat)
    (hm : s.is_moving_ = true) (he : s.move_duration_ ≤ sub32 t s.move_start_time_) :
    (s.update t).current_angle_ = clampedAngle s.target_angle_ ∧
    (s.update t).target_angle_ = clampedAngle s.target_angle_ ∧
    (s.update t).is_moving_ = false ∧
    (s.update t).start_angle_ = s.start_angle_ ∧
    (s.update t).is_attached_ = s.is_attached_ := by
  have hf := ServoController.setAngle_fields s s.target_angle_
  have hu : s.update t = { (s.setAngle s.target_angle_) with is_moving_ := false } := by
    simp [ServoController.update, hm, he]
  rw [hu]
  exact ⟨hf.1, hf.2.1, rfl, hf.2.2.2.1, hf.2.2.2.2⟩

/-- An update of a moving servo before the duration has elapsed writes the
interpolated angle and nothing else but the PWM level. -/
theorem ServoController.update_in_flight (s : ServoController) (t : Nat)
    (hm : s.is_moving_ = true) (he : sub32 t s.move_start_time_ < s.move_duration_) :
    (s.update t).current_angle_ =
      s.start_angle_ + (s.target_angle_ - s.start_angle_) *
        ((sub32 t s.move_start_time_ : ℚ) / (s.move_duration_ : ℚ)) ∧
    (s.update t).target_angle_ = s.target_angle_ ∧
    (s.update t).start_angle_ = s.start_angle_ ∧
    (s.update t).is_moving_ = true ∧
    (s.update t).move_start_time_ = s.move_start_time_ ∧
    (s.update t).move_duration_ = s.move_duration_ ∧
    (s.update t).is_attached_ = s.is_attached_ := by
  simp only [ServoController.update, hm, Bool.not_true, Bool.false_eq_true, if_false,
    ge_iff_le, not_le.2 he]
  split_ifs <;> simp [ServoController.setPulseWidth, hm]

theorem ServoController.updates_cons (s : ServoController) (t : Nat) (ts : List Nat) :
    s.updates (t :: ts) = (s.update t).updates ts := rfl

/-- After `moveToAngle` towards the clamped target `c`, every update keeps the servo
either moving towards `c` with the same start time and duration, or at rest at `c`. -/
theorem ServoController.update_towards (c : ℚ) (t0 d t : Nat) (s : ServoController)
    (hc : clampedAngle c = c)
    (h : (s.is_moving_ = true ∧ s.target_angle_ = c ∧ s.move_start_time_ = t0 ∧
            s.move_duration_ = d) ∨
         (s.is_moving_ = false ∧ s.current_angle_ = c)) :
    ((s.update t).is_moving_ = true ∧ (s.update t).target_angle_ = c ∧
        (s.update t).move_start_time_ = t0 ∧ (s.update t).move_duration_ = d) ∨
      ((s.update t).is_moving_ = false ∧ (s.update t).current_angle_ = c) := by
  rcases h with ⟨hm, htg, hst, hdu⟩ | ⟨hm, hcur⟩
  · by_cases he : s.move_duration_ ≤ sub32 t s.move_start_time_
    · right
      have := ServoController.update_complete s t hm he
      exact ⟨this.2.2.1, by rw [this.1, htg, hc]⟩
    · left
      have := ServoController.update_in_flight s t hm (not_le.1 he)
      exact ⟨this.2.2.2.1, this.2.1.trans htg, this.2.2.2.2.1.trans hst,
        this.2.2.2.2.2.1.trans hdu⟩
  · right
    rw [ServoController.update_of_not_moving s t hm]
    exact ⟨hm, hcur⟩

theorem ServoController.updates_towards (c : ℚ) (t0 d : Nat) (hc : clampedAngle c = c)
    (times : List Nat) :
    ∀ s : ServoController,
      ((s.is_moving_ = true ∧ s.target_angle_ = c ∧ s.move_start_time_ = t0 ∧
            s.move_duration_ = d) ∨
         (s.is_moving_ = false ∧ s.current_angle_ = c)) →
      (((s.updates times).is_moving_ = true ∧ (s.updates times).target_angle_ = c ∧
          (s.updates times).move_start_time_ = t0 ∧ (s.updates times).move_duration_ = d) ∨
        ((s.updates times).is_moving_ = false ∧ (s.updates times).current_angle_ = c)) := by
  induction times with
  | nil => intro s h; exact h
  | cons t ts ih =>
    intro s h
    rw [ServoController.updates_cons]
    exact ih _ (ServoController.update_towards c t0 d t s hc h)

theorem clampedAngle_idem (a : ℚ) : clampedAngle (clampedAngle a) = clampedAngle a :=
  clampedAngle_of_range (clampedAngle_range a).1 (clampedAngle_range a).2

/-- The snap to the target at the end of a move, after any earlier updates. -/
theorem ServoController.snap_after_duration (s : ServoController) (target : ℚ)
    (duration t0 : Nat) (times : List Nat) (t : Nat) (hd : duration < 4294967296)
    (he : duration ≤ sub32 t t0) :
    (((s.moveToAngle target duration t0).updates times).update t).current_angle_
      = clampedAngle target ∧
    (((s.moveToAngle target duration t0).updates times).update t).is_moving_ = false := by
  have hf := ServoController.moveToAngle_fields s target duration t0
  have hinv := ServoController.updates_towards (clampedAngle target) t0 duration
    (clampedAngle_idem target) times (s.moveToAngle target duration t0)
    (Or.inl ⟨hf.1, hf.2.1, hf.2.2.2.2.1, by rw [hf.2.2.2.2.2.1, Nat.mod_eq_of_lt hd]⟩)
  rcases hinv with ⟨hm, htg, hst, hdu⟩ | ⟨hm, hcur⟩
  · have := ServoController.update_complete _ t hm (by rw [hdu, hst]; exact he)
    exact ⟨by rw [this.1, htg, clampedAngle_idem], this.2.2.1⟩
  · rw [ServoController.update_of_not_moving _ t hm]
    exact ⟨hcur, hm⟩

/-- C16. For every servo state and every `moveToAngle(target, duration)` call at
clock value `t0`, after any earlier updates: an update at a clock value whose elapsed
time since `t0` is at least `duration` leaves the current angle exactly equal to the
target clamped into 0..180 and the servo inactive (`isMoving()` false), and every
sequence of later updates leaves the servo unchanged. -/
theorem C16_update_snaps_to_target (s : ServoController) (target : ℚ)
    (duration t0 : Nat) (times : List Nat) (t : Nat) (later : List Nat)
    (hd : duration < 4294967296) (he : duration ≤ sub32 t t0) :
    (((s.moveToAngle target duration t0).updates times).update t).current_angle_
      = clampedAngle target ∧
    (((s.moveToAngle target duration t0).updates times).update t).isMoving = false ∧
    (((s.moveToAngle target duration t0).updates times).update t).updates later
      = ((s.moveToAngle target duration t0).updates times).update t := by
  have h := ServoController.snap_after_duration s target duration t0 times t hd he
  exact ⟨h.1, h.2, ServoController.updates_of_not_moving later _ h.2⟩

/-- Witness for C16: the gripper closing from 90 to 30 degrees in 500 ms, armed at
1000 ms, updated at 1200 ms and then at 1500 ms. -/
theorem C16_update_snaps_to_target_witness :
    (((gripper.moveToAngle 30 500 1000).updates [1200]).update 1500).current_angle_
      = clampedAngle 30 ∧
    (((gripper.moveToAngle 30 500 1000).updates [1200]).update 1500).isMoving = false ∧
    (((gripper.moveToAngle 30 500 1000).updates [1200]).update 1500).updates [1510, 1520]
      = ((gripper.moveToAngle 30 500 1000).updates [1200]).update 1500 :=
  C16_update_snaps_to_target gripper 30 500 1000 [1200] 1500 [1510, 1520]
    (by decide) (by decide)

/-- C17 (counterexample). A move of duration 0 from 90 to 30 degrees: the update at
elapsed time 0 does not leave the current angle at the start angle. -/
theorem C17_zero_duration_snaps_at_elapsed_zero :
    sub32 1000 1000 = 0 ∧
    ((gripper.moveToAngle 30 0 1000).update 1000).current_angle_
      ≠ gripper.current_angle_ := by
  decide!

/-- C17 (amended). For every servo state and every `moveToAngle(target, duration)`
call at clock value `t0`, an update at elapsed time 0 leaves the current angle equal
to the start angle when `duration` is positive, and sets it to the clamped target
when `duration` is 0. -/
theorem C17_update_at_zero_elapsed (s : ServoController) (target : ℚ)
    (duration t0 t : Nat) (hd : duration < 4294967296) (h0 : sub32 t t0 = 0) :
    (0 < duration →
      ((s.moveToAngle target duration t0).update t).current_angle_ = s.current_angle_) ∧
    (duration = 0 →
      ((s.moveToAngle target duration t0).update t).current_angle_
        = clampedAngle target) := by
  have hf := ServoController.moveToAngle_fields s target duration t0
  constructor
  · intro hpos
    have he : sub32 t (s.moveToAngle target duration t0).move_start_time_
        < (s.moveToAngle target duration t0).move_duration_ := by
      rw [hf.2.2.2.2.1, hf.2.2.2.2.2.1, Nat.mod_eq_of_lt hd, h0]; exact hpos
    have hu := ServoController.update_in_flight _ t hf.1 he
    rw [hu.1, hf.2.2.2.2.1, h0, hf.2.2.1]
    simp
  · intro hz
    have := ServoController.snap_after_duration s target duration t0 [] t hd
      (by rw [hz]; exact Nat.zero_le _)
    exact this.1

/-- Witness for C17 (amended): the gripper closing in 500 ms, updated at the clock
value at which it was armed. -/
theorem C17_update_at_zero_elapsed_witness :
    (0 < 500 →
      ((gripper.moveToAngle 30 500 1000).update 1000).current_angle_
        = gripper.current_angle_) ∧
    (500 = 0 →
      ((gripper.moveToAngle 30 500 1000).update 1000).current_angle_ = clampedAngle 30) :=
  C17_update_at_zero_elapsed gripper 30 500 1000 1000 (by decide) (by decide)

/-- Updates made before the duration has elapsed keep the servo moving with the same
start angle, target, start time and duration. -/
theorem ServoController.updates_in_flight (times : List Nat) :
    ∀ s : ServoController, s.is_moving_ = true →
      (∀ x ∈ times, sub32 x s.move_start_time_ < s.move_duration_) →
      (s.updates times).is_moving_ = true ∧
      (s.updates times).target_angle_ = s.target_angle_ ∧
      (s.updates times).start_angle_ = s.start_angle_ ∧
      (s.updates times).move_start_time_ = s.move_start_time_ ∧
      (s.updates times).move_duration_ = s.move_duration_ := by
  induction times with
  | nil => intro s hm _; exact ⟨hm, rfl, rfl, rfl, rfl⟩
  | cons t ts ih =>
    intro s hm hin
    rw [ServoController.updates_cons]
    have hu := ServoController.update_in_flight s t hm (hin t (List.mem_cons_self t ts))
    have := ih (s.update t) hu.2.2.2.1 (by
      intro x hx
      rw [hu.2.2.2.2.1, hu.2.2.2.2.2.1]
      exact hin x (List.mem_cons_of_mem t hx))
    exact ⟨this.1, this.2.1.trans hu.2.1, this.2.2.1.trans hu.2.2.1,
      this.2.2.2.1.trans hu.2.2.2.2.1, this.2.2.2.2.trans hu.2.2.2.2.2.1⟩

/-- The angle written by an update in flight, after earlier updates in flight. -/
theorem ServoController.angle_in_flight (s : ServoController) (target : ℚ)
    (duration t0 : Nat) (times : List Nat) (t : Nat) (hd : duration < 4294967296)
    (hin : ∀ x ∈ times, sub32 x t0 < duration) (ht : sub32 t t0 < duration) :
    (((s.moveToAngle target duration t0).updates times).update t).current_angle_
      = s.current_angle_ +
          (clampedAngle target - s.current_angle_) * (sub32 t t0 : ℚ) / (duration : ℚ) := by
  have hf := ServoController.moveToAngle_fields s target duration t0
  have hdur : (s.moveToAngle target duration t0).move_duration_ = duration := by
    rw [hf.2.2.2.2.2.1, Nat.mod_eq_of_lt hd]
  have hq := ServoController.updates_in_flight times (s.moveToAngle target duration t0) hf.1
    (by intro x hx; rw [hf.2.2.2.2.1, hdur]; exact hin x hx)
  have hu := ServoController.update_in_flight
    ((s.moveToAngle target duration t0).updates times) t hq.1
    (by rw [hq.2.2.2.1, hq.2.2.2.2, hf.2.2.2.2.1, hdur]; exact ht)
  rw [hu.1, hq.2.1, hq.2.2.1, hq.2.2.2.1, hq.2.2.2.2, hf.2.1, hf.2.2.1, hf.2.2.2.2.1, hdur]
  ring

/-! ## The servo in `float` arithmetic -/

/-- The `float` quotient `progress` of an elapsed time below the duration: the
divisor is at least 1, the quotient lies between 0 and 1, both included, and does
not decrease with the elapsed time. -/
theorem ServoController.progress_bounds (e d : Nat) (h : e < d) :
    1 ≤ f32 (d : ℚ) ∧
    0 ≤ f32 (f32 (e : ℚ) / f32 (d : ℚ)) ∧ f32 (f32 (e : ℚ) / f32 (d : ℚ)) ≤ 1 ∧
    ∀ e' : Nat, e' ≤ e →
      f32 (f32 (e' : ℚ) / f32 (d : ℚ)) ≤ f32 (f32 (e : ℚ) / f32 (d : ℚ)) := by
  obtain ⟨f32_mono, f32_nonneg, _, _, ⟨_, f32_one, _, _⟩, _, _, _, _⟩ := f32_facts
  have hd1 : (1 : ℚ) ≤ (d : ℚ) := by exact_mod_cast (show 1 ≤ d by omega)
  have h1 : 1 ≤ f32 (d : ℚ) := by
    have := f32_mono hd1
    rwa [f32_one] at this
  have hpos : (0 : ℚ) < f32 (d : ℚ) := lt_of_lt_of_le one_pos h1
  have he0 : 0 ≤ f32 (e : ℚ) := f32_nonneg (by positivity)
  have hed : f32 (e : ℚ) ≤ f32 (d : ℚ) := f32_mono (by exact_mod_cast h.le)
  refine ⟨h1, f32_nonneg (div_nonneg he0 hpos.le), ?_, ?_⟩
  · have := f32_mono ((div_le_one hpos).2 hed)
    rwa [f32_one] at this
  · intro e' he'
    have : f32 (e' : ℚ) ≤ f32 (e : ℚ) := f32_mono (by exact_mod_cast he')
    exact f32_mono (div_le_div_of_nonneg_right this hpos.le)

theorem ServoController.update32_of_not_moving (s : ServoController) (t : Nat)
    (h : s.is_moving_ = false) : s.update32 t = s := by
  simp [ServoController.update32, h]

theorem ServoController.update32_complete (s : ServoController) (t : Nat)
    (hm : s.is_moving_ = true) (he : s.move_duration_ ≤ sub32 t s.move_start_time_) :
    s.update32 t = { (s.setAngle s.target_angle_) with is_moving_ := false } := by
  simp [ServoController.update32, hm, he]

/-- In `float` arithmetic, an update of a moving servo before the duration has
elapsed writes the interpolated angle and nothing else but the PWM level. -/
theorem ServoController.update32_in_flight (s : ServoController) (t : Nat)
    (hm : s.is_moving_ = true) (he : sub32 t s.move_start_time_ < s.move_duration_) :
    (s.update32 t).current_angle_ =
      f32 (s.start_angle_ + f32 (f32 (s.target_angle_ - s.start_angle_) *
        f32 (f32 (sub32 t s.move_start_time_ : ℚ) / f32 (s.move_duration_ : ℚ)))) ∧
    (s.update32 t).target_angle_ = s.target_angle_ ∧
    (s.update32 t).start_angle_ = s.start_angle_ ∧
    (s.update32 t).is_moving_ = true ∧
    (s.update32 t).move_start_time_ = s.move_start_time_ ∧
    (s.update32 t).move_duration_ = s.move_duration_ ∧
    (s.update32 t).is_attached_ = s.is_attached_ := by
  simp only [ServoController.update32, hm, Bool.not_true, Bool.false_eq_true, if_false,
    ge_iff_le, not_le.2 he]
  split_ifs <;> simp [ServoController.setPulseWidth, hm]

theorem ServoController.updates32_cons (s : ServoController) (t : Nat) (ts : List Nat) :
    s.updates32 (t :: ts) = (s.update32 t).updates32 ts := rfl

/-- Updates in flight, in `float` arithmetic, keep the move armed as it is. -/
theorem ServoController.updates32_in_flight (times : List Nat) :
    ∀ s : ServoController, s.is_moving_ = true →
      (∀ x ∈ times, sub32 x s.move_start_time_ < s.move_duration_) →
      (s.updates32 times).is_moving_ = true ∧
      (s.updates32 times).target_angle_ = s.target_angle_ ∧
      (s.updates32 times).start_angle_ = s.start_angle_ ∧
      (s.updates32 times).move_start_time_ = s.move_start_time_ ∧
      (s.updates32 times).move_duration_ = s.move_duration_ := by
  induction times with
  | nil => intro s hm _; exact ⟨hm, rfl, rfl, rfl, rfl⟩
  | cons t ts ih =>
    intro s hm hin
    rw [ServoController.updates32_cons]
    have hu := ServoController.update32_in_flight s t hm (hin t (List.mem_cons_self t ts))
    have := ih (s.update32 t) hu.2.2.2.1 (by
      intro x hx
      rw [hu.2.2.2.2.1, hu.2.2.2.2.2.1]
      exact hin x (List.mem_cons_of_mem t hx))
    exact ⟨this.1, this.2.1.trans hu.2.1, this.2.2.1.trans hu.2.2.1,
      this.2.2.2.1.trans hu.2.2.2.2.1, this.2.2.2.2.trans hu.2.2.2.2.2.1⟩

/-- The angle written in `float` arithmetic by an update in flight, after earlier
updates in flight. -/
theorem ServoController.angle32_in_flight (s : ServoController) (target : ℚ)
    (duration t0 : Nat) (times : List Nat) (t : Nat) (hd : duration < 4294967296)
    (hin : ∀ x ∈ times, sub32 x t0 < duration) (ht : sub32 t t0 < duration) :
    (((s.moveToAngle target duration t0).updates32 times).update32 t).current_angle_
      = f32 (s.current_angle_ + f32 (f32 (clampedAngle target - s.current_angle_) *
          f32 (f32 (sub32 t t0 : ℚ) / f32 (duration : ℚ)))) := by
  have hf := ServoController.moveToAngle_fields s target duration t0
  have hdur : (s.moveToAngle target duration t0).move_duration_ = duration := by
    rw [hf.2.2.2.2.2.1, Nat.mod_eq_of_lt hd]
  have hq := ServoController.updates32_in_flight times (s.moveToAngle target duration t0) hf.1
    (by intro x hx; rw [hf.2.2.2.2.1, hdur]; exact hin x hx)
  have hu := ServoController.update32_in_flight
    ((s.moveToAngle target duration t0).updates32 times) t hq.1
    (by rw [hq.2.2.2.1, hq.2.2.2.2, hf.2.2.2.2.1, hdur]; exact ht)
  rw [hu.1, hq.2.1, hq.2.2.1, hq.2.2.2.1, hq.2.2.2.2, hf.2.1, hf.2.2.1, hf.2.2.2.2.1, hdur]

/-- The `float` interpolation from a `float` start angle towards a target: not below
the start when the target is not, not above it when the target is not, monotone in
the progress, and equal to the start when the target is.  Between two angles in
0..180 and at a progress in 0..1 it stays in 0..180: the error of the rounded
difference is at most half the spacing of the `float` numbers below 256, and a sum
that exceeds 180 by no more than that rounds to 180. -/
theorem interpolation32 (start target : ℚ) (hs : f32 start = start) :
    (∀ p : ℚ, 0 ≤ p → start ≤ target →
      start ≤ f32 (start + f32 (f32 (target - start) * p))) ∧
    (∀ p : ℚ, 0 ≤ p → target ≤ start →
      f32 (start + f32 (f32 (target - start) * p)) ≤ start) ∧
    (∀ p q : ℚ, p ≤ q → start ≤ target →
      f32 (start + f32 (f32 (target - start) * p))
        ≤ f32 (start + f32 (f32 (target - start) * q))) ∧
    (∀ p q : ℚ, p ≤ q → target ≤ start →
      f32 (start + f32 (f32 (target - start) * q))
        ≤ f32 (start + f32 (f32 (target - start) * p))) ∧
    (∀ p : ℚ, target = start → f32 (start + f32 (f32 (target - start) * p)) = start) ∧
    (∀ p : ℚ, 0 ≤ start → start ≤ 180 → 0 ≤ target → target ≤ 180 → 0 ≤ p → p ≤ 1 →
      0 ≤ f32 (start + f32 (f32 (target - start) * p)) ∧
      f32 (start + f32 (f32 (target - start) * p)) ≤ 180) := by
  obtain ⟨f32_mono, f32_nonneg, f32_nonpos, _, ⟨f32_zero, _, _, _⟩, f32_idem, f32_neg,
    f32_err, f32_top⟩ := f32_facts
  have i1 : ∀ p : ℚ, 0 ≤ p → start ≤ target →
      start ≤ f32 (start + f32 (f32 (target - start) * p)) := by
    intro p hp h
    have ha : 0 ≤ f32 (target - start) := f32_nonneg (sub_nonneg.2 h)
    have hb : 0 ≤ f32 (f32 (target - start) * p) := f32_nonneg (mul_nonneg ha hp)
    have := f32_mono (show start ≤ start + f32 (f32 (target - start) * p) by linarith)
    rwa [hs] at this
  have i2 : ∀ p : ℚ, 0 ≤ p → target ≤ start →
      f32 (start + f32 (f32 (target - start) * p)) ≤ start := by
    intro p hp h
    have ha : f32 (target - start) ≤ 0 := f32_nonpos (sub_nonpos.2 h)
    have hb : f32 (f32 (target - start) * p) ≤ 0 :=
      f32_nonpos (mul_nonpos_of_nonpos_of_nonneg ha hp)
    have := f32_mono (show start + f32 (f32 (target - start) * p) ≤ start by linarith)
    rwa [hs] at this
  refine ⟨i1, i2, ?_, ?_, ?_, ?_⟩
  · intro p q hpq h
    have ha : 0 ≤ f32 (target - start) := f32_nonneg (sub_nonneg.2 h)
    have hb := f32_mono (mul_le_mul_of_nonneg_left hpq ha)
    exact f32_mono (by linarith)
  · intro p q hpq h
    have ha : f32 (target - start) ≤ 0 := f32_nonpos (sub_nonpos.2 h)
    have hb := f32_mono (mul_le_mul_of_nonpos_left hpq ha)
    exact f32_mono (by linarith)
  · intro p h
    rw [h, sub_self, f32_zero, zero_mul, f32_zero, add_zero, hs]
  · intro p hs0 hs1 ht0 ht1 hp0 hp1
    rcases le_total start target with h | h
    · refine ⟨hs0.trans (i1 p hp0 h), ?_⟩
      have ha : 0 ≤ f32 (target - start) := f32_nonneg (sub_nonneg.2 h)
      have hb : f32 (f32 (target - start) * p) ≤ f32 (target - start) := by
        have := f32_mono (show f32 (target - start) * p ≤ f32 (target - start) by nlinarith)
        rwa [f32_idem] at this
      have herr := (abs_le.1 (f32_err (target - start)
        (by rw [abs_of_nonneg (sub_nonneg.2 h)]; linarith))).2
      have hsum : start + f32 (f32 (target - start) * p) ≤ 180 + 1 / 131072 := by linarith
      have := f32_mono hsum
      rwa [f32_top] at this
    · refine ⟨?_, (i2 p hp0 h).trans hs1⟩
      have ha : f32 (target - start) ≤ 0 := f32_nonpos (sub_nonpos.2 h)
      have hlow : -start ≤ f32 (target - start) := by
        have := f32_mono (show -start ≤ target - start by linarith)
        rwa [f32_neg start hs] at this
      have hb : f32 (target - start) ≤ f32 (f32 (target - start) * p) := by
        have := f32_mono (show f32 (target - start) ≤ f32 (target - start) * p by nlinarith)
        rwa [f32_idem] at this
      have := f32_mono (show (0 : ℚ) ≤ start + f32 (f32 (target - start) * p) by linarith)
      rwa [f32_zero] at this

/-- C18 (counterexample). A move whose target equals the start angle (90 to 90 degrees
in 500 ms, updated 250 ms after it was armed) yields 90, which is not strictly between
start and target; and a move to the out-of-range target 200 yields 135, not
90 + (200 - 90) * 250 / 500 = 145.  In the `float` arithmetic of the source, a move
from 90 to 30 degrees in 100 000 000 ms still yields exactly the start angle 1 ms
after it was armed and the same angle after 7 ms and after 13 ms, so the angle is
neither strictly between start and target nor strictly monotonic; and a move from 52
degrees down to the `float` 8157733/1048576 yields, 1 ms before its end, an angle
below that target. -/
theorem C18_equal_target_not_strictly_between :
    (0 < sub32 1250 1000 ∧ sub32 1250 1000 < 500) ∧
    ¬ ((gripper.current_angle_ < ((gripper.moveToAngle 90 500 1000).update 1250).current_angle_
          ∧ ((gripper.moveToAngle 90 500 1000).update 1250).current_angle_ < 90)
        ∨ (90 < ((gripper.moveToAngle 90 500 1000).update 1250).current_angle_
          ∧ ((gripper.moveToAngle 90 500 1000).update 1250).current_angle_
              < gripper.current_angle_)) ∧
    ((gripper.moveToAngle 200 500 1000).update 1250).current_angle_ = 135 ∧
    ((gripper.moveToAngle 200 500 1000).update 1250).current_angle_
      ≠ gripper.current_angle_ + (200 - gripper.current_angle_) * 250 / 500 ∧
    ((gripper.moveToAngle 90 500 1000).update32 1250).current_angle_
      = gripper.current_angle_ ∧
    ((gripper.moveToAngle 200 500 1000).update32 1250).current_angle_ = 135 ∧
    ((gripper.moveToAngle 30 100000000 0).update32 1).current_angle_
      = gripper.current_angle_ ∧
    ((gripper.moveToAngle 30 100000000 0).update32 7).current_angle_
      = ((gripper.moveToAngle 30 100000000 0).update32 13).current_angle_ ∧
    (f32 52 = 52 ∧ f32 (8157733 / 1048576) = 8157733 / 1048576 ∧
      (((gripper.setAngle 52).moveToAngle (8157733 / 1048576) 2084278737 0).update32
          2084278736).is_moving_ = true ∧
      (((gripper.setAngle 52).moveToAngle (8157733 / 1048576) 2084278737 0).update32
          2084278736).current_angle_ < 8157733 / 1048576) := by
  decide!

/-- C18 (amended). For every servo state whose current angle is a `float` value,
every `moveToAngle(target, duration)` call at clock value `t0` and, after any earlier
updates in flight, two successive updates at elapsed times `e < e'` with
`e' < duration`: each update yields the `float` value of
`start + (T - start) * progress`, where T is the target clamped into 0..180,
`progress` is the `float` quotient of the elapsed time and the duration, and the
difference, the product and the sum are each rounded to `float`.  When T > start the
two angles are not below start, the second is not below the first, and neither
exceeds the angle computed for progress 1; when T < start they are not above start,
the second is not above the first, and neither is below the angle computed for
progress 1; when T = start they equal start. -/
theorem C18_interpolated_angle (s : ServoController) (target : ℚ)
    (duration t0 : Nat) (times : List Nat) (t t' : Nat) (hd : duration < 4294967296)
    (hin : ∀ x ∈ times, sub32 x t0 < duration)
    (h1 : sub32 t t0 < sub32 t' t0) (h2 : sub32 t' t0 < duration)
    (hs : f32 s.current_angle_ = s.current_angle_) :
    (((s.moveToAngle target duration t0).updates32 times).update32 t).current_angle_
      = f32 (s.current_angle_ + f32 (f32 (clampedAngle target - s.current_angle_) *
          f32 (f32 (sub32 t t0 : ℚ) / f32 (duration : ℚ)))) ∧
    ((((s.moveToAngle target duration t0).updates32 times).update32 t).update32
        t').current_angle_
      = f32 (s.current_angle_ + f32 (f32 (clampedAngle target - s.current_angle_) *
          f32 (f32 (sub32 t' t0 : ℚ) / f32 (duration : ℚ)))) ∧
    (s.current_angle_ < clampedAngle target →
      s.current_angle_
        ≤ (((s.moveToAngle target duration t0).updates32 times).update32 t).current_angle_ ∧
      (((s.moveToAngle target duration t0).updates32 times).update32 t).current_angle_
        ≤ ((((s.moveToAngle target duration t0).updates32 times).update32 t).update32
            t').current_angle_ ∧
      ((((s.moveToAngle target duration t0).updates32 times).update32 t).update32
            t').current_angle_
        ≤ f32 (s.current_angle_ + f32 (f32 (clampedAngle target - s.current_angle_) * 1))) ∧
    (clampedAngle target < s.current_angle_ →
      f32 (s.current_angle_ + f32 (f32 (clampedAngle target - s.current_angle_) * 1))
        ≤ ((((s.moveToAngle target duration t0).updates32 times).update32 t).update32
            t').current_angle_ ∧
      ((((s.moveToAngle target duration t0).updates32 times).update32 t).update32
            t').current_angle_
        ≤ (((s.moveToAngle target duration t0).updates32 times).update32 t).current_angle_ ∧
      (((s.moveToAngle target duration t0).updates32 times).update32 t).current_angle_
        ≤ s.current_angle_) ∧
    (clampedAngle target = s.current_angle_ →
      (((s.moveToAngle target duration t0).updates32 times).update32 t).current_angle_
        = s.current_angle_ ∧
      ((((s.moveToAngle target duration t0).updates32 times).update32 t).update32
            t').current_angle_ = s.current_angle_) := by
  have hA := ServoController.angle32_in_flight s target duration t0 times t hd hin
    (lt_trans h1 h2)
  have hsplit : (s.moveToAngle target duration t0).updates32 (times ++ [t])
      = ((s.moveToAngle target duration t0).updates32 times).update32 t := by
    simp [ServoController.updates32, List.foldl_append]
  have hB := ServoController.angle32_in_flight s target duration t0 (times ++ [t]) t' hd
    (by
      intro x hx
      rcases List.mem_append.1 hx with h | h
      · exact hin x h
      · rw [List.mem_singleton.1 h]; exact lt_trans h1 h2)
    h2
  rw [hsplit] at hB
  rw [hA, hB]
  have hp := ServoController.progress_bounds (sub32 t t0) duration (lt_trans h1 h2)
  have hp' := ServoController.progress_bounds (sub32 t' t0) duration h2
  have hmono := hp'.2.2.2 (sub32 t t0) h1.le
  obtain ⟨i1, i2, i3, i4, i5, _⟩ := interpolation32 s.current_angle_ (clampedAngle target) hs
  refine ⟨rfl, rfl, ?_, ?_, ?_⟩
  · intro h
    exact ⟨i1 _ hp.2.1 h.le, i3 _ _ hmono h.le, i3 _ _ hp'.2.2.1 h.le⟩
  · intro h
    exact ⟨i4 _ _ hp'.2.2.1 h.le, i4 _ _ hmono h.le, i2 _ hp.2.1 h.le⟩
  · intro h
    exact ⟨i5 _ h, i5 _ h⟩

/-- Witness for C18 (amended): the gripper closing from 90 to 30 degrees in 500 ms,
armed at 1000 ms and updated at 1010, 1100 and 1300 ms; the two angles are 78 and
54 degrees. -/
theorem C18_interpolated_angle_witness :
    ((((gripper.moveToAngle 30 500 1000).updates32 [1010]).update32 1100).current_angle_
        = 78 ∧
      ((((gripper.moveToAngle 30 500 1000).updates32 [1010]).update32 1100).update32
          1300).current_angle_ = 54) ∧
    ((((gripper.moveToAngle 30 500 1000).updates32 [1010]).update32 1100).current_angle_
      = f32 (gripper.current_angle_ + f32 (f32 (clampedAngle 30 - gripper.current_angle_) *
          f32 (f32 (sub32 1100 1000 : ℚ) / f32 ((500 : ℕ) : ℚ)))) ∧
    ((((gripper.moveToAngle 30 500 1000).updates32 [1010]).update32 1100).update32
        1300).current_angle_
      = f32 (gripper.current_angle_ + f32 (f32 (clampedAngle 30 - gripper.current_angle_) *
          f32 (f32 (sub32 1300 1000 : ℚ) / f32 ((500 : ℕ) : ℚ)))) ∧
    (gripper.current_angle_ < clampedAngle 30 →
      gripper.current_angle_
        ≤ (((gripper.moveToAngle 30 500 1000).updates32 [1010]).update32 1100).current_angle_ ∧
      (((gripper.moveToAngle 30 500 1000).updates32 [1010]).update32 1100).current_angle_
        ≤ ((((gripper.moveToAngle 30 500 1000).updates32 [1010]).update32 1100).update32
            1300).current_angle_ ∧
      ((((gripper.moveToAngle 30 500 1000).updates32 [1010]).update32 1100).update32
            1300).current_angle_
        ≤ f32 (gripper.current_angle_ + f32 (f32 (clampedAngle 30 - gripper.current_angle_) * 1))) ∧
    (clampedAngle 30 < gripper.current_angle_ →
      f32 (gripper.current_angle_ + f32 (f32 (clampedAngle 30 - gripper.current_angle_) * 1))
        ≤ ((((gripper.moveToAngle 30 500 1000).updates32 [1010]).update32 1100).update32
            1300).current_angle_ ∧
      ((((gripper.moveToAngle 30 500 1000).updates32 [1010]).update32 1100).update32
            1300).current_angle_
        ≤ (((gripper.moveToAngle 30 500 1000).updates32 [1010]).update32 1100).current_angle_ ∧
      (((gripper.moveToAngle 30 500 1000).updates32 [1010]).update32 1100).current_angle_
        ≤ gripper.current_angle_) ∧
    (clampedAngle 30 = gripper.current_angle_ →
      (((gripper.moveToAngle 30 500 1000).updates32 [1010]).update32 1100).current_angle_
        = gripper.current_angle_ ∧
      ((((gripper.moveToAngle 30 500 1000).updates32 [1010]).update32 1100).update32
            1300).current_angle_ = gripper.current_angle_)) :=
  ⟨by decide!,
    C18_interpolated_angle gripper 30 500 1000 [1010] 1100 1300 (by decide) (by decide)
      (by decide) (by decide) (by decide!)⟩

/-! ## Immediate set, detach and attach -/

/-- C19. For every servo state, every angle `a` and every sequence of following
updates: `setAngle(a)` sets the current and the target angle to `a` clamped into
0..180 (0 if `a < 0`, 180 if `a > 180`, `a` otherwise) and leaves the servo not moving,
and the following updates leave the servo, and so the angle, unchanged. -/
theorem C19_setAngle_clamps_and_cancels (s : ServoController) (a : ℚ) (times : List Nat) :
    (s.setAngle a).current_angle_ = clampedAngle a ∧
    (s.setAngle a).target_angle_ = clampedAngle a ∧
    (s.setAngle a).isMoving = false ∧
    (s.setAngle a).updates times = s.setAngle a ∧
    ((s.setAngle a).updates times).current_angle_ = clampedAngle a := by
  have hf := ServoController.setAngle_fields s a
  have hu := ServoController.updates_of_not_moving times (s.setAngle a) hf.2.2.1
  exact ⟨hf.1, hf.2.1, hf.2.2.1, hu, by rw [hu]; exact hf.1⟩

theorem ServoController.InRange_setAngle (s : ServoController) (a : ℚ) (h : s.InRange) :
    (s.setAngle a).InRange := by
  have hf := ServoController.setAngle_fields s a
  have hr := clampedAngle_range a
  unfold ServoController.InRange
  rw [hf.1, hf.2.1, hf.2.2.2.1]
  exact ⟨hr, hr, h.2.2⟩

theorem ServoController.InRange_update (s : ServoController) (t : Nat) (h : s.InRange) :
    (s.update t).InRange := by
  cases hm : s.is_moving_ with
  | false => rw [ServoController.update_of_not_moving s t hm]; exact h
  | true =>
    by_cases he : s.move_duration_ ≤ sub32 t s.move_start_time_
    · have hu := ServoController.update_complete s t hm he
      have hr := clampedAngle_range s.target_angle_
      unfold ServoController.InRange
      rw [hu.1, hu.2.1, hu.2.2.2.1]
      exact ⟨hr, hr, h.2.2⟩
    · have he' := not_le.1 he
      have hu := ServoController.update_in_flight s t hm he'
      unfold ServoController.InRange
      rw [hu.1, hu.2.1, hu.2.2.1]
      refine ⟨?_, h.2.1, h.2.2⟩
      have hdpos : (0 : ℚ) < (s.move_duration_ : ℚ) := by
        have : 0 < s.move_duration_ := lt_of_le_of_lt (Nat.zero_le _) he'
        exact_mod_cast this
      have hp0 : (0 : ℚ) ≤ (sub32 t s.move_start_time_ : ℚ) / (s.move_duration_ : ℚ) :=
        div_nonneg (by exact_mod_cast Nat.zero_le _) hdpos.le
      have hp1 : (sub32 t s.move_start_time_ : ℚ) / (s.move_duration_ : ℚ) ≤ 1 := by
        rw [div_le_one hdpos]
        exact_mod_cast he'.le
      obtain ⟨_, ⟨ht0, ht1⟩, ⟨hs0, hs1⟩⟩ := h
      constructor
      · nlinarith [mul_nonneg hs0 (sub_nonneg.2 hp1), mul_nonneg ht0 hp0]
      · nlinarith [mul_nonneg (sub_nonneg.2 hs1) (sub_nonneg.2 hp1),
          mul_nonneg (sub_nonneg.2 ht1) hp0]

theorem ServoController.attach_fields (s : ServoController) (h : s.is_attached_ = false) :
    s.attach.current_angle_ = clampedAngle s.current_angle_ ∧
    s.attach.target_angle_ = clampedAngle s.current_angle_ ∧
    s.attach.start_angle_ = s.start_angle_ ∧
    s.attach.is_attached_ = true ∧
    s.attach.is_moving_ = false := by
  have hf := ServoController.setAngle_fields
    { s with pwm_enabled := true, is_attached_ := true } s.current_angle_
  have ha : s.attach = ServoController.setAngle
      { s with pwm_enabled := true, is_attached_ := true } s.current_angle_ := by
    simp [ServoController.attach, h]
  rw [ha]
  exact ⟨hf.1, hf.2.1, hf.2.2.2.1, hf.2.2.2.2, hf.2.2.1⟩

theorem ServoController.attach_of_attached (s : ServoController)
    (h : s.is_attached_ = true) : s.attach = s := by
  simp [ServoController.attach, h]

/-- Every public method keeps the stored angles in the range 0 to 180 degrees. -/
theorem ServoController.InRange_call (s : ServoController) (op : ServoOp) (h : s.InRange) :
    (s.call op).InRange := by
  cases op with
  | init =>
    have := ServoController.InRange_setAngle s 90 h
    exact this
  | setAngle a => exact ServoController.InRange_setAngle s a h
  | moveToAngle target duration t0 =>
    have hf := ServoController.moveToAngle_fields s target duration t0
    show (s.moveToAngle target duration t0).InRange
    unfold ServoController.InRange
    rw [hf.2.1, hf.2.2.1, hf.2.2.2.1]
    exact ⟨h.1, clampedAngle_range target, h.1⟩
  | update t => exact ServoController.InRange_update s t h
  | detach => exact h
  | attach =>
    show s.attach.InRange
    cases ha : s.is_attached_ with
    | true => rw [ServoController.attach_of_attached s ha]; exact h
    | false =>
      have hf := ServoController.attach_fields s ha
      have hr := clampedAngle_range s.current_angle_
      unfold ServoController.InRange
      rw [hf.1, hf.2.1, hf.2.2.1]
      exact ⟨hr, hr, h.2.2⟩

theorem ServoController.InRange_calls (ops : List ServoOp) :
    ∀ s : ServoController, s.InRange → (s.calls ops).InRange := by
  induction ops with
  | nil => intro s h; exact h
  | cons op rest ih =>
    intro s h
    exact ih _ (ServoController.InRange_call s op h)

theorem ServoController.InRange_new (pin min_pulse_us max_pulse_us : Nat) :
    (ServoController.new pin min_pulse_us max_pulse_us).InRange := by
  unfold ServoController.InRange ServoController.new
  norm_num

/-- Detaching and re-attaching a servo whose current angle is in range keeps the
angle and leaves the servo attached. -/
theorem ServoController.detach_attach (s : ServoController)
    (h0 : 0 ≤ s.current_angle_) (h1 : s.current_angle_ ≤ 180) :
    s.detach.attach.getCurrentAngle = s.getCurrentAngle ∧
    s.detach.attach.is_attached_ = true := by
  have hf := ServoController.attach_fields s.detach rfl
  exact ⟨hf.1.trans (clampedAngle_of_range h0 h1), hf.2.2.2.1⟩

/-- C20. For every servo state reached from the constructor by any sequence of calls
of `init`, `setAngle`, `moveToAngle`, `update`, `detach` and `attach` with any
arguments and clock values: `detach()` followed by `attach()` leaves
`getCurrentAngle()` equal to its value before `detach()` and leaves the servo
attached.  For every servo state that is attached, `attach()` changes nothing. -/
theorem C20_detach_attach_keeps_angle (pin min_pulse_us max_pulse_us : Nat)
    (ops : List ServoOp) (s : ServoController) :
    (((ServoController.new pin min_pulse_us max_pulse_us).calls ops).detach.attach
        ).getCurrentAngle
      = ((ServoController.new pin min_pulse_us max_pulse_us).calls ops).getCurrentAngle ∧
    (((ServoController.new pin min_pulse_us max_pulse_us).calls ops).detach.attach
        ).is_attached_ = true ∧
    (s.is_attached_ = true → s.attach = s) := by
  have hr := ServoController.InRange_calls ops _
    (ServoController.InRange_new pin min_pulse_us max_pulse_us)
  have hd := ServoController.detach_attach _ hr.1.1 hr.1.2
  exact ⟨hd.1, hd.2, ServoController.attach_of_attached s⟩

/-! ## The beep pattern -/

theorem Buzzer.updates_step (b : Buzzer) (t : Nat) (ts : List Nat) :
    b.updates (t :: ts) = (b.update t).updates ts := rfl

theorem Buzzer.updates_append (b : Buzzer) (ts us : List Nat) :
    b.updates (ts ++ us) = (b.updates ts).updates us := by
  simp [Buzzer.updates, List.foldl_append]

theorem Buzzer.update_of_inactive (b : Buzzer) (t : Nat) (h : b.pattern_active_ = false) :
    b.update t = b := by
  simp [Buzzer.update, h]

theorem Buzzer.updates_of_inactive (times : List Nat) :
    ∀ b : Buzzer, b.pattern_active_ = false → b.updates times = b := by
  induction times with
  | nil => intro b _; rfl
  | cons t ts ih =>
    intro b h
    rw [Buzzer.updates_step, Buzzer.update_of_inactive b t h]
    exact ih b h

/-- One update of a pattern of `n` beeps keeps it in one of its phases, adds one to
the count of completed beeps exactly when it turns the output off, and adds one to
the count of completed pauses exactly when it turns the output on. -/
theorem Buzzer.update_inPattern (n : Nat) (hn : n ≤ 255) (b : Buzzer) (t : Nat)
    (h : b.InPattern n) :
    (b.update t).InPattern n ∧
    b.pattern_current_ + (if b.state_ && !(b.update t).state_ then 1 else 0)
      = (b.update t).pattern_current_ ∧
    b.pausesDone + (if !b.state_ && (b.update t).state_ then 1 else 0)
      = (b.update t).pausesDone := by
  obtain ⟨hc, hph⟩ := h
  rcases hph with ⟨ha, hb, hs, hlt⟩ | ⟨ha, hb, hs, h1, hlt⟩ | ⟨ha, hb, hs, heq⟩
  · by_cases he : b.beep_duration_ ≤ sub32 t b.pattern_start_time_
    · have hmod : (b.pattern_current_ + 1) % 256 = b.pattern_current_ + 1 :=
        Nat.mod_eq_of_lt (by omega)
      by_cases hlast : n ≤ b.pattern_current_ + 1
      · have hu : b.update t =
            { b with
              state_ := false, pattern_beep_state_ := false,
              pattern_start_time_ := t, pattern_current_ := b.pattern_current_ + 1,
              pattern_active_ := false } := by
          simp [Buzzer.update, Buzzer.updatePattern, Buzzer.switchOff, ha, hb, he, hmod, hc,
            hlast]
        rw [hu]
        refine ⟨⟨hc, Or.inr (Or.inr ⟨rfl, rfl, rfl, by simp; omega⟩)⟩, ?_, ?_⟩
        · simp [hs]
        · simp [Buzzer.pausesDone, hb, hs]
      · have hu : b.update t =
            { b with
              state_ := false, pattern_beep_state_ := false,
              pattern_start_time_ := t, pattern_current_ := b.pattern_current_ + 1 } := by
          simp [Buzzer.update, Buzzer.updatePattern, Buzzer.switchOff, ha, hb, he, hmod, hc,
            hlast]
        rw [hu]
        refine ⟨⟨hc, Or.inr (Or.inl ⟨ha, rfl, rfl, by simp, by simp; omega⟩)⟩, ?_, ?_⟩
        · simp [hs]
        · simp [Buzzer.pausesDone, hb, hs]
    · have hu : b.update t = b := by
        simp [Buzzer.update, Buzzer.updatePattern, ha, hb, he]
      rw [hu]
      exact ⟨⟨hc, Or.inl ⟨ha, hb, hs, hlt⟩⟩, by simp [hs], by simp [hs]⟩
  · by_cases he : b.pause_duration_ ≤ sub32 t b.pattern_start_time_
    · have hu : b.update t =
          { b with
            state_ := true, pattern_beep_state_ := true, pattern_start_time_ := t } := by
        simp [Buzzer.update, Buzzer.updatePattern, Buzzer.switchOn, ha, hb, he]
      rw [hu]
      refine ⟨⟨hc, Or.inl ⟨ha, rfl, rfl, hlt⟩⟩, ?_, ?_⟩
      · simp [hs]
      · simp [Buzzer.pausesDone, hb, hs]; omega
    · have hu : b.update t = b := by
        simp [Buzzer.update, Buzzer.updatePattern, ha, hb, he]
      rw [hu]
      exact ⟨⟨hc, Or.inr (Or.inl ⟨ha, hb, hs, h1, hlt⟩)⟩, by simp [hs], by simp [hs]⟩
  · rw [Buzzer.update_of_inactive b t ha]
    exact ⟨⟨hc, Or.inr (Or.inr ⟨ha, hb, hs, heq⟩)⟩, by simp [hs], by simp [hs]⟩

/-- Over any sequence of updates a pattern of `n` beeps stays in its phases; the
updates that turn the output off count the beeps completed and those that turn it on
count the pauses completed. -/
theorem Buzzer.updates_inPattern (n : Nat) (hn : n ≤ 255) (times : List Nat) :
    ∀ b : Buzzer, b.InPattern n →
      (b.updates times).InPattern n ∧
      b.pattern_current_ + b.switchedOff times = (b.updates times).pattern_current_ ∧
      b.pausesDone + b.switchedOn times = (b.updates times).pausesDone := by
  induction times with
  | nil => intro b h; exact ⟨h, rfl, rfl⟩
  | cons t ts ih =>
    intro b h
    obtain ⟨h1, h2, h3⟩ := Buzzer.update_inPattern n hn b t h
    obtain ⟨i1, i2, i3⟩ := ih (b.update t) h1
    rw [Buzzer.updates_step]
    refine ⟨i1, ?_, ?_⟩
    · rw [← i2, ← h2]; simp only [Buzzer.switchedOff]; omega
    · rw [← i3, ← h3]; simp only [Buzzer.switchedOn]; omega

theorem Buzzer.startBeepPattern_inPattern (b : Buzzer) (n on_ms off_ms t0 : Nat)
    (hn1 : 1 ≤ n) (hn : n ≤ 255) :
    (b.startBeepPattern n on_ms off_ms t0).InPattern n ∧
    (b.startBeepPattern n on_ms off_ms t0).pattern_current_ = 0 ∧
    (b.startBeepPattern n on_ms off_ms t0).pausesDone = 0 ∧
    (b.startBeepPattern n on_ms off_ms t0).state_ = true ∧
    (b.startBeepPattern n on_ms off_ms t0).pattern_active_ = true := by
  have hmod : n % 256 = n := Nat.mod_eq_of_lt (by omega)
  refine ⟨⟨?_, Or.inl ⟨rfl, rfl, rfl, ?_⟩⟩, rfl, rfl, rfl, rfl⟩
  · show n % 256 = n
    exact hmod
  · show 0 < n
    omega

theorem sub32_gap (t gap : Nat) (h : gap < 4294967296) : sub32 (t + gap) t = gap := by
  unfold sub32
  omega

/-- An update that comes a whole gap after the start of the current phase, the gap
being at least the on-time and the off-time, ends that phase. -/
theorem Buzzer.update_after_gap (n gap : Nat) (hn : n ≤ 255) (hg : gap < 4294967296)
    (b : Buzzer) (t : Nat) (h : b.InPattern n)
    (hst : b.pattern_active_ = true → b.pattern_start_time_ = t)
    (hon : b.beep_duration_ ≤ gap) (hoff : b.pause_duration_ ≤ gap) :
    ((b.update (t + gap)).pattern_active_ = true →
      (b.update (t + gap)).pattern_start_time_ = t + gap) ∧
    (b.update (t + gap)).beep_duration_ = b.beep_duration_ ∧
    (b.update (t + gap)).pause_duration_ = b.pause_duration_ ∧
    (b.update (t + gap)).phasesLeft = b.phasesLeft - 1 := by
  obtain ⟨hc, hph⟩ := h
  rcases hph with ⟨ha, hb, hs, hlt⟩ | ⟨ha, hb, hs, h1, hlt⟩ | ⟨ha, hb, hs, heq⟩
  · have he : b.beep_duration_ ≤ sub32 (t + gap) b.pattern_start_time_ := by
      rw [hst ha, sub32_gap t gap hg]; exact hon
    have hmod : (b.pattern_current_ + 1) % 256 = b.pattern_current_ + 1 :=
      Nat.mod_eq_of_lt (by omega)
    by_cases hlast : n ≤ b.pattern_current_ + 1
    · have hu : b.update (t + gap) =
          { b with
            state_ := false, pattern_beep_state_ := false,
            pattern_start_time_ := t + gap, pattern_current_ := b.pattern_current_ + 1,
            pattern_active_ := false } := by
        simp [Buzzer.update, Buzzer.updatePattern, Buzzer.switchOff, ha, hb, he, hmod, hc,
          hlast]
      rw [hu]
      refine ⟨by simp, rfl, rfl, ?_⟩
      simp only [Buzzer.phasesLeft, ha, hb, hc, Bool.not_true, Bool.not_false,
        Bool.false_eq_true, if_false, if_true]
      omega
    · have hu : b.update (t + gap) =
          { b with
            state_ := false, pattern_beep_state_ := false,
            pattern_start_time_ := t + gap, pattern_current_ := b.pattern_current_ + 1 } := by
        simp [Buzzer.update, Buzzer.updatePattern, Buzzer.switchOff, ha, hb, he, hmod, hc,
          hlast]
      rw [hu]
      refine ⟨fun _ => rfl, rfl, rfl, ?_⟩
      simp only [Buzzer.phasesLeft, ha, hb, hc, Bool.not_true, Bool.not_false,
        Bool.false_eq_true, if_false, if_true]
      omega
  · have he : b.pause_duration_ ≤ sub32 (t + gap) b.pattern_start_time_ := by
      rw [hst ha, sub32_gap t gap hg]; exact hoff
    have hu : b.update (t + gap) =
        { b with
          state_ := true, pattern_beep_state_ := true, pattern_start_time_ := t + gap } := by
      simp [Buzzer.update, Buzzer.updatePattern, Buzzer.switchOn, ha, hb, he]
    rw [hu]
    refine ⟨fun _ => rfl, rfl, rfl, ?_⟩
    simp only [Buzzer.phasesLeft, ha, hb, hc, Bool.not_true, Bool.not_false,
      Bool.false_eq_true, if_false, if_true]
  · rw [Buzzer.update_of_inactive b _ ha]
    refine ⟨fun h => by rw [ha] at h; exact absurd h (by decide), rfl, rfl, ?_⟩
    simp [Buzzer.phasesLeft, ha]

/-- Updates spaced a gap apart end one phase each. -/
theorem Buzzer.updates_everyGap (n gap : Nat) (hn : n ≤ 255) (hg : gap < 4294967296) :
    ∀ (m : Nat) (b : Buzzer) (t : Nat), b.InPattern n →
      (b.pattern_active_ = true → b.pattern_start_time_ = t) →
      b.beep_duration_ ≤ gap → b.pause_duration_ ≤ gap →
      (b.updates (everyGap gap t m)).phasesLeft = b.phasesLeft - m := by
  intro m
  induction m with
  | zero => intro b t _ _ _ _; rfl
  | succ m ih =>
    intro b t h hst hon hoff
    obtain ⟨u1, u2, u3, u4⟩ := Buzzer.update_after_gap n gap hn hg b t h hst hon hoff
    have hin := (Buzzer.update_inPattern n hn b (t + gap) h).1
    show ((b.update (t + gap)).updates (everyGap gap (t + gap) m)).phasesLeft = _
    rw [ih _ _ hin u1 (by rw [u2]; exact hon) (by rw [u3]; exact hoff), u4]
    omega

theorem Buzzer.isPlaying_iff_phasesLeft (n : Nat) (b : Buzzer) (h : b.InPattern n) :
    b.isPlaying = decide (0 < b.phasesLeft) := by
  obtain ⟨hc, hph⟩ := h
  rcases hph with ⟨ha, hb, hs, hlt⟩ | ⟨ha, hb, hs, h1, hlt⟩ | ⟨ha, hb, hs, heq⟩
  · simp only [Buzzer.isPlaying, Buzzer.phasesLeft, ha, hb, hc, Bool.not_true,
      Bool.false_eq_true, if_false, if_true]
    symm
    rw [decide_eq_true_iff]
    omega
  · simp only [Buzzer.isPlaying, Buzzer.phasesLeft, ha, hb, hc, Bool.not_true,
      Bool.false_eq_true, if_false]
    symm
    rw [decide_eq_true_iff]
    omega
  · simp [Buzzer.isPlaying, Buzzer.phasesLeft, ha]

/-- A pattern of `n` beeps updated every `gap` ms, the gap being at least the on-time
and the off-time: it is playing after `m` updates exactly when `m < 2 n - 1`. -/
theorem Buzzer.playing_everyGap (b : Buzzer) (n on_ms off_ms t0 gap m : Nat)
    (hn1 : 1 ≤ n) (hn : n ≤ 255) (hon : on_ms ≤ gap) (hoff : off_ms ≤ gap)
    (hg : gap < 4294967296) :
    ((b.startBeepPattern n on_ms off_ms t0).updates (everyGap gap t0 m)).isPlaying
      = decide (m < 2 * n - 1) := by
  have h0 := Buzzer.startBeepPattern_inPattern b n on_ms off_ms t0 hn1 hn
  have hin := (Buzzer.updates_inPattern n hn (everyGap gap t0 m) _ h0.1).1
  have hl := Buzzer.updates_everyGap n gap hn hg m (b.startBeepPattern n on_ms off_ms t0) t0
    h0.1 (fun _ => rfl)
    (by show on_ms % 4294967296 ≤ gap; exact (Nat.mod_le _ _).trans hon)
    (by show off_ms % 4294967296 ≤ gap; exact (Nat.mod_le _ _).trans hoff)
  have hstart : (b.startBeepPattern n on_ms off_ms t0).phasesLeft = 2 * n - 1 := by
    show (if (!true) = true then 0 else if true = true then 2 * (n % 256 - 0) - 1
      else 2 * (n % 256 - 0)) = _
    rw [Nat.mod_eq_of_lt (by omega)]
    simp
  rw [Buzzer.isPlaying_iff_phasesLeft n _ hin, hl, hstart]
  congr 1
  apply propext
  omega

/-- C21 (counterexample). A pattern started with a beep count of 0 and updated at
1050, 1100 and 1150 ms: the output is on from the start, one update turns it off, so
one on-phase occurs, not zero, and then the pattern is over. -/
theorem C21_zero_count_plays_one_beep :
    ((Buzzer.new BUZZER_PIN).startBeepPattern 0 100 50 1000).state_ = true ∧
    ((Buzzer.new BUZZER_PIN).startBeepPattern 0 100 50 1000).switchedOff [1050, 1100, 1150]
      = 1 ∧
    (((Buzzer.new BUZZER_PIN).startBeepPattern 0 100 50 1000).updates
      [1050, 1100, 1150]).isPlaying = false := by
  decide

/-- Facts about a pattern of `n` beeps after any sequence of updates, in terms of
its counters. -/
theorem Buzzer.pattern_counts (b : Buzzer) (n on_ms off_ms t0 : Nat) (times : List Nat)
    (hn1 : 1 ≤ n) (hn : n ≤ 255) :
    ((b.startBeepPattern n on_ms off_ms t0).updates times).InPattern n ∧
    (b.startBeepPattern n on_ms off_ms t0).switchedOff times
      = ((b.startBeepPattern n on_ms off_ms t0).updates times).pattern_current_ ∧
    (b.startBeepPattern n on_ms off_ms t0).switchedOn times
      = ((b.startBeepPattern n on_ms off_ms t0).updates times).pausesDone := by
  have h0 := Buzzer.startBeepPattern_inPattern b n on_ms off_ms t0 hn1 hn
  have h := Buzzer.updates_inPattern n hn times _ h0.1
  rw [h0.2.1, h0.2.2.1] at h
  exact ⟨h.1, by omega, by omega⟩

/-- The phases of a pattern of `n` beeps with `1 ≤ n ≤ 255`. -/
theorem Buzzer.pattern_phases (b : Buzzer) (n on_ms off_ms t0 : Nat) (times : List Nat)
    (hn1 : 1 ≤ n) (hn : n ≤ 255) :
    (b.startBeepPattern n on_ms off_ms t0).state_ = true ∧
    (b.startBeepPattern n on_ms off_ms t0).isPlaying = true ∧
    ((b.startBeepPattern n on_ms off_ms t0).switchedOff times ≤ n ∧
      (b.startBeepPattern n on_ms off_ms t0).switchedOn times ≤ n - 1 ∧
      (b.startBeepPattern n on_ms off_ms t0).switchedOn times
        ≤ (b.startBeepPattern n on_ms off_ms t0).switchedOff times ∧
      (b.startBeepPattern n on_ms off_ms t0).switchedOff times
        ≤ (b.startBeepPattern n on_ms off_ms t0).switchedOn times + 1) ∧
    (((b.startBeepPattern n on_ms off_ms t0).updates times).isPlaying = false →
      (b.startBeepPattern n on_ms off_ms t0).switchedOff times = n ∧
      (b.startBeepPattern n on_ms off_ms t0).switchedOn times = n - 1 ∧
      ((b.startBeepPattern n on_ms off_ms t0).updates times).state_ = false) ∧
    (∀ t, ((b.startBeepPattern n on_ms off_ms t0).updates times).isPlaying = true →
      (((b.startBeepPattern n on_ms off_ms t0).updates times).update t).isPlaying = false →
      (b.startBeepPattern n on_ms off_ms t0).switchedOff times = n - 1 ∧
      ((b.startBeepPattern n on_ms off_ms t0).updates times).state_ = true ∧
      (((b.startBeepPattern n on_ms off_ms t0).updates times).update t).state_ = false) := by
  have h0 := Buzzer.startBeepPattern_inPattern b n on_ms off_ms t0 hn1 hn
  obtain ⟨⟨hc, hph⟩, hoff, hon⟩ := Buzzer.pattern_counts b n on_ms off_ms t0 times hn1 hn
  refine ⟨h0.2.2.2.1, h0.2.2.2.2, ?_, ?_, ?_⟩
  · rw [hoff, hon]
    unfold Buzzer.pausesDone
    rcases hph with ⟨_, hb, _, hlt⟩ | ⟨_, hb, _, h1, hlt⟩ | ⟨_, hb, _, heq⟩ <;>
      simp [hb] <;> omega
  · intro hdone
    rw [hoff, hon]
    unfold Buzzer.pausesDone
    have hdone' : ((b.startBeepPattern n on_ms off_ms t0).updates times).pattern_active_
        = false := hdone
    rcases hph with ⟨ha, _⟩ | ⟨ha, _⟩ | ⟨_, hb, hs, heq⟩
    · rw [hdone'] at ha; exact absurd ha (by decide)
    · rw [hdone'] at ha; exact absurd ha (by decide)
    · simp [hb, hs, heq]
  · intro t hplay hdone
    have hplay' : ((b.startBeepPattern n on_ms off_ms t0).updates times).pattern_active_
        = true := hplay
    have hdone' : (((b.startBeepPattern n on_ms off_ms t0).updates times).update
        t).pattern_active_ = false := hdone
    obtain ⟨⟨_, hph'⟩, hcur, _⟩ := Buzzer.update_inPattern n hn _ t ⟨hc, hph⟩
    have hn' : (((b.startBeepPattern n on_ms off_ms t0).updates times).update
        t).pattern_current_ = n ∧ (((b.startBeepPattern n on_ms off_ms t0).updates
        times).update t).state_ = false := by
      rcases hph' with ⟨ha, _⟩ | ⟨ha, _⟩ | ⟨_, _, hs, heq⟩
      · rw [hdone'] at ha; exact absurd ha (by decide)
      · rw [hdone'] at ha; exact absurd ha (by decide)
      · exact ⟨heq, hs⟩
    have hlt : ((b.startBeepPattern n on_ms off_ms t0).updates times).pattern_current_ < n := by
      rcases hph with ⟨_, _, _, hlt⟩ | ⟨_, _, _, _, hlt⟩ | ⟨ha, _⟩
      · exact hlt
      · exact hlt
      · rw [hplay'] at ha; exact absurd ha (by decide)
    rw [hn'.1] at hcur
    rw [hoff]
    cases hs : ((b.startBeepPattern n on_ms off_ms t0).updates times).state_ with
    | false => simp [hs] at hcur; omega
    | true =>
      refine ⟨?_, rfl, hn'.2⟩
      simp [hs, hn'.2] at hcur
      omega

/-- C21 (amended). For every buzzer state and every `startBeepPattern(n, on, off)`
call with `1 ≤ n ≤ 255`, followed by any sequence of `update()` calls: the pattern
starts with the output on and playing; the updates end at most `n` on-phases and at
most `n - 1` off-phases, in alternation; once `isPlaying()` is false (every phase
boundary has been observed), exactly `n` on-phases and `n - 1` off-phases have ended
and the output is off; the update in which `isPlaying()` becomes false is the one
that turns the output off at the end of the `n`-th on-phase; and with an update every
`gap` ms, the gap being at least the on-time and the off-time, `isPlaying()` becomes
false in the update number `2 n - 1`. -/
theorem C21_pattern_phases (b : Buzzer) (n on_ms off_ms t0 : Nat) (times : List Nat)
    (hn1 : 1 ≤ n) (hn : n ≤ 255) :
    (b.startBeepPattern n on_ms off_ms t0).state_ = true ∧
    (b.startBeepPattern n on_ms off_ms t0).isPlaying = true ∧
    ((b.startBeepPattern n on_ms off_ms t0).switchedOff times ≤ n ∧
      (b.startBeepPattern n on_ms off_ms t0).switchedOn times ≤ n - 1 ∧
      (b.startBeepPattern n on_ms off_ms t0).switchedOn times
        ≤ (b.startBeepPattern n on_ms off_ms t0).switchedOff times ∧
      (b.startBeepPattern n on_ms off_ms t0).switchedOff times
        ≤ (b.startBeepPattern n on_ms off_ms t0).switchedOn times + 1) ∧
    (((b.startBeepPattern n on_ms off_ms t0).updates times).isPlaying = false →
      (b.startBeepPattern n on_ms off_ms t0).switchedOff times = n ∧
      (b.startBeepPattern n on_ms off_ms t0).switchedOn times = n - 1 ∧
      ((b.startBeepPattern n on_ms off_ms t0).updates times).state_ = false) ∧
    (∀ t, ((b.startBeepPattern n on_ms off_ms t0).updates times).isPlaying = true →
      (((b.startBeepPattern n on_ms off_ms t0).updates times).update t).isPlaying = false →
      (b.startBeepPattern n on_ms off_ms t0).switchedOff times = n - 1 ∧
      ((b.startBeepPattern n on_ms off_ms t0).updates times).state_ = true ∧
      (((b.startBeepPattern n on_ms off_ms t0).updates times).update t).state_ = false) ∧
    (∀ gap m, on_ms ≤ gap → off_ms ≤ gap → gap < 4294967296 →
      ((b.startBeepPattern n on_ms off_ms t0).updates (everyGap gap t0 m)).isPlaying
        = decide (m < 2 * n - 1)) := by
  obtain ⟨h1, h2, h3, h4, h5⟩ := Buzzer.pattern_phases b n on_ms off_ms t0 times hn1 hn
  exact ⟨h1, h2, h3, h4, h5, fun gap m hon hoff hg =>
    Buzzer.playing_everyGap b n on_ms off_ms t0 gap m hn1 hn hon hoff hg⟩

/-- Witness for C21 (amended): three 100 ms beeps with 50 ms pauses, updated at each
phase boundary; the fifth update ends the pattern. -/
theorem C21_pattern_phases_witness :
    ((((Buzzer.new BUZZER_PIN).startBeepPattern 3 100 50 1000).updates
        [1100, 1150, 1250, 1300]).isPlaying = true ∧
      (((Buzzer.new BUZZER_PIN).startBeepPattern 3 100 50 1000).updates
        [1100, 1150, 1250, 1300, 1400]).isPlaying = false) ∧
    ((Buzzer.new BUZZER_PIN).startBeepPattern 3 100 50 1000).state_ = true ∧
    ((Buzzer.new BUZZER_PIN).startBeepPattern 3 100 50 1000).isPlaying = true ∧
    (((Buzzer.new BUZZER_PIN).startBeepPattern 3 100 50 1000).switchedOff
        [1100, 1150, 1250, 1300, 1400] ≤ 3 ∧
      ((Buzzer.new BUZZER_PIN).startBeepPattern 3 100 50 1000).switchedOn
        [1100, 1150, 1250, 1300, 1400] ≤ 3 - 1 ∧
      ((Buzzer.new BUZZER_PIN).startBeepPattern 3 100 50 1000).switchedOn
          [1100, 1150, 1250, 1300, 1400]
        ≤ ((Buzzer.new BUZZER_PIN).startBeepPattern 3 100 50 1000).switchedOff
          [1100, 1150, 1250, 1300, 1400] ∧
      ((Buzzer.new BUZZER_PIN).startBeepPattern 3 100 50 1000).switchedOff
          [1100, 1150, 1250, 1300, 1400]
        ≤ ((Buzzer.new BUZZER_PIN).startBeepPattern 3 100 50 1000).switchedOn
          [1100, 1150, 1250, 1300, 1400] + 1) ∧
    ((((Buzzer.new BUZZER_PIN).startBeepPattern 3 100 50 1000).updates
        [1100, 1150, 1250, 1300, 1400]).isPlaying = false →
      ((Buzzer.new BUZZER_PIN).startBeepPattern 3 100 50 1000).switchedOff
        [1100, 1150, 1250, 1300, 1400] = 3 ∧
      ((Buzzer.new BUZZER_PIN).startBeepPattern 3 100 50 1000).switchedOn
        [1100, 1150, 1250, 1300, 1400] = 3 - 1 ∧
      (((Buzzer.new BUZZER_PIN).startBeepPattern 3 100 50 1000).updates
        [1100, 1150, 1250, 1300, 1400]).state_ = false) ∧
    (∀ t, (((Buzzer.new BUZZER_PIN).startBeepPattern 3 100 50 1000).updates
        [1100, 1150, 1250, 1300, 1400]).isPlaying = true →
      ((((Buzzer.new BUZZER_PIN).startBeepPattern 3 100 50 1000).updates
        [1100, 1150, 1250, 1300, 1400]).update t).isPlaying = false →
      ((Buzzer.new BUZZER_PIN).startBeepPattern 3 100 50 1000).switchedOff
        [1100, 1150, 1250, 1300, 1400] = 3 - 1 ∧
      (((Buzzer.new BUZZER_PIN).startBeepPattern 3 100 50 1000).updates
        [1100, 1150, 1250, 1300, 1400]).state_ = true ∧
      ((((Buzzer.new BUZZER_PIN).startBeepPattern 3 100 50 1000).updates
        [1100, 1150, 1250, 1300, 1400]).update t).state_ = false) ∧
    (∀ gap m, 100 ≤ gap → 50 ≤ gap → gap < 4294967296 →
      (((Buzzer.new BUZZER_PIN).startBeepPattern 3 100 50 1000).updates
          (everyGap gap 1000 m)).isPlaying
        = decide (m < 2 * 3 - 1)) :=
  ⟨by decide,
    C21_pattern_phases (Buzzer.new BUZZER_PIN) 3 100 50 1000 [1100, 1150, 1250, 1300, 1400]
      (by decide) (by decide)⟩

/-- An update deactivates a playing pattern only at the end of an on-phase that
completes the beep count. -/
theorem Buzzer.deactivating_update (b : Buzzer) (t : Nat) (hplay : b.isPlaying = true)
    (hdone : (b.update t).isPlaying = false) :
    b.pattern_beep_state_ = true ∧ b.beep_duration_ ≤ sub32 t b.pattern_start_time_ ∧
    b.pattern_count_ ≤ (b.pattern_current_ + 1) % 256 := by
  have ha : b.pattern_active_ = true := hplay
  unfold Buzzer.isPlaying at hdone
  simp only [Buzzer.update, Buzzer.updatePattern, ha, Bool.not_true, Bool.false_eq_true,
    if_false] at hdone
  split_ifs at hdone with h1 h2 h3 h4 <;> simp_all [Buzzer.switchOff, Buzzer.switchOn]

/-- C22. For every buzzer state with a pattern playing in an on-phase, and every
update that ends this on-phase (the on-duration has elapsed) when it is the last one
(the completed-beep counter reaches the beep count): the update turns the output off
and deactivates the pattern, no off-phase is started, and every sequence of later
updates, at any clock values, leaves the output off and the whole buzzer object
unchanged. -/
theorem C22_no_trailing_off_phase (b : Buzzer) (t : Nat) (later : List Nat)
    (hplay : b.isPlaying = true) (hon : b.pattern_beep_state_ = true)
    (hel : b.beep_duration_ ≤ sub32 t b.pattern_start_time_)
    (hlast : b.pattern_count_ ≤ (b.pattern_current_ + 1) % 256) :
    (b.update t).state_ = false ∧ (b.update t).isPlaying = false ∧
    (b.update t).updates later = b.update t ∧
    ((b.update t).updates later).state_ = false ∧
    ((b.update t).updates later).isPlaying = false := by
  have ha : b.pattern_active_ = true := hplay
  have h1 : (b.update t).state_ = false ∧ (b.update t).pattern_active_ = false := by
    simp [Buzzer.update, Buzzer.updatePattern, Buzzer.switchOff, ha, hon, hel, hlast]
  have h2 := Buzzer.updates_of_inactive later (b.update t) h1.2
  exact ⟨h1.1, h1.2, h2, by rw [h2]; exact h1.1, by rw [h2]; exact h1.2⟩

/-- Witness for C22: the pattern `threeBeeps` in its third on-phase, which the update
at 1400 ms ends. -/
theorem C22_no_trailing_off_phase_witness :
    ((threeBeeps.updates [1100, 1150, 1250, 1300]).update 1400).state_ = false ∧
    ((threeBeeps.updates [1100, 1150, 1250, 1300]).update 1400).isPlaying = false ∧
    ((threeBeeps.updates [1100, 1150, 1250, 1300]).update 1400).updates [1450, 1500, 9000]
      = (threeBeeps.updates [1100, 1150, 1250, 1300]).update 1400 ∧
    (((threeBeeps.updates [1100, 1150, 1250, 1300]).update 1400).updates
      [1450, 1500, 9000]).state_ = false ∧
    (((threeBeeps.updates [1100, 1150, 1250, 1300]).update 1400).updates
      [1450, 1500, 9000]).isPlaying = false :=
  C22_no_trailing_off_phase (threeBeeps.updates [1100, 1150, 1250, 1300]) 1400
    [1450, 1500, 9000] (by decide) (by decide) (by decide) (by decide)

/-! ## Keypad polls -/

/-- C30 (counterexample). Key `5` held down continuously and polled every 10 ms for
100 ms on a fresh keypad: the character is returned by two polls, the first and the
one 60 ms later. -/
theorem C30_held_key_is_returned_again :
    (∀ p ∈ held5, Keypad4x4.scan p.1 = some (1, 1)) ∧
    Keypad4x4.keyAt 1 1 = '5' ∧
    (Keypad4x4.new.getKeys held5).1
      = ['5', NUL, NUL, NUL, NUL, NUL, '5', NUL, NUL, NUL, NUL] ∧
    (Keypad4x4.new.getKeys held5).1.count '5' = 2 := by
  decide

theorem Keypad4x4.scanRow_lt (down : Nat → Nat → Bool) (row col : Nat)
    (h : Keypad4x4.scanRow down row = some col) : col < 4 := by
  unfold Keypad4x4.scanRow at h
  have := List.mem_of_find?_eq_some h
  simpa using this

theorem Keypad4x4.scan_lt (down : Nat → Nat → Bool) (row col : Nat)
    (h : Keypad4x4.scan down = some (row, col)) : row < 4 ∧ col < 4 := by
  unfold Keypad4x4.scan at h
  obtain ⟨r, hr, hsome⟩ := List.exists_of_findSome?_eq_some h
  cases hc : Keypad4x4.scanRow down r with
  | none => simp [hc] at hsome
  | some c =>
    simp only [hc, Option.map_some', Option.some.injEq, Prod.mk.injEq] at hsome
    obtain ⟨h1, h2⟩ := hsome
    subst h1; subst h2
    exact ⟨by simpa using hr, Keypad4x4.scanRow_lt down r c hc⟩

theorem Keypad4x4.keyAt_ne_NUL (row col : Nat) (hr : row < 4) (hc : col < 4) :
    Keypad4x4.keyAt row col ≠ NUL := by
  interval_cases row <;> interval_cases col <;> decide

/-- The poll of a keypad on which the key at `(row, col)` is the one scanned. -/
theorem Keypad4x4.getKey_of_scan (k : Keypad4x4) (down : Nat → Nat → Bool) (t : Nat)
    (row col : Nat) (h : Keypad4x4.scan down = some (row, col)) :
    k.getKey down t =
      if Keypad4x4.keyAt row col ≠ k.last_key_ ∨ 50 < sub32 t k.last_key_time_ then
        (Keypad4x4.keyAt row col,
          { k with polls := k.polls + 1, last_key_ := Keypad4x4.keyAt row col,
                   last_key_time_ := t })
      else (NUL, { k with polls := k.polls + 1 }) := by
  unfold Keypad4x4.getKey
  simp only [h, Keypad4x4.keyAt, Keypad4x4.DEBOUNCE_TIME_MS]
  by_cases hc : (Keypad4x4.KEYS.getD row []).getD col NUL ≠ k.last_key_ ∨
      50 < sub32 t k.last_key_time_
  · rw [if_pos hc, if_pos (by simpa using hc)]
  · rw [if_neg hc, if_neg (by simpa using hc)]

/-- While the scanned key is the one the keypad remembers and every poll comes within
50 ms of the time it remembers, every poll returns none. -/
theorem Keypad4x4.getKeys_within_window (row col t0 : Nat)
    (ps : List ((Nat → Nat → Bool) × Nat)) :
    ∀ k : Keypad4x4, k.last_key_ = Keypad4x4.keyAt row col → k.last_key_time_ = t0 →
      (∀ p ∈ ps, Keypad4x4.scan p.1 = some (row, col)) →
      (∀ p ∈ ps, sub32 p.2 t0 ≤ 50) →
      (k.getKeys ps).1 = List.replicate ps.length NUL := by
  induction ps with
  | nil => intro k _ _ _ _; rfl
  | cons p rest ih =>
    intro k hk ht hscan hwin
    have h1 := Keypad4x4.getKey_of_scan k p.1 p.2 row col (hscan p (List.mem_cons_self _ _))
    have hw := hwin p (List.mem_cons_self _ _)
    rw [if_neg (by rw [hk, ht]; simp; omega)] at h1
    unfold Keypad4x4.getKeys
    rw [h1]
    simp only [List.length_cons, List.replicate_succ, List.cons.injEq, true_and]
    exact ih _ hk ht (fun q hq => hscan q (List.mem_cons_of_mem _ hq))
      (fun q hq => hwin q (List.mem_cons_of_mem _ hq))

/-- Every poll during which the key at `(row, col)` is scanned returns that key's
character or none. -/
theorem Keypad4x4.getKeys_values (row col : Nat) (ps : List ((Nat → Nat → Bool) × Nat)) :
    ∀ k : Keypad4x4, (∀ p ∈ ps, Keypad4x4.scan p.1 = some (row, col)) →
      ∀ c ∈ (k.getKeys ps).1, c = Keypad4x4.keyAt row col ∨ c = NUL := by
  induction ps with
  | nil => intro k _ c hc; simp [Keypad4x4.getKeys] at hc
  | cons p rest ih =>
    intro k hscan c hc
    have h1 := Keypad4x4.getKey_of_scan k p.1 p.2 row col (hscan p (List.mem_cons_self _ _))
    unfold Keypad4x4.getKeys at hc
    rcases List.mem_cons.1 hc with h | h
    · rw [h, h1]; split_ifs <;> simp
    · exact ih _ (fun q hq => hscan q (List.mem_cons_of_mem _ hq)) c h

/-- The first poll of a key the keypad does not remember returns it; polls that all
come within 50 ms of that first poll return none. -/
theorem Keypad4x4.getKeys_first_only (k : Keypad4x4) (row col : Nat)
    (first : (Nat → Nat → Bool) × Nat) (rest : List ((Nat → Nat → Bool) × Nat))
    (hscan : ∀ p ∈ first :: rest, Keypad4x4.scan p.1 = some (row, col))
    (hfresh : k.last_key_ ≠ Keypad4x4.keyAt row col)
    (hwin : ∀ p ∈ rest, sub32 p.2 first.2 ≤ 50) :
    (k.getKeys (first :: rest)).1
      = Keypad4x4.keyAt row col :: List.replicate rest.length NUL := by
  have h1 := Keypad4x4.getKey_of_scan k first.1 first.2 row col
    (hscan first (List.mem_cons_self _ _))
  rw [if_pos (Or.inl (Ne.symm hfresh))] at h1
  unfold Keypad4x4.getKeys
  rw [h1]
  simp only [List.cons.injEq, true_and]
  exact Keypad4x4.getKeys_within_window row col first.2 rest _ rfl rfl
    (fun q hq => hscan q (List.mem_cons_of_mem _ hq)) hwin

/-- C30 (amended). For every keypad state that does not remember the key (for
instance after a poll that saw no key) and every sequence of `getKey()` polls during
which the same key is scanned: the first poll returns the key's character, which is
not none; every poll returns the key's character or none; a poll returns the
character again exactly when it comes more than 50 ms after the poll that last
returned it; and when all polls come within 50 ms of the first, the character is
returned by exactly one poll, the first, and every other poll returns none. -/
theorem C30_one_key_per_press_within_window (k : Keypad4x4) (row col : Nat)
    (first : (Nat → Nat → Bool) × Nat) (rest : List ((Nat → Nat → Bool) × Nat))
    (hscan : ∀ p ∈ first :: rest, Keypad4x4.scan p.1 = some (row, col))
    (hfresh : k.last_key_ ≠ Keypad4x4.keyAt row col) :
    Keypad4x4.keyAt row col ≠ NUL ∧
    (k.getKey first.1 first.2).1 = Keypad4x4.keyAt row col ∧
    (∀ c ∈ (k.getKeys (first :: rest)).1, c = Keypad4x4.keyAt row col ∨ c = NUL) ∧
    (∀ (held : Keypad4x4) (down : Nat → Nat → Bool) (t : Nat),
      held.last_key_ = Keypad4x4.keyAt row col → Keypad4x4.scan down = some (row, col) →
      ((held.getKey down t).1 = Keypad4x4.keyAt row col ↔ 50 < sub32 t held.last_key_time_)) ∧
    ((∀ p ∈ rest, sub32 p.2 first.2 ≤ 50) →
      (k.getKeys (first :: rest)).1
        = Keypad4x4.keyAt row col :: List.replicate rest.length NUL ∧
      (k.getKeys (first :: rest)).1.count (Keypad4x4.keyAt row col) = 1) := by
  have hlt := Keypad4x4.scan_lt first.1 row col (hscan first (List.mem_cons_self _ _))
  have hne := Keypad4x4.keyAt_ne_NUL row col hlt.1 hlt.2
  refine ⟨hne, ?_, Keypad4x4.getKeys_values row col _ k hscan, ?_, ?_⟩
  · rw [Keypad4x4.getKey_of_scan k first.1 first.2 row col
      (hscan first (List.mem_cons_self _ _)), if_pos (Or.inl (Ne.symm hfresh))]
  · intro held down t hheld hdown
    rw [Keypad4x4.getKey_of_scan held down t row col hdown]
    split_ifs with h
    · simp only [true_iff]
      rcases h with h | h
      · exact absurd hheld.symm h
      · exact h
    · simp only [not_or, not_lt] at h
      constructor
      · intro hc; exact absurd hc.symm hne
      · intro hc; omega
  · intro hwin
    have := Keypad4x4.getKeys_first_only k row col first rest hscan hfresh hwin
    refine ⟨this, ?_⟩
    rw [this, List.count_cons_self, List.count_replicate]
    simp [Ne.symm hne]

/-- Witness for C30 (amended): key `5` held for the first six polls of `held5`, all
within 50 ms of the first. -/
theorem C30_one_key_per_press_within_window_witness :
    Keypad4x4.keyAt 1 1 ≠ NUL ∧
    (Keypad4x4.new.getKey (fun row col => row == 1 && col == 1, 0).1
      (fun row col => row == 1 && col == 1, 0).2).1 = Keypad4x4.keyAt 1 1 ∧
    (∀ c ∈ (Keypad4x4.new.getKeys
        ((fun row col => row == 1 && col == 1, 0) :: (held5.take 6).tail)).1,
      c = Keypad4x4.keyAt 1 1 ∨ c = NUL) ∧
    (∀ (held : Keypad4x4) (down : Nat → Nat → Bool) (t : Nat),
      held.last_key_ = Keypad4x4.keyAt 1 1 → Keypad4x4.scan down = some (1, 1) →
      ((held.getKey down t).1 = Keypad4x4.keyAt 1 1 ↔ 50 < sub32 t held.last_key_time_)) ∧
    ((∀ p ∈ (held5.take 6).tail,
        sub32 p.2 (fun row col => row == 1 && col == 1, 0).2 ≤ 50) →
      (Keypad4x4.new.getKeys
          ((fun row col => row == 1 && col == 1, 0) :: (held5.take 6).tail)).1
        = Keypad4x4.keyAt 1 1 :: List.replicate (held5.take 6).tail.length NUL ∧
      (Keypad4x4.new.getKeys
          ((fun row col => row == 1 && col == 1, 0) :: (held5.take 6).tail)).1.count
        (Keypad4x4.keyAt 1 1) = 1) :=
  C30_one_key_per_press_within_window Keypad4x4.new 1 1
    (fun row col => row == 1 && col == 1, 0) (held5.take 6).tail (by decide) (by decide)

/-! ## The workflow steps -/

theorem pollKey_frame (env : Env) (r : Robot) :
    (pollKey env r).2.selectedPuzzlePiece = r.selectedPuzzlePiece ∧
    (pollKey env r).2.currentState = r.currentState ∧
    (pollKey env r).2.currentPosition = r.currentPosition ∧
    (pollKey env r).2.gripperClosed = r.gripperClosed :=
  ⟨rfl, rfl, rfl, rfl⟩

/-- The WAIT_INPUT step: one keypad poll, then the decision on the character. -/
theorem waitInput_step (env : Env) (fuel : Nat) (r : Robot)
    (h : r.currentState = .STATE_WAIT_INPUT) :
    updateStateMachine env fuel r =
      if '1' ≤ (pollKey env r).1 ∧ (pollKey env r).1 ≤ '9' then
        .done { (playConfirmBeep { (pollKey env r).2 with
                  selectedPuzzlePiece := ((pollKey env r).1.toNat : Int) - ('0'.toNat : Int) })
                with currentState := .STATE_MOVE_TO_PICKUP }
      else .done (pollKey env r).2 := by
  unfold updateStateMachine
  rw [h]

theorem not_digit_of_other :
    ∀ c ∈ [NUL, '0', '*', '#', 'A', 'B', 'C', 'D'], ¬ ('1' ≤ c ∧ c ≤ '9') := by
  decide

/-- C24. For every state in WAIT_INPUT and every character `c` returned by the
keypad poll of the step, the step finishes after that one poll; if `c` is one of the
digits `1` to `9` the selected target becomes `c - '0'` and the state becomes
MOVE_TO_PICKUP; for every other `c` (none, `0`, `*`, `#`, `A` to `D`) the state stays
WAIT_INPUT and the selected target is unchanged. -/
theorem C24_wait_input_step (env : Env) (fuel : Nat) (r : Robot)
    (h : r.currentState = .STATE_WAIT_INPUT) :
    ∃ r', updateStateMachine env fuel r = .done r' ∧
      r'.keypad = (r.keypad.getKey (env.key_down r.now) (to_ms_since_boot r)).2 ∧
      (∀ d : Nat, 1 ≤ d → d ≤ 9 → (pollKey env r).1 = Char.ofNat (48 + d) →
        r'.selectedPuzzlePiece = (d : Int) ∧ r'.currentState = .STATE_MOVE_TO_PICKUP) ∧
      (('1' ≤ (pollKey env r).1 ∧ (pollKey env r).1 ≤ '9') →
        r'.selectedPuzzlePiece = ((pollKey env r).1.toNat : Int) - 48 ∧
        r'.currentState = .STATE_MOVE_TO_PICKUP) ∧
      (¬ ('1' ≤ (pollKey env r).1 ∧ (pollKey env r).1 ≤ '9') →
        r'.currentState = .STATE_WAIT_INPUT ∧
        r'.selectedPuzzlePiece = r.selectedPuzzlePiece) ∧
      (∀ c ∈ [NUL, '0', '*', '#', 'A', 'B', 'C', 'D'], (pollKey env r).1 = c →
        r'.currentState = .STATE_WAIT_INPUT ∧
        r'.selectedPuzzlePiece = r.selectedPuzzlePiece) := by
  rw [waitInput_step env fuel r h]
  by_cases hc : '1' ≤ (pollKey env r).1 ∧ (pollKey env r).1 ≤ '9'
  · rw [if_pos hc]
    refine ⟨_, rfl, rfl, ?_, fun _ => ⟨rfl, rfl⟩, fun hn => absurd hc hn, ?_⟩
    · intro d hd1 hd9 hch
      refine ⟨?_, rfl⟩
      show ((pollKey env r).1.toNat : Int) - ('0'.toNat : Int) = (d : Int)
      rw [hch]
      interval_cases d <;> decide
    · intro c hmem hch
      exfalso
      rw [hch] at hc
      exact not_digit_of_other c hmem hc
  · rw [if_neg hc]
    refine ⟨_, rfl, rfl, ?_, fun hp => absurd hp hc, fun _ => ⟨h, rfl⟩, fun _ _ _ => ⟨h, rfl⟩⟩
    intro d hd1 hd9 hch
    exfalso
    apply hc
    rw [hch]
    interval_cases d <;> decide

/-- Witness for C24: the pass at 3200 ms of the run `envPickOne`, in which key `1` is
down. -/
theorem C24_wait_input_step_witness :
    (pollKey envPickOne (afterTicks envPickOne 4)).1 = '1' ∧
    ∃ r', updateStateMachine envPickOne 10 (afterTicks envPickOne 4) = .done r' ∧
      r'.keypad = ((afterTicks envPickOne 4).keypad.getKey
        (envPickOne.key_down (afterTicks envPickOne 4).now)
        (to_ms_since_boot (afterTicks envPickOne 4))).2 ∧
      (∀ d : Nat, 1 ≤ d → d ≤ 9 →
        (pollKey envPickOne (afterTicks envPickOne 4)).1 = Char.ofNat (48 + d) →
        r'.selectedPuzzlePiece = (d : Int) ∧ r'.currentState = .STATE_MOVE_TO_PICKUP) ∧
      (('1' ≤ (pollKey envPickOne (afterTicks envPickOne 4)).1 ∧
          (pollKey envPickOne (afterTicks envPickOne 4)).1 ≤ '9') →
        r'.selectedPuzzlePiece
          = ((pollKey envPickOne (afterTicks envPickOne 4)).1.toNat : Int) - 48 ∧
        r'.currentState = .STATE_MOVE_TO_PICKUP) ∧
      (¬ ('1' ≤ (pollKey envPickOne (afterTicks envPickOne 4)).1 ∧
          (pollKey envPickOne (afterTicks envPickOne 4)).1 ≤ '9') →
        r'.currentState = .STATE_WAIT_INPUT ∧
        r'.selectedPuzzlePiece = (afterTicks envPickOne 4).selectedPuzzlePiece) ∧
      (∀ c ∈ [NUL, '0', '*', '#', 'A', 'B', 'C', 'D'],
        (pollKey envPickOne (afterTicks envPickOne 4)).1 = c →
        r'.currentState = .STATE_WAIT_INPUT ∧
        r'.selectedPuzzlePiece = (afterTicks envPickOne 4).selectedPuzzlePiece) :=
  ⟨by decide!, C24_wait_input_step envPickOne 10 (afterTicks envPickOne 4) (by decide!)⟩

/-! ## The key wait -/

theorem pollKey_of_none (env : Env) (r : Robot)
    (h : Keypad4x4.scan (env.key_down r.now) = none) :
    (pollKey env r).1 = NUL ∧ (pollKey env r).2.keypad.last_key_ = NUL ∧
    (pollKey env r).2.now = r.now := by
  refine ⟨?_, ?_, ?_⟩ <;> simp [pollKey, Keypad4x4.getKey, h]

theorem pollKey_of_fresh (env : Env) (r : Robot) (row col : Nat)
    (h : Keypad4x4.scan (env.key_down r.now) = some (row, col))
    (hk : r.keypad.last_key_ = NUL) :
    (pollKey env r).1 = Keypad4x4.keyAt row col ∧ (pollKey env r).2.now = r.now := by
  have hlt := Keypad4x4.scan_lt _ row col h
  have hne := Keypad4x4.keyAt_ne_NUL row col hlt.1 hlt.2
  unfold pollKey
  rw [Keypad4x4.getKey_of_scan r.keypad _ _ row col h, if_pos (Or.inl (by rw [hk]; exact hne))]
  exact ⟨rfl, rfl⟩

/-- The second loop of `waitForKey()` returns at the first poll that scans a key: with
no key scanned at the first `m` polls, 10 ms apart, and the key at `(row, col)`
scanned at the next one, it returns that key's character 10 ms after that poll. -/
theorem waitAnyKey_returns (env : Env) (row col : Nat) :
    ∀ (m fuel : Nat) (r : Robot), r.keypad.last_key_ = NUL →
      (∀ j < m, Keypad4x4.scan (env.key_down (r.now + 10 * j)) = none) →
      Keypad4x4.scan (env.key_down (r.now + 10 * m)) = some (row, col) →
      m + 1 ≤ fuel →
      ∃ r', waitAnyKey env fuel r = .done (Keypad4x4.keyAt row col, r') ∧
        r'.now = r.now + 10 * (m + 1) := by
  intro m
  induction m with
  | zero =>
    intro fuel r hk _ hkey hf
    obtain ⟨f, rfl⟩ : ∃ f, fuel = f + 1 := ⟨fuel - 1, by omega⟩
    have hp := pollKey_of_fresh env r row col (by simpa using hkey) hk
    have hlt := Keypad4x4.scan_lt _ row col hkey
    have hne := Keypad4x4.keyAt_ne_NUL row col hlt.1 hlt.2
    unfold waitAnyKey
    simp only [hp.1]
    rw [if_neg (by simpa using hne)]
    refine ⟨_, rfl, ?_⟩
    show (pollKey env r).2.now + 10 = _
    rw [hp.2]
  | succ m ih =>
    intro fuel r hk hnone hkey hf
    obtain ⟨f, rfl⟩ : ∃ f, fuel = f + 1 := ⟨fuel - 1, by omega⟩
    have hp := pollKey_of_none env r (by simpa using hnone 0 (by omega))
    have hnow : (sleep_ms 10 (pollKey env r).2).now = r.now + 10 := by
      show (pollKey env r).2.now + 10 = _
      rw [hp.2.2]
    unfold waitAnyKey
    simp only [hp.1]
    rw [if_pos (by simp)]
    obtain ⟨r', h1, h2⟩ := ih f (sleep_ms 10 (pollKey env r).2) hp.2.1
      (fun j hj => by
        rw [hnow, show r.now + 10 + 10 * j = r.now + 10 * (j + 1) by omega]
        exact hnone (j + 1) (by omega))
      (by
        rw [hnow, show r.now + 10 + 10 * m = r.now + 10 * (m + 1) by omega]
        exact hkey)
      (by omega)
    exact ⟨r', h1, by rw [h2, hnow]; omega⟩

/-- The call `waitForKey()` returns when the keys are released at its start and a key
goes down later: with no key scanned at its start nor at the polls 10 ms apart that
follow, and the key at `(row, col)` scanned at the poll `10 m` ms after the start, it
returns that key's character 10 ms after that poll. -/
theorem waitForKey_returns (env : Env) (row col m fuel : Nat) (r : Robot)
    (hm : 1 ≤ m)
    (hnone : ∀ j < m, Keypad4x4.scan (env.key_down (r.now + 10 * j)) = none)
    (hkey : Keypad4x4.scan (env.key_down (r.now + 10 * m)) = some (row, col))
    (hf : m + 1 ≤ fuel) :
    ∃ r', waitForKey env fuel r = .done (Keypad4x4.keyAt row col, r') ∧
      r'.now = r.now + 10 * (m + 1) := by
  obtain ⟨f, rfl⟩ : ∃ f, fuel = f + 1 := ⟨fuel - 1, by omega⟩
  have hp := pollKey_of_none env r (by simpa using hnone 0 (by omega))
  have h1 : waitNoKey env (f + 1) r = .done (pollKey env r).2 := by
    unfold waitNoKey
    simp only [hp.1]
    rw [if_neg (by simp)]
  obtain ⟨r', h2, h3⟩ := waitAnyKey_returns env row col m (f + 1) (pollKey env r).2 hp.2.1
    (fun j hj => by rw [hp.2.2]; exact hnone j hj) (by rw [hp.2.2]; exact hkey) hf
  unfold waitForKey
  rw [h1]
  exact ⟨r', h2, by rw [h3, hp.2.2]⟩

theorem showError_frame (r : Robot) :
    (showError r).selectedPuzzlePiece = r.selectedPuzzlePiece ∧
    (showError r).currentPosition = r.currentPosition ∧
    (showError r).gripperClosed = r.gripperClosed ∧
    (showError r).motor = r.motor ∧
    (showError r).currentState = .STATE_ERROR :=
  ⟨rfl, rfl, rfl, rfl, rfl⟩

theorem waitNoKey_frame (env : Env) :
    ∀ (fuel : Nat) (r r' : Robot), waitNoKey env fuel r = .done r' →
      r'.selectedPuzzlePiece = r.selectedPuzzlePiece ∧
      r'.currentPosition = r.currentPosition ∧
      r'.gripperClosed = r.gripperClosed ∧
      r'.motor = r.motor := by
  intro fuel
  induction fuel with
  | zero => intro r r' h; simp [waitNoKey] at h
  | succ n ih =>
    intro r r' h
    unfold waitNoKey at h
    simp only at h
    split at h
    · have := ih _ _ h
      exact ⟨this.1, this.2.1, this.2.2.1, this.2.2.2⟩
    · simp only [Run.done.injEq] at h
      subst h
      exact ⟨rfl, rfl, rfl, rfl⟩

theorem waitAnyKey_frame (env : Env) :
    ∀ (fuel : Nat) (r : Robot) (res : Char × Robot), waitAnyKey env fuel r = .done res →
      res.1 ≠ NUL ∧
      res.2.selectedPuzzlePiece = r.selectedPuzzlePiece ∧
      res.2.currentPosition = r.currentPosition ∧
      res.2.gripperClosed = r.gripperClosed ∧
      res.2.motor = r.motor := by
  intro fuel
  induction fuel with
  | zero => intro r res h; simp [waitAnyKey] at h
  | succ n ih =>
    intro r res h
    unfold waitAnyKey at h
    simp only at h
    split at h
    · have := ih _ _ h
      exact ⟨this.1, this.2.1, this.2.2.1, this.2.2.2.1, this.2.2.2.2⟩
    · rename_i hk
      simp only [Run.done.injEq] at h
      subst h
      exact ⟨by simpa using hk, rfl, rfl, rfl, rfl⟩

/-- When `waitForKey()` returns, it returns a key (not none) and has written neither
the selected target, the position, the gripper flag nor the motor. -/
theorem waitForKey_frame (env : Env) (fuel : Nat) (r : Robot) (res : Char × Robot)
    (h : waitForKey env fuel r = .done res) :
    res.1 ≠ NUL ∧
    res.2.selectedPuzzlePiece = r.selectedPuzzlePiece ∧
    res.2.currentPosition = r.currentPosition ∧
    res.2.gripperClosed = r.gripperClosed ∧
    res.2.motor = r.motor := by
  unfold waitForKey at h
  obtain ⟨r1, h1, h2⟩ := Run.bind_eq_done h
  have f1 := waitNoKey_frame env fuel r r1 h1
  have f2 := waitAnyKey_frame env fuel r1 res h2
  exact ⟨f2.1, f2.2.1.trans f1.1, f2.2.2.1.trans f1.2.1, f2.2.2.2.1.trans f1.2.2.1,
    f2.2.2.2.2.trans f1.2.2.2⟩

/-- The error beep of `showError` takes 750 ms. -/
theorem showError_now (r : Robot) : (showError r).now = r.now + 750 := by
  show r.now + 150 + 100 + 150 + 100 + 150 + 100 = r.now + 750
  omega

/-- The VERIFY_OBJECT step as a function of the distance reading. -/
theorem verifyObject_step (env : Env) (fuel : Nat) (r : Robot)
    (h : r.currentState = .STATE_VERIFY_OBJECT) :
    updateStateMachine env fuel r =
      if Ultrasonic.measureDistance (env.echo_pulse_us r.now) < 0 then
        .done { (showError r) with currentState := .STATE_IDLE }
      else if Ultrasonic.measureDistance (env.echo_pulse_us r.now)
          > OBJECT_DETECTION_THRESHOLD_CM then
        (waitForKey env fuel (showError r)).bind fun res =>
          .done { res.2 with currentState := .STATE_VERIFY_OBJECT }
      else .done { r with currentState := .STATE_PICKUP } := by
  unfold updateStateMachine
  rw [h]

/-- C25. For every state in VERIFY_OBJECT whose distance reading `d` is not
negative: if `d` exceeds the threshold of 8 cm, the step is the error beep followed by
`waitForKey()`, it returns exactly when that wait returns, a key was then pressed, and
it ends in VERIFY_OBJECT with the selected target unchanged; in particular, when no
key is scanned at the end of the 750 ms error beep nor at the polls 10 ms apart that
follow and a key is scanned at the poll `10 m` ms after it, the step returns 10 ms
after that poll; if `d` is at most 8 cm (boundary included) the step returns at once
and ends in PICKUP. -/
theorem C25_verify_object_step (env : Env) (fuel : Nat) (r : Robot)
    (h : r.currentState = .STATE_VERIFY_OBJECT)
    (hd : 0 ≤ Ultrasonic.measureDistance (env.echo_pulse_us r.now)) :
    (Ultrasonic.measureDistance (env.echo_pulse_us r.now) > 8 →
      updateStateMachine env fuel r =
        (waitForKey env fuel (showError r)).bind (fun res =>
          .done { res.2 with currentState := .STATE_VERIFY_OBJECT }) ∧
      (∀ res, waitForKey env fuel (showError r) = .done res →
        res.1 ≠ NUL ∧
        ∃ r', updateStateMachine env fuel r = .done r' ∧
          r'.currentState = .STATE_VERIFY_OBJECT ∧
          r'.selectedPuzzlePiece = r.selectedPuzzlePiece) ∧
      (∀ r', updateStateMachine env fuel r = .done r' →
        r'.currentState = .STATE_VERIFY_OBJECT ∧
        r'.selectedPuzzlePiece = r.selectedPuzzlePiece) ∧
      (∀ m row col, 1 ≤ m → m + 1 ≤ fuel →
        (∀ j < m, Keypad4x4.scan (env.key_down (r.now + 750 + 10 * j)) = none) →
        Keypad4x4.scan (env.key_down (r.now + 750 + 10 * m)) = some (row, col) →
        ∃ r', updateStateMachine env fuel r = .done r' ∧
          r'.currentState = .STATE_VERIFY_OBJECT ∧
          r'.selectedPuzzlePiece = r.selectedPuzzlePiece ∧
          r'.now = r.now + 750 + 10 * (m + 1))) ∧
    (Ultrasonic.measureDistance (env.echo_pulse_us r.now) ≤ 8 →
      ∃ r', updateStateMachine env fuel r = .done r' ∧
        r'.currentState = .STATE_PICKUP ∧
        r'.selectedPuzzlePiece = r.selectedPuzzlePiece) := by
  rw [verifyObject_step env fuel r h, if_neg (not_lt.2 hd)]
  constructor
  · intro hgt
    have hgt' : Ultrasonic.measureDistance (env.echo_pulse_us r.now)
        > OBJECT_DETECTION_THRESHOLD_CM := hgt
    rw [if_pos hgt']
    refine ⟨rfl, ?_, ?_, ?_⟩
    · intro res hres
      have hf := waitForKey_frame env fuel _ res hres
      refine ⟨hf.1, _, by rw [hres]; rfl, rfl, ?_⟩
      exact hf.2.1
    · intro r' hr'
      obtain ⟨res, hres, hdone⟩ := Run.bind_eq_done hr'
      have hf := waitForKey_frame env fuel _ res hres
      simp only [Run.done.injEq] at hdone
      subst hdone
      exact ⟨rfl, hf.2.1⟩
    · intro m row col hm hfuel hnone hkey
      have hnow := showError_now r
      obtain ⟨r', h1, h2⟩ := waitForKey_returns env row col m fuel (showError r) hm
        (fun j hj => by rw [hnow]; exact hnone j hj) (by rw [hnow]; exact hkey) hfuel
      have hf := waitForKey_frame env fuel _ _ h1
      rw [h1]
      exact ⟨_, rfl, rfl, hf.2.1, by rw [← hnow]; exact h2⟩
  · intro hle
    have hle' : ¬ Ultrasonic.measureDistance (env.echo_pulse_us r.now)
        > OBJECT_DETECTION_THRESHOLD_CM := not_lt.2 hle
    rw [if_neg hle']
    exact ⟨_, rfl, rfl, rfl⟩

/-- Witness for C25: the run `envNoObject` after six passes, in VERIFY_OBJECT with a
reading of 17.15 cm; the step returns when key `2` is pressed at 6000 ms. -/
theorem C25_verify_object_step_witness :
    (Ultrasonic.measureDistance (envNoObject.echo_pulse_us (afterTicks envNoObject 6).now)
        = 343 / 20 ∧
      (updateStateMachine envNoObject 200 (afterTicks envNoObject 6)).map
          (fun r => (r.currentState, r.selectedPuzzlePiece, r.now))
        = .done (.STATE_VERIFY_OBJECT, 1, 6010)) ∧
    ((Ultrasonic.measureDistance (envNoObject.echo_pulse_us (afterTicks envNoObject 6).now)
        > 8 →
      updateStateMachine envNoObject 200 (afterTicks envNoObject 6) =
        (waitForKey envNoObject 200 (showError (afterTicks envNoObject 6))).bind (fun res =>
          .done { res.2 with currentState := .STATE_VERIFY_OBJECT }) ∧
      (∀ res, waitForKey envNoObject 200 (showError (afterTicks envNoObject 6)) = .done res →
        res.1 ≠ NUL ∧
        ∃ r', updateStateMachine envNoObject 200 (afterTicks envNoObject 6) = .done r' ∧
          r'.currentState = .STATE_VERIFY_OBJECT ∧
          r'.selectedPuzzlePiece = (afterTicks envNoObject 6).selectedPuzzlePiece) ∧
      (∀ r', updateStateMachine envNoObject 200 (afterTicks envNoObject 6) = .done r' →
        r'.currentState = .STATE_VERIFY_OBJECT ∧
        r'.selectedPuzzlePiece = (afterTicks envNoObject 6).selectedPuzzlePiece) ∧
      (∀ m row col, 1 ≤ m → m + 1 ≤ 200 →
        (∀ j < m, Keypad4x4.scan
          (envNoObject.key_down ((afterTicks envNoObject 6).now + 750 + 10 * j)) = none) →
        Keypad4x4.scan
          (envNoObject.key_down ((afterTicks envNoObject 6).now + 750 + 10 * m))
            = some (row, col) →
        ∃ r', updateStateMachine envNoObject 200 (afterTicks envNoObject 6) = .done r' ∧
          r'.currentState = .STATE_VERIFY_OBJECT ∧
          r'.selectedPuzzlePiece = (afterTicks envNoObject 6).selectedPuzzlePiece ∧
          r'.now = (afterTicks envNoObject 6).now + 750 + 10 * (m + 1))) ∧
    (Ultrasonic.measureDistance (envNoObject.echo_pulse_us (afterTicks envNoObject 6).now)
        ≤ 8 →
      ∃ r', updateStateMachine envNoObject 200 (afterTicks envNoObject 6) = .done r' ∧
        r'.currentState = .STATE_PICKUP ∧
        r'.selectedPuzzlePiece = (afterTicks envNoObject 6).selectedPuzzlePiece)) :=
  ⟨by decide!,
    C25_verify_object_step envNoObject 200 (afterTicks envNoObject 6) (by decide!)
      (by decide!)⟩

/-- C26 (evaluation of the code at the failing input). In the run `envSensorFailure`
the workflow is in VERIFY_OBJECT after six passes and the ranging times out, so the
reading is -1.  The seventh pass plays the error beep and ends 760 ms later in IDLE,
not ERROR, although no key is pressed; the eighth pass goes on to WAIT_INPUT. -/
theorem C26_negative_reading_goes_to_idle :
    (afterTicks envSensorFailure 6).currentState = .STATE_VERIFY_OBJECT ∧
    (afterTicks envSensorFailure 6).now = 4320 ∧
    Ultrasonic.measureDistance
      (envSensorFailure.echo_pulse_us (afterTicks envSensorFailure 6).now) = -1 ∧
    (∀ t ∈ List.range 600, Keypad4x4.scan (envSensorFailure.key_down (4320 + 10 * t))
      = none) ∧
    (tick envSensorFailure 10 (afterTicks envSensorFailure 6)).map
        (fun r => (r.currentState, r.now)) = .done (.STATE_IDLE, 5080) ∧
    (afterTicks envSensorFailure 8).currentState = .STATE_WAIT_INPUT := by
  decide!

/-- Every VERIFY_OBJECT step with a negative reading ends in IDLE without waiting
for a key. -/
theorem verifyObject_negative (env : Env) (fuel : Nat) (r : Robot)
    (h : r.currentState = .STATE_VERIFY_OBJECT)
    (hd : Ultrasonic.measureDistance (env.echo_pulse_us r.now) < 0) :
    updateStateMachine env fuel r
      = .done { (showError r) with currentState := .STATE_IDLE } := by
  rw [verifyObject_step env fuel r h, if_pos hd]

/-! ## Homing -/

theorem homeLinearRail_eq (env : Env) (fuel : Nat) (r : Robot) :
    homeLinearRail env fuel r =
      (homingWait env fuel r).bind fun res =>
        if res.2 then .done res.1
        else .done (playConfirmBeep
          { res.1 with motor := res.1.motor.stop, currentPosition := HOME_POSITION }) :=
  rfl

/-- The HOMING step: `homeLinearRail()`, then the assignment of IDLE. -/
theorem homing_step (env : Env) (fuel : Nat) (r : Robot)
    (h : r.currentState = .STATE_HOMING) :
    updateStateMachine env fuel r =
      (homeLinearRail env fuel r).bind fun r1 =>
        .done { r1 with currentState := .STATE_IDLE } := by
  unfold updateStateMachine
  rw [h]

/-- Every HOMING step that returns ends in IDLE, whichever way the wait ended. -/
theorem homing_step_state (env : Env) (fuel : Nat) (r r' : Robot)
    (h : r.currentState = .STATE_HOMING) (hr : updateStateMachine env fuel r = .done r') :
    r'.currentState = .STATE_IDLE := by
  rw [homing_step env fuel r h] at hr
  obtain ⟨r1, _, h2⟩ := Run.bind_eq_done hr
  simp only [Run.done.injEq] at h2
  subst h2
  rfl

/-- What the wait loop of `homeLinearRail()` leaves behind: on the timeout exit the
motor is stopped, the state is ERROR and the position is unwritten; on the normal
exit the limit switch is debounced-pressed and the position is unwritten. -/
theorem homeWait_exit (env : Env) (start : Nat) :
    ∀ (fuel : Nat) (r : Robot) (res : Robot × Bool), homeWait env start fuel r = .done res →
      res.1.currentPosition = r.currentPosition ∧
      (res.2 = true → res.1.motor.Stopped ∧ res.1.currentState = .STATE_ERROR) ∧
      (res.2 = false → res.1.limitSwitch.isPressed = true) := by
  intro fuel
  induction fuel with
  | zero => intro r res h; simp [homeWait] at h
  | succ n ih =>
    intro r res h
    unfold homeWait at h
    split at h
    · rename_i hp
      simp only [Run.done.injEq] at h
      subst h
      exact ⟨rfl, fun hf => by simp at hf, fun _ => hp⟩
    · simp only at h
      split at h
      · simp only [Run.done.injEq] at h
        subst h
        exact ⟨rfl, fun _ => ⟨stop_Stopped _, rfl⟩, fun hf => by simp at hf⟩
      · have := ih _ _ h
        exact ⟨this.1.trans rfl, this.2.1, this.2.2⟩

/-- C27 (evaluation of the code at the failing input). In the run `envNoInput` the
limit switch never closes.  The first pass after power-up, at 2760 ms, runs the
HOMING step: its wait takes the timeout exit 10 010 ms after it started and
`homeLinearRail()` returns after the 750 ms error beep with the motor stopped, the
position unwritten and the state ERROR; the step then assigns IDLE, so the pass ends
with the state IDLE, not ERROR. -/
theorem C27_homing_timeout_goes_to_idle :
    (boot envNoInput).currentState = .STATE_HOMING ∧
    (boot envNoInput).now = 2760 ∧
    (homeLinearRail envNoInput 1001 (refresh envNoInput (boot envNoInput))).map
        (fun r => (r.currentState, r.motor.current_speed_, r.currentPosition, r.now))
      = .done (.STATE_ERROR, 0, 0, 13520) ∧
    (tick envNoInput 1001 (boot envNoInput)).map
        (fun r => (r.currentState, r.motor.current_speed_, r.currentPosition, r.now))
      = .done (.STATE_IDLE, 0, 0, 13530) := by
  decide!

/-- The HOMING step whose wait ends on the limit switch. -/
theorem homing_step_on_limit (env : Env) (fuel : Nat) (r : Robot)
    (h : r.currentState = .STATE_HOMING)
    (hexit : (homingWait env fuel r).map (fun res => res.2) = .done false) :
    ∃ r', updateStateMachine env fuel r = .done r' ∧
      r'.motor.Stopped ∧ r'.currentPosition = HOME_POSITION ∧
      r'.currentState = .STATE_IDLE ∧ r'.limitSwitch.isPressed = true := by
  rw [homing_step env fuel r h, homeLinearRail_eq]
  unfold Run.map at hexit
  obtain ⟨res, hres, hflag⟩ := Run.bind_eq_done hexit
  simp only [Run.done.injEq] at hflag
  have hx := homeWait_exit env _ fuel _ res hres
  rw [hres]
  simp only [Run.bind, hflag, Bool.false_eq_true, if_false]
  exact ⟨_, rfl, stop_Stopped _, rfl, rfl, hx.2.2 hflag⟩

/-- A wait that finds the limit switch debounced-pressed at its first test ends there. -/
theorem homingWait_of_pressed (env : Env) (fuel : Nat) (r : Robot)
    (hp : r.limitSwitch.isPressed = true) (hf : 1 ≤ fuel) :
    (homingWait env fuel r).map (fun res => res.2) = .done false := by
  obtain ⟨f, rfl⟩ : ∃ f, fuel = f + 1 := ⟨fuel - 1, by omega⟩
  unfold homingWait homeWait
  simp only
  rw [if_pos hp]
  rfl

/-- C28. For every state in HOMING, whatever its dead-reckoned position: when the
wait of the step ends on the limit switch (the switch is debounced-pressed at the
first test of the loop condition, on entry, or at a later one before the timeout exit
is taken), the step returns with the rail motor stopped, the position exactly 0
(`HOME_POSITION`) and the state IDLE. -/
theorem C28_homing_on_limit_resets_position (env : Env) (fuel : Nat) (r : Robot)
    (h : r.currentState = .STATE_HOMING)
    (hexit : (r.limitSwitch.isPressed = true ∧ 1 ≤ fuel) ∨
      (homingWait env fuel r).map (fun res => res.2) = .done false) :
    ∃ r', updateStateMachine env fuel r = .done r' ∧
      r'.motor.Stopped ∧ r'.currentPosition = 0 ∧ HOME_POSITION = 0 ∧
      r'.currentState = .STATE_IDLE := by
  have hexit' : (homingWait env fuel r).map (fun res => res.2) = .done false := by
    rcases hexit with ⟨hp, hf⟩ | hw
    · exact homingWait_of_pressed env fuel r hp hf
    · exact hw
  obtain ⟨r', h1, h2, h3, h4, _⟩ := homing_step_on_limit env fuel r h hexit'
  exact ⟨r', h1, h2, h3, rfl, h4⟩

/-- Witness for C28: the run `envPickOne` at the end of start-up, in HOMING with the
limit switch open; the switch closes at 3000 ms and the wait ends on it at 3060 ms,
the step 100 ms later. -/
theorem C28_homing_on_limit_resets_position_witness :
    ((boot envPickOne).limitSwitch.isPressed = false ∧ (boot envPickOne).now = 2760 ∧
      (homingWait envPickOne 100 (boot envPickOne)).map (fun res => (res.2, res.1.now))
        = .done (false, 3060) ∧
      (updateStateMachine envPickOne 100 (boot envPickOne)).map (fun x => x.now)
        = .done 3160) ∧
    ∃ r', updateStateMachine envPickOne 100 (boot envPickOne) = .done r' ∧
      r'.motor.Stopped ∧ r'.currentPosition = 0 ∧ HOME_POSITION = 0 ∧
      r'.currentState = .STATE_IDLE :=
  ⟨by decide!,
    C28_homing_on_limit_resets_position envPickOne 100 (boot envPickOne) (by decide!)
      (Or.inr (by decide!))⟩

/-! ## Waits that end -/

/-- The elapsed time read after a further `sleep_ms(c)`. -/
theorem sub32_after_sleep (now s c e : Nat) (he : sub32 (now % 4294967296) s = e)
    (hc : e + c < 4294967296) :
    sub32 ((now + c) % 4294967296) s = e + c := by
  unfold sub32 at *
  omega

theorem readButton_neverPressed (env : Env) (r : Robot) (b : PushButton)
    (h : NeverPressed env b) : readButton env r b = b := by
  obtain ⟨h1, h2, h3, h4, h5, h6⟩ := h
  cases b
  simp only at h1 h2 h3 h4 h5 h6
  subst h1 h2 h3 h4 h5
  simp [readButton, PushButton.readRaw, PushButton.update, h6]

theorem wasPressed_neverPressed (env : Env) (b : PushButton) (h : NeverPressed env b) :
    b.wasPressed = (false, b) := by
  simp [PushButton.wasPressed, h.2.2.2.2.1]

/-- The wait of a timed move ends by completion when the emergency stop is never
pressed: at most `n` sleeps of 10 ms after the elapsed time is within `10 n` of the
duration. -/
theorem moveWait_arrives (env : Env) :
    ∀ (n fuel : Nat) (r : Robot), NeverPressed env r.stopButton →
      r.motor.move_duration_ ≤
        sub32 (to_ms_since_boot r) r.motor.move_start_time_ + 10 * n →
      r.motor.move_duration_ + 10 ≤ 4294967296 →
      n + 1 ≤ fuel →
      ∃ r', moveWait env fuel r = .done (r', false) ∧
        r'.stopButton = r.stopButton ∧
        r'.currentPosition = r.currentPosition ∧
        r'.currentState = r.currentState ∧
        r'.gripperServo = r.gripperServo ∧
        r'.gripperClosed = r.gripperClosed ∧
        r'.selectedPuzzlePiece = r.selectedPuzzlePiece := by
  intro n
  induction n with
  | zero =>
    intro fuel r hq hd hw hf
    obtain ⟨f, rfl⟩ : ∃ f, fuel = f + 1 := ⟨fuel - 1, by omega⟩
    have hc : (r.motor.isMovementComplete (to_ms_since_boot r)).1 = true := by
      unfold MotorDriver.isMovementComplete
      by_cases ha : r.motor.timed_move_active_ = true
      · simp only [ha, Bool.not_true, Bool.false_eq_true, if_false]
        rw [if_pos (by omega)]
      · simp [ha]
    unfold moveWait
    simp only [hc, if_true]
    exact ⟨_, rfl, rfl, rfl, rfl, rfl, rfl, rfl⟩
  | succ n ih =>
    intro fuel r hq hd hw hf
    obtain ⟨f, rfl⟩ : ∃ f, fuel = f + 1 := ⟨fuel - 1, by omega⟩
    by_cases hc : (r.motor.isMovementComplete (to_ms_since_boot r)).1 = true
    · unfold moveWait
      simp only [hc, if_true]
      exact ⟨_, rfl, rfl, rfl, rfl, rfl, rfl, rfl⟩
    · have hact : r.motor.timed_move_active_ = true := by
        by_contra ha
        apply hc
        simp [MotorDriver.isMovementComplete, ha]
      have hlt : sub32 (to_ms_since_boot r) r.motor.move_start_time_
          < r.motor.move_duration_ := by
        by_contra hge
        apply hc
        unfold MotorDriver.isMovementComplete
        simp only [hact, Bool.not_true, Bool.false_eq_true, if_false]
        rw [if_pos (by omega)]
      have hm : r.motor.isMovementComplete (to_ms_since_boot r) = (false, r.motor) := by
        unfold MotorDriver.isMovementComplete
        simp only [hact, Bool.not_true, Bool.false_eq_true, if_false]
        rw [if_neg (by omega)]
      have hrb : readButton env { r with motor := r.motor } r.stopButton = r.stopButton :=
        readButton_neverPressed env _ _ hq
      have hwp := wasPressed_neverPressed env r.stopButton hq
      unfold moveWait
      simp only [hm, Bool.false_eq_true, if_false, updateButtons, hrb, hwp]
      have hnext := ih f
        (sleep_ms 10 { (updateButtons env r) with stopButton := r.stopButton }) hq
        (by
          show r.motor.move_duration_ ≤
            sub32 ((r.now + 10) % 4294967296) r.motor.move_start_time_ + 10 * n
          rw [sub32_after_sleep r.now r.motor.move_start_time_ 10 _ rfl
            (by unfold to_ms_since_boot at hlt; omega)]
          unfold to_ms_since_boot at hd
          omega)
        hw (by omega)
      obtain ⟨r', h1, h2, h3, h4, h5, h6, h7⟩ := hnext
      exact ⟨r', h1, h2, h3, h4, h5, h6, h7⟩

/-- A move of at most 500 mm takes at most 10 000 ms. -/
theorem move_time_ms_le (d : ℚ) (h : |d| ≤ 500) : move_time_ms d ≤ 10000 := by
  obtain ⟨f64_mono, f64_natCast⟩ := f64_facts
  unfold move_time_ms move_time MM_PER_SECOND
  have c1 : f64 10 = 10 := by
    have := f64_natCast 10 (by norm_num)
    exact_mod_cast this
  have c2 : f64 10000 = 10000 := by
    have := f64_natCast 10000 (by norm_num)
    exact_mod_cast this
  have h1 : f64 (|d| / 50) ≤ 10 := by
    have := f64_mono (show |d| / 50 ≤ 10 by linarith)
    rwa [c1] at this
  have h2 : f64 (f64 (|d| / 50) * 1000) ≤ ((10000 : ℤ) : ℚ) := by
    have := f64_mono (show f64 (|d| / 50) * 1000 ≤ 10000 by linarith)
    rw [c2] at this
    exact_mod_cast this
  have h3 : ⌊f64 (f64 (|d| / 50) * 1000)⌋ ≤ 10000 :=
    Int.floor_le_floor h2 |>.trans (le_of_eq (Int.floor_intCast _))
  have h4 : Int.toNat ⌊f64 (f64 (|d| / 50) * 1000)⌋ ≤ 10000 := by
    rw [Int.toNat_le]
    exact_mod_cast h3
  exact (Nat.mod_le _ _).trans h4

theorem sub32_clock_self (r : Robot) : sub32 (to_ms_since_boot r) (to_ms_since_boot r) = 0 :=
  sub32_self _

/-- With the emergency stop never pressed, `moveToPosition(target)` over at most
500 mm returns, not through the emergency-stop exit, with the position set to the
target. -/
theorem moveToPosition_arrives (env : Env) (fuel : Nat) (r : Robot) (target : ℚ)
    (hq : NeverPressed env r.stopButton) (hd : |target - r.currentPosition| ≤ 500)
    (hf : 1001 ≤ fuel) :
    ∃ res, moveToPosition env fuel r target = .done res ∧
      res.2 ≠ .emergencyStop ∧
      res.1.currentPosition = target ∧
      res.1.stopButton = r.stopButton ∧
      res.1.currentState = r.currentState ∧
      res.1.gripperServo = r.gripperServo ∧
      res.1.gripperClosed = r.gripperClosed ∧
      res.1.selectedPuzzlePiece = r.selectedPuzzlePiece := by
  unfold moveToPosition
  by_cases h0 : target - r.currentPosition = 0
  · simp only [h0, if_true]
    exact ⟨_, rfl, by simp, by linarith, rfl, rfl, rfl, rfl, rfl⟩
  · simp only [h0, if_false]
    have hm := move_time_ms_le _ hd
    have hmv := moveWait_arrives env 1000 fuel
      (Robot.mk r.now r.keypad
        (r.motor.moveFor MOTOR_SPEED
          (if target - r.currentPosition > 0 then Direction.FORWARD else Direction.REVERSE)
          (move_time_ms (target - r.currentPosition)) (to_ms_since_boot r))
        r.gripperServo r.buzzer r.stopButton r.homeButton r.manualFwdButton
        r.manualRevButton r.gripButton r.limitSwitch r.currentState r.currentPosition
        r.selectedPuzzlePiece r.gripperClosed r.state_start_time r.sound)
      hq
      (by
        show (move_time_ms (target - r.currentPosition)) % 4294967296 ≤ _
        have := Nat.mod_le (move_time_ms (target - r.currentPosition)) 4294967296
        omega)
      (by
        show (move_time_ms (target - r.currentPosition)) % 4294967296 + 10 ≤ _
        have := Nat.mod_le (move_time_ms (target - r.currentPosition)) 4294967296
        omega)
      (by omega)
    obtain ⟨r', h1, h2, h3, h4, h5, h6, h7⟩ := hmv
    rw [h1]
    exact ⟨_, rfl, by simp, rfl, h2, h4, h5, h6, h7⟩

/-! ### The gripper wait -/

/-- The wait for the gripper ends with the servo at rest at its target: at most `n`
further sleeps of 10 ms after the elapsed time is within `10 n` of the duration. -/
theorem servoWait_returns (c : ℚ) (t0 d : Nat) (hc : clampedAngle c = c)
    (hw : d + 10 ≤ 4294967296) :
    ∀ (n fuel : Nat) (r : Robot),
      r.gripperServo.is_moving_ = true → r.gripperServo.target_angle_ = c →
      r.gripperServo.move_start_time_ = t0 → r.gripperServo.move_duration_ = d →
      d ≤ sub32 (to_ms_since_boot r) t0 + 10 * n →
      n + 2 ≤ fuel →
      ∃ r', servoWait fuel r = .done r' ∧
        r'.gripperServo.is_moving_ = false ∧
        r'.gripperServo.current_angle_ = c ∧
        r'.stopButton = r.stopButton ∧
        r'.currentPosition = r.currentPosition ∧
        r'.currentState = r.currentState ∧
        r'.selectedPuzzlePiece = r.selectedPuzzlePiece := by
  intro n
  induction n with
  | zero =>
    intro fuel r hm htg hst hdu hd hf
    obtain ⟨f, rfl⟩ : ∃ f, fuel = f + 2 := ⟨fuel - 2, by omega⟩
    have hu := ServoController.update_complete r.gripperServo (to_ms_since_boot r) hm
      (by rw [hdu, hst]; omega)
    unfold servoWait
    simp only [ServoController.isMoving, hm, if_true]
    unfold servoWait
    have hnm : (sleep_ms 10 (updateServos r)).gripperServo.is_moving_ = false := hu.2.2.1
    simp only [ServoController.isMoving, hnm, Bool.false_eq_true, if_false]
    refine ⟨_, rfl, hnm, ?_, rfl, rfl, rfl, rfl⟩
    show (r.gripperServo.update (to_ms_since_boot r)).current_angle_ = c
    rw [hu.1, htg, hc]
  | succ n ih =>
    intro fuel r hm htg hst hdu hd hf
    obtain ⟨f, rfl⟩ : ∃ f, fuel = f + 2 := ⟨fuel - 2, by omega⟩
    by_cases he : d ≤ sub32 (to_ms_since_boot r) t0
    · have hu := ServoController.update_complete r.gripperServo (to_ms_since_boot r) hm
        (by rw [hdu, hst]; exact he)
      unfold servoWait
      simp only [ServoController.isMoving, hm, if_true]
      unfold servoWait
      have hnm : (sleep_ms 10 (updateServos r)).gripperServo.is_moving_ = false := hu.2.2.1
      simp only [ServoController.isMoving, hnm, Bool.false_eq_true, if_false]
      refine ⟨_, rfl, hnm, ?_, rfl, rfl, rfl, rfl⟩
      show (r.gripperServo.update (to_ms_since_boot r)).current_angle_ = c
      rw [hu.1, htg, hc]
    · have hu := ServoController.update_in_flight r.gripperServo (to_ms_since_boot r) hm
        (by rw [hdu, hst]; omega)
      unfold servoWait
      simp only [ServoController.isMoving, hm, if_true]
      obtain ⟨r', h1, h2, h3, h4, h5, h6, h7⟩ := ih (f + 1) (sleep_ms 10 (updateServos r))
        hu.2.2.2.1 (hu.2.1.trans htg) (hu.2.2.2.2.1.trans hst) (hu.2.2.2.2.2.1.trans hdu)
        (by
          show d ≤ sub32 ((r.now + 10) % 4294967296) t0 + 10 * n
          rw [sub32_after_sleep r.now t0 10 _ rfl
            (by unfold to_ms_since_boot at he; omega)]
          unfold to_ms_since_boot at hd
          omega)
        (by omega)
      exact ⟨r', h1, h2, h3, h4, h5, h6, h7⟩

/-! ## The workflow steps of a pick cycle -/

theorem digit_toNat (c : Char) (h : '1' ≤ c ∧ c ≤ '9') : 49 ≤ c.toNat ∧ c.toNat ≤ 57 := by
  obtain ⟨h1, h2⟩ := h
  have a : ('1' : Char).val ≤ c.val := h1
  have b : c.val ≤ ('9' : Char).val := h2
  rw [UInt32.le_def] at a b
  exact ⟨a, b⟩

theorem puzzle_position_range (i : Nat) (h : i < 9) :
    0 ≤ PUZZLE_POSITIONS.getD i 0 ∧ PUZZLE_POSITIONS.getD i 0 ≤ 500 := by
  interval_cases i <;> norm_num [PUZZLE_POSITIONS]

theorem clampedAngle_closed : clampedAngle GRIPPER_CLOSED_ANGLE = GRIPPER_CLOSED_ANGLE := by
  norm_num [clampedAngle, GRIPPER_CLOSED_ANGLE]

theorem clampedAngle_open : clampedAngle GRIPPER_OPEN_ANGLE = GRIPPER_OPEN_ANGLE := by
  norm_num [clampedAngle, GRIPPER_OPEN_ANGLE]

/-- The INIT step. -/
theorem init_step (env : Env) (fuel : Nat) (r : Robot) (h : r.currentState = .STATE_INIT) :
    updateStateMachine env fuel r =
      .done { r with state_start_time := to_ms_since_boot r,
                     currentState := .STATE_HOMING } := by
  unfold updateStateMachine
  rw [h]

/-- The IDLE step. -/
theorem idle_step (env : Env) (fuel : Nat) (r : Robot) (h : r.currentState = .STATE_IDLE) :
    updateStateMachine env fuel r = .done { r with currentState := .STATE_WAIT_INPUT } := by
  unfold updateStateMachine
  rw [h]

/-- The wait loop of `homeLinearRail()` does not touch the emergency-stop button. -/
theorem homeWait_stopButton (env : Env) (start : Nat) :
    ∀ (fuel : Nat) (r : Robot) (res : Robot × Bool), homeWait env start fuel r = .done res →
      res.1.stopButton = r.stopButton := by
  intro fuel
  induction fuel with
  | zero => intro r res h; simp [homeWait] at h
  | succ n ih =>
    intro r res h
    unfold homeWait at h
    split at h
    · simp only [Run.done.injEq] at h
      subst h
      rfl
    · simp only at h
      split at h
      · simp only [Run.done.injEq] at h
        subst h
        rfl
      · exact (ih _ _ h).trans rfl

/-- The HOMING step whose wait ends on the limit switch: IDLE at position 0, the
emergency-stop button untouched. -/
theorem homing_step_frame (env : Env) (fuel : Nat) (r : Robot)
    (h : r.currentState = .STATE_HOMING)
    (hexit : (homingWait env fuel r).map (fun res => res.2) = .done false) :
    ∃ r', updateStateMachine env fuel r = .done r' ∧
      r'.currentState = .STATE_IDLE ∧ r'.currentPosition = 0 ∧
      r'.stopButton = r.stopButton := by
  rw [homing_step env fuel r h, homeLinearRail_eq]
  unfold Run.map at hexit
  obtain ⟨res, hres, hflag⟩ := Run.bind_eq_done hexit
  simp only [Run.done.injEq] at hflag
  have hs := homeWait_stopButton env _ fuel _ res hres
  rw [hres]
  simp only [Run.bind, hflag, Bool.false_eq_true, if_false]
  exact ⟨_, rfl, rfl, rfl, hs⟩

/-- The WAIT_INPUT step that polls a digit `1` to `9`. -/
theorem waitInput_digit (env : Env) (fuel : Nat) (r : Robot)
    (h : r.currentState = .STATE_WAIT_INPUT)
    (hkey : '1' ≤ polledKey env r ∧ polledKey env r ≤ '9') :
    ∃ r', updateStateMachine env fuel r = .done r' ∧
      r'.currentState = .STATE_MOVE_TO_PICKUP ∧
      r'.selectedPuzzlePiece = ((polledKey env r).toNat : Int) - 48 ∧
      r'.currentPosition = r.currentPosition ∧
      r'.stopButton = r.stopButton := by
  have hkey' : '1' ≤ (pollKey env r).1 ∧ (pollKey env r).1 ≤ '9' := hkey
  rw [waitInput_step env fuel r h, if_pos hkey']
  exact ⟨_, rfl, rfl, rfl, rfl, rfl⟩

/-- The MOVE_TO_PICKUP step from position 0 with a selected target 1 to 9 and the
emergency stop never pressed: the rail arrives at the place of the target. -/
theorem moveToPickup_step (env : Env) (fuel : Nat) (r : Robot) (k : Nat)
    (h : r.currentState = .STATE_MOVE_TO_PICKUP)
    (hsel : r.selectedPuzzlePiece = (k : Int)) (hk1 : 1 ≤ k) (hk9 : k ≤ 9)
    (hpos : r.currentPosition = 0)
    (hq : NeverPressed env r.stopButton) (hf : 1001 ≤ fuel) :
    ∃ r', updateStateMachine env fuel r = .done r' ∧
      r'.currentState = .STATE_VERIFY_OBJECT ∧
      r'.currentPosition = PUZZLE_POSITIONS.getD (k - 1) 0 ∧
      r'.selectedPuzzlePiece = (k : Int) ∧
      r'.stopButton = r.stopButton := by
  unfold updateStateMachine
  rw [h]
  simp only
  have hi : (r.selectedPuzzlePiece - 1).toNat = k - 1 := by rw [hsel]; omega
  rw [if_pos (by rw [hsel]; omega), hi]
  have hr := puzzle_position_range (k - 1) (by omega)
  obtain ⟨res, h1, _, h3, h4, _, _, _, h8⟩ := moveToPosition_arrives env fuel r
    (PUZZLE_POSITIONS.getD (k - 1) 0) hq
    (by rw [hpos, sub_zero, abs_of_nonneg hr.1]; exact hr.2) hf
  rw [h1]
  exact ⟨_, rfl, rfl, h3, h8.trans hsel, h4⟩

/-- The VERIFY_OBJECT step with a reading from 0 to 8 cm. -/
theorem verifyObject_within (env : Env) (fuel : Nat) (r : Robot)
    (h : r.currentState = .STATE_VERIFY_OBJECT)
    (hd : 0 ≤ reading env r ∧ reading env r ≤ 8) :
    updateStateMachine env fuel r = .done { r with currentState := .STATE_PICKUP } := by
  have h0 : ¬ Ultrasonic.measureDistance (env.echo_pulse_us r.now) < 0 := not_lt.2 hd.1
  have h8 : ¬ Ultrasonic.measureDistance (env.echo_pulse_us r.now)
      > OBJECT_DETECTION_THRESHOLD_CM := not_lt.2 hd.2
  rw [verifyObject_step env fuel r h, if_neg h0, if_neg h8]

/-- The PICKUP step: the gripper closes and the wait for it ends. -/
theorem pickup_step (env : Env) (fuel : Nat) (r : Robot)
    (h : r.currentState = .STATE_PICKUP) (hf : 52 ≤ fuel) :
    ∃ r', updateStateMachine env fuel r = .done r' ∧
      r'.currentState = .STATE_MOVE_TO_DROPOFF ∧
      r'.gripperClosed = true ∧
      r'.gripperServo.current_angle_ = GRIPPER_CLOSED_ANGLE ∧
      r'.gripperServo.is_moving_ = false ∧
      r'.currentPosition = r.currentPosition ∧
      r'.stopButton = r.stopButton := by
  unfold updateStateMachine
  rw [h]
  simp only
  unfold pickupPuzzlePiece
  simp only
  have hw := servoWait_returns GRIPPER_CLOSED_ANGLE
    (to_ms_since_boot (sleep_ms PICKUP_DELAY_MS r)) 500 clampedAngle_closed (by norm_num)
    50 fuel
    { sleep_ms PICKUP_DELAY_MS r with gripperServo :=
        ((sleep_ms PICKUP_DELAY_MS r).gripperServo.moveToAngle GRIPPER_CLOSED_ANGLE
          SERVO_MOVE_TIME_MS (to_ms_since_boot (sleep_ms PICKUP_DELAY_MS r))) }
    rfl
    ((ServoController.moveToAngle_fields _ _ _ _).2.1.trans clampedAngle_closed)
    rfl rfl
    (by
      show 500 ≤ sub32 (to_ms_since_boot (sleep_ms PICKUP_DELAY_MS r))
        (to_ms_since_boot (sleep_ms PICKUP_DELAY_MS r)) + 10 * 50
      omega)
    (by omega)
  obtain ⟨r', h1, h2, h3, h4, h5, _, _⟩ := hw
  rw [h1]
  exact ⟨_, rfl, rfl, rfl, h3, h2, h5, h4⟩

/-- The MOVE_TO_DROPOFF step from a position between 0 and 500 mm with the emergency
stop never pressed: the rail arrives at the drop-off position. -/
theorem moveToDropoff_step (env : Env) (fuel : Nat) (r : Robot)
    (h : r.currentState = .STATE_MOVE_TO_DROPOFF)
    (hpos : 0 ≤ r.currentPosition ∧ r.currentPosition ≤ 500)
    (hq : NeverPressed env r.stopButton) (hf : 1001 ≤ fuel) :
    ∃ r', updateStateMachine env fuel r = .done r' ∧
      r'.currentState = .STATE_RELEASE ∧
      r'.currentPosition = DROP_OFF_POSITION ∧
      r'.gripperClosed = r.gripperClosed ∧
      r'.gripperServo = r.gripperServo ∧
      r'.stopButton = r.stopButton := by
  unfold updateStateMachine
  rw [h]
  simp only
  obtain ⟨res, h1, _, h3, h4, _, h6, h7, _⟩ := moveToPosition_arrives env fuel r
    DROP_OFF_POSITION hq
    (by
      unfold DROP_OFF_POSITION
      rw [abs_le]
      constructor <;> linarith [hpos.1, hpos.2]) hf
  rw [h1]
  exact ⟨_, rfl, rfl, h3, h7, h6, h4⟩

/-- The RELEASE step: the gripper opens and the wait for it ends. -/
theorem release_step (env : Env) (fuel : Nat) (r : Robot)
    (h : r.currentState = .STATE_RELEASE) (hf : 52 ≤ fuel) :
    ∃ r', updateStateMachine env fuel r = .done r' ∧
      r'.currentState = .STATE_RETURN_HOME ∧
      r'.gripperClosed = false ∧
      r'.gripperServo.current_angle_ = GRIPPER_OPEN_ANGLE ∧
      r'.gripperServo.is_moving_ = false ∧
      r'.currentPosition = r.currentPosition ∧
      r'.stopButton = r.stopButton := by
  unfold updateStateMachine
  rw [h]
  simp only
  unfold releasePuzzlePiece
  simp only
  have hw := servoWait_returns GRIPPER_OPEN_ANGLE
    (to_ms_since_boot (sleep_ms RELEASE_DELAY_MS r)) 500 clampedAngle_open (by norm_num)
    50 fuel
    { sleep_ms RELEASE_DELAY_MS r with gripperServo :=
        ((sleep_ms RELEASE_DELAY_MS r).gripperServo.moveToAngle GRIPPER_OPEN_ANGLE
          SERVO_MOVE_TIME_MS (to_ms_since_boot (sleep_ms RELEASE_DELAY_MS r))) }
    rfl
    ((ServoController.moveToAngle_fields _ _ _ _).2.1.trans clampedAngle_open)
    rfl rfl
    (by
      show 500 ≤ sub32 (to_ms_since_boot (sleep_ms RELEASE_DELAY_MS r))
        (to_ms_since_boot (sleep_ms RELEASE_DELAY_MS r)) + 10 * 50
      omega)
    (by omega)
  obtain ⟨r', h1, h2, h3, h4, h5, _, _⟩ := hw
  rw [h1]
  exact ⟨_, rfl, rfl, rfl, h3, h2, h5, h4⟩

/-- The RETURN_HOME step from a position between 0 and 500 mm with the emergency
stop never pressed: the rail arrives at the home position; the gripper is untouched. -/
theorem returnHome_step (env : Env) (fuel : Nat) (r : Robot)
    (h : r.currentState = .STATE_RETURN_HOME)
    (hpos : 0 ≤ r.currentPosition ∧ r.currentPosition ≤ 500)
    (hq : NeverPressed env r.stopButton) (hf : 1001 ≤ fuel) :
    ∃ r', updateStateMachine env fuel r = .done r' ∧
      r'.currentState = .STATE_IDLE ∧
      r'.currentPosition = HOME_POSITION ∧
      r'.gripperClosed = r.gripperClosed ∧
      r'.gripperServo = r.gripperServo ∧
      r'.stopButton = r.stopButton := by
  unfold updateStateMachine
  rw [h]
  simp only
  obtain ⟨res, h1, _, h3, h4, _, h6, h7, _⟩ := moveToPosition_arrives env fuel r
    HOME_POSITION hq
    (by
      unfold HOME_POSITION
      rw [abs_le]
      constructor <;> linarith [hpos.1, hpos.2]) hf
  rw [h1]
  exact ⟨_, rfl, rfl, h3, h7, h6, h4⟩

/-! ## The pick cycle -/

theorem Run.map_eq_done {α β : Type} {x : Run α} {f : α → β} {a : α} {b : β}
    (hx : x = .done a) (h : x.map f = .done b) : f a = b := by
  subst hx
  simpa [Run.map, Run.bind] using h

theorem steps_add (env : Env) (fuel : Nat) (m n : Nat) :
    ∀ r : Robot, steps env fuel (m + n) r = (steps env fuel m r).bind (steps env fuel n) := by
  induction m with
  | zero => intro r; simp [steps, Run.bind]
  | succ m ih =>
    intro r
    rw [Nat.succ_add]
    show (updateStateMachine env fuel r).bind (fun r1 => steps env fuel (m + n) r1) = _
    cases hx : updateStateMachine env fuel r with
    | done a => simp only [steps, hx, Run.bind]; exact ih a
    | outOfFuel => simp [steps, hx, Run.bind]
    | undefinedBehaviour => simp [steps, hx, Run.bind]

theorem toNat_digit (k : Nat) (hk1 : 1 ≤ k) (hk9 : k ≤ 9) :
    ((Char.ofNat (48 + k)).toNat : Int) - 48 = (k : Int) ∧
    '1' ≤ Char.ofNat (48 + k) ∧ Char.ofNat (48 + k) ≤ '9' := by
  interval_cases k <;> decide

/-- A pick cycle, step by step: from WAIT_INPUT at position 0, with the emergency stop
never pressed, the digit `k` polled and the object seen within the threshold, each of
the next seven workflow steps returns; the rail goes to the place of `k`, to the
drop-off position and back to 0, the gripper closes and opens again. -/
theorem pick_cycle (env : Env) (fuel : Nat) (r : Robot) (k : Nat)
    (hf : 1001 ≤ fuel) (h : r.currentState = .STATE_WAIT_INPUT)
    (hpos : r.currentPosition = 0) (hq : NeverPressed env r.stopButton)
    (hk1 : 1 ≤ k) (hk9 : k ≤ 9) (hkey : polledKey env r = Char.ofNat (48 + k))
    (hread : ∀ r2, steps env fuel 2 r = .done r2 →
      0 ≤ reading env r2 ∧ reading env r2 ≤ 8) :
    ∃ r1 r2 r3 r4 r5 r6 r7,
      (updateStateMachine env fuel r = .done r1 ∧
        r1.currentState = .STATE_MOVE_TO_PICKUP ∧ r1.selectedPuzzlePiece = (k : Int)) ∧
      (updateStateMachine env fuel r1 = .done r2 ∧
        r2.currentState = .STATE_VERIFY_OBJECT ∧
        r2.currentPosition = PUZZLE_POSITIONS.getD (k - 1) 0) ∧
      (updateStateMachine env fuel r2 = .done r3 ∧ r3.currentState = .STATE_PICKUP) ∧
      (updateStateMachine env fuel r3 = .done r4 ∧
        r4.currentState = .STATE_MOVE_TO_DROPOFF ∧ r4.gripperClosed = true ∧
        r4.gripperServo.current_angle_ = GRIPPER_CLOSED_ANGLE) ∧
      (updateStateMachine env fuel r4 = .done r5 ∧
        r5.currentState = .STATE_RELEASE ∧ r5.currentPosition = DROP_OFF_POSITION ∧
        r5.gripperClosed = true) ∧
      (updateStateMachine env fuel r5 = .done r6 ∧
        r6.currentState = .STATE_RETURN_HOME) ∧
      (updateStateMachine env fuel r6 = .done r7 ∧
        r7.currentState = .STATE_IDLE ∧ r7.currentPosition = HOME_POSITION ∧
        r7.gripperClosed = false ∧ r7.gripperServo.current_angle_ = GRIPPER_OPEN_ANGLE ∧
        r7.gripperServo.is_moving_ = false ∧ r7.stopButton = r.stopButton) := by
  have hdig := toNat_digit k hk1 hk9
  obtain ⟨r1, a1, a2, a3, a4, a5⟩ := waitInput_digit env fuel r h (by rw [hkey]; exact hdig.2)
  rw [hkey, hdig.1] at a3
  obtain ⟨r2, b1, b2, b3, b4, b5⟩ := moveToPickup_step env fuel r1 k a2 a3 hk1 hk9
    (a4.trans hpos) (by rw [a5]; exact hq) hf
  have hr2 := hread r2 (by simp only [steps, a1, b1, Run.bind])
  have c1 := verifyObject_within env fuel r2 b2 hr2
  have hrange := puzzle_position_range (k - 1) (by omega)
  obtain ⟨r4, d1, d2, d3, d4, d5, d6, d7⟩ := pickup_step env fuel
    { r2 with currentState := .STATE_PICKUP } rfl (by omega)
  obtain ⟨r5, e1, e2, e3, e4, e5, e6⟩ := moveToDropoff_step env fuel r4 d2
    (by rw [d6]; show 0 ≤ r2.currentPosition ∧ r2.currentPosition ≤ 500
        rw [b3]; exact hrange)
    (by rw [d7]; show NeverPressed env r2.stopButton
        rw [b5, a5]; exact hq) hf
  obtain ⟨r6, f1, f2, f3, f4, f5, f6, f7⟩ := release_step env fuel r5 e2 (by omega)
  obtain ⟨r7, g1, g2, g3, g4, g5, g6⟩ := returnHome_step env fuel r6 f2
    (by rw [f6, e3]; norm_num [DROP_OFF_POSITION])
    (by rw [f7, e6, d7]; show NeverPressed env r2.stopButton
        rw [b5, a5]; exact hq) hf
  refine ⟨r1, r2, _, r4, r5, r6, r7, ⟨a1, a2, a3⟩, ⟨b1, b2, b3⟩, ⟨c1, rfl⟩, ⟨d1, d2, d3, d4⟩,
    ⟨e1, e2, e3, e4.trans d3⟩, ⟨f1, f2⟩, g1, g2, g3, g4.trans f3, ?_, ?_, ?_⟩
  · rw [g5]; exact f4
  · rw [g5]; exact f5
  · rw [g6, f7, e6, d7]
    show r2.stopButton = r.stopButton
    rw [b5, a5]

/-- C23. For every state in INIT, with the emergency stop never pressed, the wait of
the HOMING step ended by the limit switch (asserted before the timeout), a digit `1`
to `9` polled by the WAIT_INPUT step and a reading from 0 to 8 cm taken by the
VERIFY_OBJECT step: each of ten successive workflow steps returns (1001 units of loop
fuel suffice), and the states visited are exactly INIT, HOMING, IDLE, WAIT_INPUT,
MOVE_TO_PICKUP, VERIFY_OBJECT, PICKUP, MOVE_TO_DROPOFF, RELEASE, RETURN_HOME, IDLE in
this order, one state per step. -/
theorem C23_workflow_order (env : Env) (fuel : Nat) (r : Robot) (c : Char) (d : ℚ)
    (hf : 1001 ≤ fuel) (h : r.currentState = .STATE_INIT)
    (hstop : NeverPressed env r.stopButton)
    (hlimit : (steps env fuel 1 r).bind
      (fun r1 => (homingWait env fuel r1).map (fun res => res.2)) = .done false)
    (hkey : (steps env fuel 3 r).map (polledKey env) = .done c)
    (hc1 : '1' ≤ c) (hc9 : c ≤ '9')
    (hread : (steps env fuel 5 r).map (reading env) = .done d)
    (hd0 : 0 ≤ d) (hd8 : d ≤ 8) :
    visited env fuel 10 r = .done
      [.STATE_INIT, .STATE_HOMING, .STATE_IDLE, .STATE_WAIT_INPUT, .STATE_MOVE_TO_PICKUP,
       .STATE_VERIFY_OBJECT, .STATE_PICKUP, .STATE_MOVE_TO_DROPOFF, .STATE_RELEASE,
       .STATE_RETURN_HOME, .STATE_IDLE] := by
  have s1 := init_step env fuel r h
  have hl : (homingWait env fuel
      { r with state_start_time := to_ms_since_boot r, currentState := .STATE_HOMING }).map
      (fun res => res.2) = .done false := by
    simpa only [steps, s1, Run.bind] using hlimit
  obtain ⟨r2, s2, t2, p2, q2⟩ := homing_step_frame env fuel _ rfl hl
  have s3 := idle_step env fuel r2 t2
  have h3 : steps env fuel 3 r = .done { r2 with currentState := .STATE_WAIT_INPUT } := by
    simp only [steps, s1, s2, s3, Run.bind]
  have hk := Run.map_eq_done h3 hkey
  have hn := digit_toNat c ⟨hc1, hc9⟩
  have hchar : c = Char.ofNat (48 + (c.toNat - 48)) := by
    rw [show 48 + (c.toNat - 48) = c.toNat by omega, Char.ofNat_toNat]
  obtain ⟨r4, r5, r6, r7, r8, r9, r10, ⟨a1, a2, _⟩, ⟨b1, b2, _⟩, ⟨c1, c2⟩, ⟨d1, d2, _⟩,
      ⟨e1, e2, _⟩, ⟨f1, f2⟩, g1, g2, _⟩ :=
    pick_cycle env fuel { r2 with currentState := .STATE_WAIT_INPUT } (c.toNat - 48) hf rfl
      p2 (by show NeverPressed env r2.stopButton; rw [q2]; exact hstop)
      (by omega) (by omega) (hk.trans hchar)
      (fun x hx => by
        have h5 : steps env fuel 5 r = .done x := by
          rw [show 5 = 3 + 2 from rfl, steps_add, h3]
          exact hx
        rw [Run.map_eq_done h5 hread]
        exact ⟨hd0, hd8⟩)
  simp only [visited, s1, s2, s3, a1, b1, c1, d1, e1, f1, g1, Run.bind, Run.map, h, t2, a2,
    b2, c2, d2, e2, f2, g2]

/-- C29. Round trip, for every target `k` from 1 to 9 and whatever the gripper state
at the start: from WAIT_INPUT at position 0, with the emergency stop never pressed,
the digit `k` polled and a reading from 0 to 8 cm taken by the VERIFY_OBJECT step,
each of the next seven workflow steps returns (1001 units of loop fuel suffice); the
selected target is `k`, the rail is at the place of `k` after the second step and at
the drop-off position with the gripper closed after the fifth, and the cycle ends in
IDLE with the dead-reckoned position 0, `gripperClosed` false and the servo at rest at
90 degrees. -/
theorem C29_round_trip (env : Env) (fuel : Nat) (r : Robot) (k : Nat) (d : ℚ)
    (hf : 1001 ≤ fuel) (h : r.currentState = .STATE_WAIT_INPUT)
    (hpos : r.currentPosition = 0) (hstop : NeverPressed env r.stopButton)
    (hk1 : 1 ≤ k) (hk9 : k ≤ 9) (hkey : polledKey env r = Char.ofNat (48 + k))
    (hread : (steps env fuel 2 r).map (reading env) = .done d)
    (hd0 : 0 ≤ d) (hd8 : d ≤ 8) :
    (steps env fuel 1 r).map (fun x => x.selectedPuzzlePiece) = .done (k : Int) ∧
    (steps env fuel 2 r).map (fun x => x.currentPosition)
      = .done (PUZZLE_POSITIONS.getD (k - 1) 0) ∧
    (steps env fuel 5 r).map (fun x => (x.currentPosition, x.gripperClosed))
      = .done (DROP_OFF_POSITION, true) ∧
    ∃ r', steps env fuel 7 r = .done r' ∧
      r'.currentState = .STATE_IDLE ∧ r'.currentPosition = 0 ∧
      r'.gripperClosed = false ∧ r'.gripperServo.getCurrentAngle = 90 ∧
      r'.gripperServo.isMoving = false := by
  obtain ⟨r1, r2, r3, r4, r5, r6, r7, ⟨a1, _, a3⟩, ⟨b1, _, b3⟩, ⟨c1, _⟩, ⟨d1, _, _, _⟩,
      ⟨e1, _, e3, e4⟩, ⟨f1, _⟩, g1, g2, g3, g4, g5, g6, _⟩ :=
    pick_cycle env fuel r k hf h hpos hstop hk1 hk9 hkey
      (fun x hx => by
        rw [Run.map_eq_done hx hread]
        exact ⟨hd0, hd8⟩)
  refine ⟨?_, ?_, ?_, r7, ?_, g2, g3, g4, g5, g6⟩
  · simp only [steps, a1, Run.bind, Run.map, a3]
  · simp only [steps, a1, b1, Run.bind, Run.map, b3]
  · simp only [steps, a1, b1, c1, d1, e1, Run.bind, Run.map, e3, e4]
  · simp only [steps, a1, b1, c1, d1, e1, f1, g1, Run.bind]

/-- Witness for C23: the run `envPickFive` from the end of start-up, put in INIT; the
limit switch closes at 3000 ms, key `5` is polled at 3160 ms and the reading, taken
at 8260 ms, is 3.43 cm. -/
theorem C23_workflow_order_witness :
    ((steps envPickFive 1001 3 initFive).map (fun x => (polledKey envPickFive x, x.now))
        = .done ('5', 3160) ∧
      (steps envPickFive 1001 5 initFive).map (fun x => (reading envPickFive x, x.now))
        = .done (343 / 100, 8260)) ∧
    visited envPickFive 1001 10 initFive = .done
      [.STATE_INIT, .STATE_HOMING, .STATE_IDLE, .STATE_WAIT_INPUT, .STATE_MOVE_TO_PICKUP,
       .STATE_VERIFY_OBJECT, .STATE_PICKUP, .STATE_MOVE_TO_DROPOFF, .STATE_RELEASE,
       .STATE_RETURN_HOME, .STATE_IDLE] :=
  ⟨by decide!,
    C23_workflow_order envPickFive 1001 initFive '5' (343 / 100) (by decide) (by decide!)
      ⟨by decide!, by decide!, by decide!, by decide!, by decide!, fun _ => rfl⟩
      (by decide!) (by decide!) (by decide) (by decide) (by decide!)
      (by norm_num) (by norm_num)⟩

/-- Witness for C29: the run `envPickOne` after four passes of the main loop, in
WAIT_INPUT at 3200 ms with key `1` down; the object is seen at 3.43 cm. -/
theorem C29_round_trip_witness :
    ((afterTicks envPickOne 4).now = 3200 ∧
      polledKey envPickOne (afterTicks envPickOne 4) = '1') ∧
    ((steps envPickOne 1001 1 (afterTicks envPickOne 4)).map
        (fun x => x.selectedPuzzlePiece) = .done ((1 : Nat) : Int) ∧
    (steps envPickOne 1001 2 (afterTicks envPickOne 4)).map (fun x => x.currentPosition)
      = .done (PUZZLE_POSITIONS.getD (1 - 1) 0) ∧
    (steps envPickOne 1001 5 (afterTicks envPickOne 4)).map
        (fun x => (x.currentPosition, x.gripperClosed))
      = .done (DROP_OFF_POSITION, true) ∧
    ∃ r', steps envPickOne 1001 7 (afterTicks envPickOne 4) = .done r' ∧
      r'.currentState = .STATE_IDLE ∧ r'.currentPosition = 0 ∧
      r'.gripperClosed = false ∧ r'.gripperServo.getCurrentAngle = 90 ∧
      r'.gripperServo.isMoving = false) :=
  ⟨by decide!,
    C29_round_trip envPickOne 1001 (afterTicks envPickOne 4) 1 (343 / 100) (by decide)
      (by decide!) (by decide!)
      ⟨by decide!, by decide!, by decide!, by decide!, by decide!, fun _ => rfl⟩
      (by decide) (by decide) (by decide!) (by decide!) (by norm_num) (by norm_num)⟩

/-! ## Ranging and motor speed -/

/-- C31. For every echo pulse duration `p` in microseconds, 0 meaning a timeout:
`measureDistance()` returns -1 if and only if `p = 0`, its result is negative if and
only if `p = 0`, and for `p` other than 0 it returns `p * 0.0343 / 2` centimetres,
which is not negative. -/
theorem C31_measureDistance_sentinel (p : Nat) :
    (Ultrasonic.measureDistance p = -1 ↔ p = 0) ∧
    (Ultrasonic.measureDistance p < 0 ↔ p = 0) ∧
    (p ≠ 0 → Ultrasonic.measureDistance p = (p : ℚ) * (343 / 10000) / 2 ∧
      0 ≤ Ultrasonic.measureDistance p) := by
  unfold Ultrasonic.measureDistance Ultrasonic.SOUND_SPEED_CM_PER_US
  by_cases h : p = 0
  · simp [h]
  · have hp : (0 : ℚ) < (p : ℚ) := by exact_mod_cast Nat.pos_of_ne_zero h
    have hpos : (0 : ℚ) ≤ (p : ℚ) * (343 / 10000 / 2) := by positivity
    rw [if_neg h]
    refine ⟨⟨fun hh => ?_, fun hh => absurd hh h⟩, ⟨fun hh => ?_, fun hh => absurd hh h⟩,
      fun _ => ⟨by ring, hpos⟩⟩
    · linarith
    · linarith

theorem MotorDriver.setSpeed_fields (m : MotorDriver) (s : Nat) (hs : s ≤ 255) :
    (m.setSpeed s).current_speed_ = min s 100 ∧
    (m.setSpeed s).pwm_level = min s 100 * 999 / 100 := by
  have hmod : s % 256 = s := Nat.mod_eq_of_lt (by omega)
  unfold MotorDriver.setSpeed MotorDriver.updatePWM MotorDriver.PWM_WRAP
  simp only [hmod]
  by_cases h : s > 100
  · rw [if_pos h, Nat.min_eq_right (by omega)]
    exact ⟨rfl, by norm_num⟩
  · rw [if_neg h, Nat.min_eq_left (by omega)]
    refine ⟨rfl, ?_⟩
    show s * 999 / 100 % 65536 = s * 999 / 100
    omega

/-- C33. For every motor state and every 8-bit speed `s`: `setSpeed(s)` stores
`min(s, 100)` as the current speed and sets the PWM level to
`floor(min(s, 100) * 999 / 100)`, which is at most the wrap value 999; the level is 0
for speed 0 and 999 for every `s` from 100 up. -/
theorem C33_setSpeed_clamps (m : MotorDriver) (s : Nat) (hs : s ≤ 255) :
    (m.setSpeed s).current_speed_ = min s 100 ∧
    (m.setSpeed s).pwm_level = min s 100 * 999 / 100 ∧
    (m.setSpeed s).pwm_level ≤ MotorDriver.PWM_WRAP ∧
    (s = 0 → (m.setSpeed s).pwm_level = 0) ∧
    (100 ≤ s → (m.setSpeed s).pwm_level = 999) := by
  obtain ⟨h1, h2⟩ := MotorDriver.setSpeed_fields m s hs
  refine ⟨h1, h2, ?_, ?_, ?_⟩
  · rw [h2]
    unfold MotorDriver.PWM_WRAP
    have : min s 100 ≤ 100 := Nat.min_le_right _ _
    omega
  · intro h0
    rw [h2, h0]
    rfl
  · intro h100
    rw [h2, Nat.min_eq_right h100]

/-- Witness for C33: speed 200 is stored as 100 with the PWM level 999. -/
theorem C33_setSpeed_clamps_witness :
    (MotorDriver.new.setSpeed 200).current_speed_ = min 200 100 ∧
    (MotorDriver.new.setSpeed 200).pwm_level = min 200 100 * 999 / 100 ∧
    (MotorDriver.new.setSpeed 200).pwm_level ≤ MotorDriver.PWM_WRAP ∧
    (200 = 0 → (MotorDriver.new.setSpeed 200).pwm_level = 0) ∧
    (100 ≤ 200 → (MotorDriver.new.setSpeed 200).pwm_level = 999) :=
  C33_setSpeed_clamps MotorDriver.new 200 (by decide)

/-! ## Servo range, wrap-around and abandoned moves -/

/-- With `update()` in `float` arithmetic, every sequence of public method calls
with `float` angles keeps the three stored angles `float` values in the range 0 to
180 degrees, and the constructor leaves them so. -/
theorem ServoController.InRange32_calls32 (pin min_pulse_us max_pulse_us : Nat)
    (ops : List ServoOp) (hargs : ∀ op ∈ ops, op.floatArg = true) :
    ((ServoController.new pin min_pulse_us max_pulse_us).calls32 ops).InRange32 := by
  obtain ⟨_, _, _, _, ⟨f32_zero, _, f32_90, f32_180⟩, f32_idem, _, _, _⟩ := f32_facts
  have clamp_float : ∀ a : ℚ, f32 a = a → f32 (clampedAngle a) = clampedAngle a := by
    intro a h
    unfold clampedAngle
    split_ifs
    · exact f32_zero
    · exact f32_180
    · exact h
  have h_new : (ServoController.new pin min_pulse_us max_pulse_us).InRange32 := by
    unfold ServoController.InRange32
    show ((0 ≤ (90 : ℚ) ∧ (90 : ℚ) ≤ 180) ∧ (0 ≤ (90 : ℚ) ∧ (90 : ℚ) ≤ 180) ∧
      (0 ≤ (90 : ℚ) ∧ (90 : ℚ) ≤ 180)) ∧ f32 90 = 90 ∧ f32 90 = 90 ∧ f32 90 = 90
    exact ⟨by norm_num, f32_90, f32_90, f32_90⟩
  have h_set : ∀ (s : ServoController) (a : ℚ), f32 a = a → s.InRange32 →
      (s.setAngle a).InRange32 := by
    intro s a ha h
    have hf := ServoController.setAngle_fields s a
    have hr := clampedAngle_range a
    have hc := clamp_float a ha
    unfold ServoController.InRange32
    rw [hf.1, hf.2.1, hf.2.2.2.1]
    exact ⟨⟨hr, hr, h.1.2.2⟩, hc, hc, h.2.2.2⟩
  have h_update : ∀ (s : ServoController) (t : Nat), s.InRange32 →
      (s.update32 t).InRange32 := by
    intro s t h
    cases hm : s.is_moving_ with
    | false => rw [ServoController.update32_of_not_moving s t hm]; exact h
    | true =>
      by_cases he : s.move_duration_ ≤ sub32 t s.move_start_time_
      · rw [ServoController.update32_complete s t hm he]
        exact h_set s s.target_angle_ h.2.2.1 h
      · have he' := not_le.1 he
        have hu := ServoController.update32_in_flight s t hm he'
        have hp := ServoController.progress_bounds _ _ he'
        obtain ⟨⟨_, ⟨ht0, ht1⟩, ⟨hs0, hs1⟩⟩, _, hft, hfs⟩ := h
        have hr := (interpolation32 s.start_angle_ s.target_angle_ hfs).2.2.2.2.2 _
          hs0 hs1 ht0 ht1 hp.2.1 hp.2.2.1
        unfold ServoController.InRange32
        rw [hu.1, hu.2.1, hu.2.2.1]
        exact ⟨⟨hr, ⟨ht0, ht1⟩, ⟨hs0, hs1⟩⟩, f32_idem _, hft, hfs⟩
  have h_call : ∀ (s : ServoController) (op : ServoOp), op.floatArg = true →
      s.InRange32 → (s.call32 op).InRange32 := by
    intro s op ha h
    cases op with
    | init => exact h_set s 90 f32_90 h
    | setAngle a => exact h_set s a (of_decide_eq_true ha) h
    | moveToAngle target duration t0 =>
      have hf := ServoController.moveToAngle_fields s target duration t0
      have hc := clamp_float target (of_decide_eq_true ha)
      show (s.moveToAngle target duration t0).InRange32
      unfold ServoController.InRange32
      rw [hf.2.1, hf.2.2.1, hf.2.2.2.1]
      exact ⟨⟨h.1.1, clampedAngle_range target, h.1.1⟩, h.2.1, hc, h.2.1⟩
    | update t => exact h_update s t h
    | detach => exact h
    | attach =>
      show s.attach.InRange32
      cases hat : s.is_attached_ with
      | true => rw [ServoController.attach_of_attached s hat]; exact h
      | false =>
        have hf := ServoController.attach_fields s hat
        have hr := clampedAngle_range s.current_angle_
        have hc := clamp_float s.current_angle_ h.2.1
        unfold ServoController.InRange32
        rw [hf.1, hf.2.1, hf.2.2.1]
        exact ⟨⟨hr, hr, h.1.2.2⟩, hc, hc, h.2.2.2⟩
  have h_calls : ∀ (l : List ServoOp) (s : ServoController),
      (∀ op ∈ l, op.floatArg = true) → s.InRange32 → (s.calls32 l).InRange32 := by
    intro l
    induction l with
    | nil => intro s _ h; exact h
    | cons op rest ih =>
      intro s ha h
      show ((s.call32 op).calls32 rest).InRange32
      exact ih _ (fun o ho => ha o (List.mem_cons_of_mem op ho))
        (h_call s op (ha op (List.mem_cons_self op rest)) h)
  exact h_calls ops _ hargs h_new

/-- C37 (counterexample). The argument NaN of `setAngle` or `moveToAngle`: both
comparisons of the clamp, `angle < 0.0f` and `angle > 180.0f`, are false for it, so
the value stored as current and target angle (as target angle by `moveToAngle`) is
NaN, which is not between 0 and 180. -/
theorem C37_nan_passes_the_clamp :
    FloatArg.nan.lt 0 = false ∧ FloatArg.nan.gt 180 = false ∧
    FloatArg.clamp .nan = .nan ∧
    (FloatArg.clamp .nan).inRange = false := by
  decide

/-- C37 (amended). For every servo constructed with any pin and pulse limits, and
every sequence of `init`, `setAngle`, `moveToAngle`, `update`, `detach` and `attach`
calls with arbitrary `float` angles other than NaN and arbitrary clock values
(non-decreasing or not): the constructor leaves the current and target angle at 90
degrees, and after the calls the current angle and the target angle both lie between
0 and 180 degrees, with `update()` computed in `float` arithmetic as well as with
exact arithmetic.  The clamp of `setAngle` and `moveToAngle` maps every argument
other than NaN, the infinities included, into that range, and for a number it is
the value those methods store. -/
theorem C37_servo_angles_in_range (pin min_pulse_us max_pulse_us : Nat)
    (ops : List ServoOp) (hargs : ∀ op ∈ ops, op.floatArg = true) :
    (ServoController.new pin min_pulse_us max_pulse_us).current_angle_ = 90 ∧
    (ServoController.new pin min_pulse_us max_pulse_us).target_angle_ = 90 ∧
    (0 ≤ ((ServoController.new pin min_pulse_us max_pulse_us).calls32 ops).current_angle_ ∧
      ((ServoController.new pin min_pulse_us max_pulse_us).calls32 ops).current_angle_ ≤ 180 ∧
      0 ≤ ((ServoController.new pin min_pulse_us max_pulse_us).calls32 ops).target_angle_ ∧
      ((ServoController.new pin min_pulse_us max_pulse_us).calls32 ops).target_angle_ ≤ 180) ∧
    (0 ≤ ((ServoController.new pin min_pulse_us max_pulse_us).calls ops).current_angle_ ∧
      ((ServoController.new pin min_pulse_us max_pulse_us).calls ops).current_angle_ ≤ 180 ∧
      0 ≤ ((ServoController.new pin min_pulse_us max_pulse_us).calls ops).target_angle_ ∧
      ((ServoController.new pin min_pulse_us max_pulse_us).calls ops).target_angle_ ≤ 180) ∧
    (∀ a : FloatArg, a ≠ .nan → (FloatArg.clamp a).inRange = true) ∧
    (∀ (s : ServoController) (q : ℚ) (d t : Nat),
      FloatArg.clamp (.num q) = .num (s.setAngle q).current_angle_ ∧
      FloatArg.clamp (.num q) = .num (s.setAngle q).target_angle_ ∧
      FloatArg.clamp (.num q) = .num (s.moveToAngle q d t).target_angle_) := by
  have hclamp : ∀ q : ℚ, FloatArg.clamp (.num q) = .num (clampedAngle q) := by
    intro q
    unfold FloatArg.clamp clampedAngle FloatArg.lt FloatArg.gt
    by_cases h1 : q < 0
    · simp [h1, FloatArg.gt]
    · by_cases h2 : q > 180
      · simp [h1, h2]
      · simp [h1, h2]
  have hr := ServoController.InRange_calls ops _
    (ServoController.InRange_new pin min_pulse_us max_pulse_us)
  have hr32 := ServoController.InRange32_calls32 pin min_pulse_us max_pulse_us ops hargs
  refine ⟨rfl, rfl, ⟨hr32.1.1.1, hr32.1.1.2, hr32.1.2.1.1, hr32.1.2.1.2⟩,
    ⟨hr.1.1, hr.1.2, hr.2.1.1, hr.2.1.2⟩, ?_, ?_⟩
  · intro a ha
    cases a with
    | nan => exact absurd rfl ha
    | negInf => decide
    | posInf => decide
    | num q =>
      have hq := clampedAngle_range q
      rw [hclamp q]
      simp [FloatArg.inRange, hq.1, hq.2]
  · intro s q d t
    have hf := ServoController.setAngle_fields s q
    have hm := ServoController.moveToAngle_fields s q d t
    rw [hclamp q, hf.1, hf.2.1, hm.2.1]
    exact ⟨rfl, rfl, rfl⟩

/-- Witness for C37 (amended): the gripper servo initialised, set to 200 degrees
(stored as 180), sent towards -5 degrees (stored as 0) in 500 ms, updated half-way,
detached and attached again. -/
theorem C37_servo_angles_in_range_witness :
    (((ServoController.new SERVO_GRIPPER_PIN 500 2500).calls32
        [.init, .setAngle 200, .moveToAngle (-5) 500 1000, .update 1250, .detach,
          .attach]).current_angle_ = 90 ∧
      ((ServoController.new SERVO_GRIPPER_PIN 500 2500).calls32
        [.init, .setAngle 200, .moveToAngle (-5) 500 1000, .update 1250, .detach,
          .attach]).target_angle_ = 90) ∧
    ((ServoController.new SERVO_GRIPPER_PIN 500 2500).current_angle_ = 90 ∧
    (ServoController.new SERVO_GRIPPER_PIN 500 2500).target_angle_ = 90 ∧
    (0 ≤ ((ServoController.new SERVO_GRIPPER_PIN 500 2500).calls32
        [.init, .setAngle 200, .moveToAngle (-5) 500 1000, .update 1250, .detach,
          .attach]).current_angle_ ∧
      ((ServoController.new SERVO_GRIPPER_PIN 500 2500).calls32
        [.init, .setAngle 200, .moveToAngle (-5) 500 1000, .update 1250, .detach,
          .attach]).current_angle_ ≤ 180 ∧
      0 ≤ ((ServoController.new SERVO_GRIPPER_PIN 500 2500).calls32
        [.init, .setAngle 200, .moveToAngle (-5) 500 1000, .update 1250, .detach,
          .attach]).target_angle_ ∧
      ((ServoController.new SERVO_GRIPPER_PIN 500 2500).calls32
        [.init, .setAngle 200, .moveToAngle (-5) 500 1000, .update 1250, .detach,
          .attach]).target_angle_ ≤ 180) ∧
    (0 ≤ ((ServoController.new SERVO_GRIPPER_PIN 500 2500).calls
        [.init, .setAngle 200, .moveToAngle (-5) 500 1000, .update 1250, .detach,
          .attach]).current_angle_ ∧
      ((ServoController.new SERVO_GRIPPER_PIN 500 2500).calls
        [.init, .setAngle 200, .moveToAngle (-5) 500 1000, .update 1250, .detach,
          .attach]).current_angle_ ≤ 180 ∧
      0 ≤ ((ServoController.new SERVO_GRIPPER_PIN 500 2500).calls
        [.init, .setAngle 200, .moveToAngle (-5) 500 1000, .update 1250, .detach,
          .attach]).target_angle_ ∧
      ((ServoController.new SERVO_GRIPPER_PIN 500 2500).calls
        [.init, .setAngle 200, .moveToAngle (-5) 500 1000, .update 1250, .detach,
          .attach]).target_angle_ ≤ 180) ∧
    (∀ a : FloatArg, a ≠ .nan → (FloatArg.clamp a).inRange = true) ∧
    (∀ (s : ServoController) (q : ℚ) (d t : Nat),
      FloatArg.clamp (.num q) = .num (s.setAngle q).current_angle_ ∧
      FloatArg.clamp (.num q) = .num (s.setAngle q).target_angle_ ∧
      FloatArg.clamp (.num q) = .num (s.moveToAngle q d t).target_angle_)) :=
  ⟨by decide!,
    C37_servo_angles_in_range SERVO_GRIPPER_PIN 500 2500
      [.init, .setAngle 200, .moveToAngle (-5) 500 1000, .update 1250, .detach, .attach]
      (by decide!)⟩

/-- The elapsed time computed at the clock value `(s + e) mod 2^32` from the start
value `s` is `e`, whether or not the clock wrapped in between. -/
theorem sub32_wrap (s e : Nat) (he : e < 4294967296) :
    sub32 ((s + e) % 4294967296) s = e := by
  unfold sub32
  omega

/-- C38. For every start time `s`, duration `d` and true elapsed time `e`, both below
2^32 ms: the elapsed time computed at the clock value `(s + e) mod 2^32` is `e`; the
timed move armed at `s` reports completion there if and only if `e ≥ d`; the servo
move armed at `s` ends there if and only if `e ≥ d`; the on-phase of a beep pattern
started at `s` ends there if and only if `e ≥ d`; and a button whose raw level last
changed at `s` takes that level as its debounced state there if and only if
`e ≥ 50`. -/
theorem C38_elapsed_across_wrap (s d e : Nat) (hd : d < 4294967296)
    (he : e < 4294967296) :
    sub32 ((s + e) % 4294967296) s = e ∧
    (∀ (m : MotorDriver) (speed : Nat) (dir : Direction),
      ((m.moveFor speed dir d s).isMovementComplete ((s + e) % 4294967296)).1 = true
        ↔ d ≤ e) ∧
    (∀ (sv : ServoController) (target : ℚ),
      ((sv.moveToAngle target d s).update ((s + e) % 4294967296)).isMoving = false
        ↔ d ≤ e) ∧
    (∀ (b : Buzzer) (n off_ms : Nat),
      ((b.startBeepPattern n d off_ms s).update ((s + e) % 4294967296)).state_ = false
        ↔ d ≤ e) ∧
    (∀ (b : PushButton) (raw : Bool), b.last_state_ = raw → b.last_change_time_ = s →
      b.debounced_state_ = !raw →
      ((b.update raw ((s + e) % 4294967296)).debounced_state_ = raw ↔ 50 ≤ e)) := by
  have hsub := sub32_wrap s e he
  refine ⟨hsub, ?_, ?_, ?_, ?_⟩
  · intro m speed dir
    rw [MotorDriver.isMovementComplete_moveFor m speed dir d s _ hd, hsub]
    split_ifs with h <;> simp [h]
  · intro sv target
    have hf := ServoController.moveToAngle_fields sv target d s
    by_cases h : d ≤ e
    · have hu := ServoController.update_complete (sv.moveToAngle target d s)
        ((s + e) % 4294967296) hf.1
        (by rw [hf.2.2.2.2.1, hf.2.2.2.2.2.1, Nat.mod_eq_of_lt hd, hsub]; exact h)
      exact ⟨fun _ => h, fun _ => hu.2.2.1⟩
    · have hu := ServoController.update_in_flight (sv.moveToAngle target d s)
        ((s + e) % 4294967296) hf.1
        (by rw [hf.2.2.2.2.1, hf.2.2.2.2.2.1, Nat.mod_eq_of_lt hd, hsub]; omega)
      constructor
      · intro hm
        have hm' : ((sv.moveToAngle target d s).update ((s + e) % 4294967296)).is_moving_
            = false := hm
        rw [hu.2.2.2.1] at hm'
        exact absurd hm' (by decide)
      · intro hde
        exact absurd hde h
  · intro b n off_ms
    have hmod : d % 4294967296 = d := Nat.mod_eq_of_lt hd
    by_cases h : d ≤ e
    · simp [Buzzer.update, Buzzer.updatePattern, Buzzer.startBeepPattern, Buzzer.switchOn,
        Buzzer.switchOff, hmod, hsub, h]
      split_ifs <;> simp
    · simp [Buzzer.update, Buzzer.updatePattern, Buzzer.startBeepPattern, Buzzer.switchOn,
        Buzzer.switchOff, hmod, hsub, h]
  · intro b raw hl hc hdb
    have hne' : (raw != !raw) = true := by cases raw <;> rfl
    by_cases h : 50 ≤ e
    · have hu : (b.update raw ((s + e) % 4294967296)).debounced_state_ = raw := by
        simp [PushButton.update, PushButton.DEBOUNCE_TIME_MS, hl, hc, hsub, h, hdb, hne']
        cases raw <;> simp
      exact ⟨fun _ => h, fun _ => hu⟩
    · have hu : (b.update raw ((s + e) % 4294967296)).debounced_state_ = !raw := by
        simp [PushButton.update, PushButton.DEBOUNCE_TIME_MS, hl, hc, hsub, h, hdb]
      constructor
      · intro hr
        rw [hu] at hr
        cases raw <;> simp at hr
      · intro h50
        exact absurd h50 h

/-- Witness for C38: a one-second timer armed 296 ms before the clock wraps and
tested one second later, at the clock value 704. -/
theorem C38_elapsed_across_wrap_witness :
    ((4294967000 + 1000) % 4294967296 = 704 ∧
      ((MotorDriver.new.moveFor 70 Direction.FORWARD 1000 4294967000).isMovementComplete
        704).1 = true) ∧
    (sub32 ((4294967000 + 1000) % 4294967296) 4294967000 = 1000 ∧
    (∀ (m : MotorDriver) (speed : Nat) (dir : Direction),
      ((m.moveFor speed dir 1000 4294967000).isMovementComplete
        ((4294967000 + 1000) % 4294967296)).1 = true ↔ 1000 ≤ 1000) ∧
    (∀ (sv : ServoController) (target : ℚ),
      ((sv.moveToAngle target 1000 4294967000).update
        ((4294967000 + 1000) % 4294967296)).isMoving = false ↔ 1000 ≤ 1000) ∧
    (∀ (b : Buzzer) (n off_ms : Nat),
      ((b.startBeepPattern n 1000 off_ms 4294967000).update
        ((4294967000 + 1000) % 4294967296)).state_ = false ↔ 1000 ≤ 1000) ∧
    (∀ (b : PushButton) (raw : Bool), b.last_state_ = raw →
      b.last_change_time_ = 4294967000 → b.debounced_state_ = !raw →
      ((b.update raw ((4294967000 + 1000) % 4294967296)).debounced_state_ = raw
        ↔ 50 ≤ 1000))) :=
  ⟨by decide, C38_elapsed_across_wrap 4294967000 1000 1000 (by decide) (by decide)⟩

/-- C39. For every servo state reached from the constructor by any sequence of calls
in which an interpolation is armed (`isMoving()` is true): an `update()` once the
duration has elapsed would bring the servo to the target of the move; but after
`detach()` followed by `attach()`, `isMoving()` is false, the current angle is still
the partially interpolated one and the target angle is equal to it, every sequence of
later `update()` calls leaves the servo as it is, and so, when the interpolated angle
is not the target that was given to `moveToAngle`, no later update brings the servo
to that target. -/
theorem C39_detach_attach_abandons_move (pin min_pulse_us max_pulse_us : Nat)
    (ops : List ServoOp) (later : List Nat)
    (hmove : ((ServoController.new pin min_pulse_us max_pulse_us).calls ops).isMoving
      = true) :
    (∀ t, ((ServoController.new pin min_pulse_us max_pulse_us).calls ops).move_duration_
        ≤ sub32 t ((ServoController.new pin min_pulse_us max_pulse_us).calls
          ops).move_start_time_ →
      (((ServoController.new pin min_pulse_us max_pulse_us).calls ops).update
          t).current_angle_
        = ((ServoController.new pin min_pulse_us max_pulse_us).calls ops).target_angle_) ∧
    ((ServoController.new pin min_pulse_us max_pulse_us).calls ops).detach.attach.isMoving
      = false ∧
    ((ServoController.new pin min_pulse_us max_pulse_us).calls ops).detach.attach.current_angle_
      = ((ServoController.new pin min_pulse_us max_pulse_us).calls ops).current_angle_ ∧
    ((ServoController.new pin min_pulse_us max_pulse_us).calls ops).detach.attach.target_angle_
      = ((ServoController.new pin min_pulse_us max_pulse_us).calls ops).current_angle_ ∧
    ((ServoController.new pin min_pulse_us max_pulse_us).calls ops).detach.attach.updates later
      = ((ServoController.new pin min_pulse_us max_pulse_us).calls ops).detach.attach ∧
    (((ServoController.new pin min_pulse_us max_pulse_us).calls ops).current_angle_
        ≠ ((ServoController.new pin min_pulse_us max_pulse_us).calls ops).target_angle_ →
      (((ServoController.new pin min_pulse_us max_pulse_us).calls ops).detach.attach.updates
          later).current_angle_
        ≠ ((ServoController.new pin min_pulse_us max_pulse_us).calls ops).target_angle_) := by
  have hr := ServoController.InRange_calls ops _
    (ServoController.InRange_new pin min_pulse_us max_pulse_us)
  have hf := ServoController.attach_fields
    ((ServoController.new pin min_pulse_us max_pulse_us).calls ops).detach rfl
  have hcl := clampedAngle_of_range hr.1.1 hr.1.2
  have hu := ServoController.updates_of_not_moving later _ hf.2.2.2.2
  refine ⟨?_, hf.2.2.2.2, hf.1.trans hcl, hf.2.1.trans hcl, hu, ?_⟩
  · intro t ht
    have hc := ServoController.update_complete _ t hmove ht
    rw [hc.1]
    exact clampedAngle_of_range hr.2.1.1 hr.2.1.2
  · intro hne
    rw [hu, hf.1.trans hcl]
    exact hne

/-- Witness for C39: the gripper servo half way from 90 to 30 degrees, 250 ms into a
move of 500 ms, then detached and attached and updated after the end of the move. -/
theorem C39_detach_attach_abandons_move_witness :
    (((ServoController.new SERVO_GRIPPER_PIN 500 2500).calls
        [.init, .moveToAngle 30 500 1000, .update 1250]).current_angle_ = 60 ∧
      ((ServoController.new SERVO_GRIPPER_PIN 500 2500).calls
        [.init, .moveToAngle 30 500 1000, .update 1250]).target_angle_ = 30) ∧
    ((∀ t, ((ServoController.new SERVO_GRIPPER_PIN 500 2500).calls
          [.init, .moveToAngle 30 500 1000, .update 1250]).move_duration_
        ≤ sub32 t ((ServoController.new SERVO_GRIPPER_PIN 500 2500).calls
          [.init, .moveToAngle 30 500 1000, .update 1250]).move_start_time_ →
      (((ServoController.new SERVO_GRIPPER_PIN 500 2500).calls
          [.init, .moveToAngle 30 500 1000, .update 1250]).update t).current_angle_
        = ((ServoController.new SERVO_GRIPPER_PIN 500 2500).calls
          [.init, .moveToAngle 30 500 1000, .update 1250]).target_angle_) ∧
    ((ServoController.new SERVO_GRIPPER_PIN 500 2500).calls
        [.init, .moveToAngle 30 500 1000, .update 1250]).detach.attach.isMoving = false ∧
    ((ServoController.new SERVO_GRIPPER_PIN 500 2500).calls
        [.init, .moveToAngle 30 500 1000, .update 1250]).detach.attach.current_angle_
      = ((ServoController.new SERVO_GRIPPER_PIN 500 2500).calls
        [.init, .moveToAngle 30 500 1000, .update 1250]).current_angle_ ∧
    ((ServoController.new SERVO_GRIPPER_PIN 500 2500).calls
        [.init, .moveToAngle 30 500 1000, .update 1250]).detach.attach.target_angle_
      = ((ServoController.new SERVO_GRIPPER_PIN 500 2500).calls
        [.init, .moveToAngle 30 500 1000, .update 1250]).current_angle_ ∧
    ((ServoController.new SERVO_GRIPPER_PIN 500 2500).calls
        [.init, .moveToAngle 30 500 1000, .update 1250]).detach.attach.updates [1500, 2000]
      = ((ServoController.new SERVO_GRIPPER_PIN 500 2500).calls
        [.init, .moveToAngle 30 500 1000, .update 1250]).detach.attach ∧
    (((ServoController.new SERVO_GRIPPER_PIN 500 2500).calls
        [.init, .moveToAngle 30 500 1000, .update 1250]).current_angle_
        ≠ ((ServoController.new SERVO_GRIPPER_PIN 500 2500).calls
          [.init, .moveToAngle 30 500 1000, .update 1250]).target_angle_ →
      (((ServoController.new SERVO_GRIPPER_PIN 500 2500).calls
          [.init, .moveToAngle 30 500 1000, .update 1250]).detach.attach.updates
          [1500, 2000]).current_angle_
        ≠ ((ServoController.new SERVO_GRIPPER_PIN 500 2500).calls
          [.init, .moveToAngle 30 500 1000, .update 1250]).target_angle_)) :=
  ⟨by decide!,
    C39_detach_attach_abandons_move SERVO_GRIPPER_PIN 500 2500
      [.init, .moveToAngle 30 500 1000, .update 1250] [1500, 2000] (by decide!)⟩

/-- C40 (counterexample). A move of 16 777 217 ms armed at clock value 0 and updated
at 16 777 216 ms: the elapsed time is below the duration, so `update()` interpolates;
the conversion of the duration to `float` rounds to 16 777 216, the quotient
`progress` is exactly 1, outside the interval from 0 (included) to 1 (excluded), and
the update writes the target angle of 30 degrees while the servo is still moving. -/
theorem C40_progress_reaches_one :
    (gripper.moveToAngle 30 16777217 0).is_moving_ = true ∧
    sub32 16777216 (gripper.moveToAngle 30 16777217 0).move_start_time_ = 16777216 ∧
    (gripper.moveToAngle 30 16777217 0).move_duration_ = 16777217 ∧
    f32 ((16777217 : ℕ) : ℚ) = 16777216 ∧
    f32 (f32 ((16777216 : ℕ) : ℚ) / f32 ((16777217 : ℕ) : ℚ)) = 1 ∧
    ¬ (f32 (f32 ((16777216 : ℕ) : ℚ) / f32 ((16777217 : ℕ) : ℚ)) < 1) ∧
    ((gripper.moveToAngle 30 16777217 0).update32 16777216).current_angle_ = 30 ∧
    ((gripper.moveToAngle 30 16777217 0).update32 16777216).is_moving_ = true := by
  decide!

/-- C40 (amended). For every servo state and clock value: `update()` takes the
interpolating branch, the only one that divides, only when the servo is moving and
the elapsed time is less than the move duration; the duration is then positive, the
divisor `(float)move_duration_` is at least 1, the quotient `progress` lies in the
interval from 0 to 1, both included, and the new angle is the `float` value of
`start + (target - start) * progress`.  When the elapsed time has reached the
duration the update is the snap to the target, and when the servo is not moving it
changes nothing.  A `moveToAngle` with duration 0 is completed by the first
`update()`, at any clock value, through the snap. -/
theorem C40_progress_division_guarded (s : ServoController) (t : Nat) :
    (s.is_moving_ = true → sub32 t s.move_start_time_ < s.move_duration_ →
      0 < s.move_duration_ ∧
      1 ≤ f32 (s.move_duration_ : ℚ) ∧
      0 ≤ f32 (f32 (sub32 t s.move_start_time_ : ℚ) / f32 (s.move_duration_ : ℚ)) ∧
      f32 (f32 (sub32 t s.move_start_time_ : ℚ) / f32 (s.move_duration_ : ℚ)) ≤ 1 ∧
      (s.update32 t).current_angle_ =
        f32 (s.start_angle_ + f32 (f32 (s.target_angle_ - s.start_angle_) *
          f32 (f32 (sub32 t s.move_start_time_ : ℚ) / f32 (s.move_duration_ : ℚ)))) ∧
      (s.update32 t).is_moving_ = true) ∧
    (s.is_moving_ = true → s.move_duration_ ≤ sub32 t s.move_start_time_ →
      s.update32 t = { (s.setAngle s.target_angle_) with is_moving_ := false }) ∧
    (s.is_moving_ = false → s.update32 t = s) ∧
    (∀ (target : ℚ) (t0 : Nat),
      (s.moveToAngle target 0 t0).move_duration_ = 0 ∧
      ((s.moveToAngle target 0 t0).update32 t).isMoving = false ∧
      ((s.moveToAngle target 0 t0).update32 t).current_angle_ = clampedAngle target) := by
  refine ⟨?_, ?_, ?_, ?_⟩
  · intro hm he
    have hp := ServoController.progress_bounds _ _ he
    have hu := ServoController.update32_in_flight s t hm he
    exact ⟨by omega, hp.1, hp.2.1, hp.2.2.1, hu.1, hu.2.2.2.1⟩
  · intro hm he
    exact ServoController.update32_complete s t hm he
  · intro hm
    exact ServoController.update32_of_not_moving s t hm
  · intro target t0
    have hf := ServoController.moveToAngle_fields s target 0 t0
    have hu := ServoController.update32_complete (s.moveToAngle target 0 t0) t hf.1
      (by rw [hf.2.2.2.2.2.1]; exact Nat.zero_le _)
    have hsa := ServoController.setAngle_fields (s.moveToAngle target 0 t0)
      (s.moveToAngle target 0 t0).target_angle_
    refine ⟨rfl, ?_, ?_⟩
    · rw [hu]; rfl
    · rw [hu]
      show ((s.moveToAngle target 0 t0).setAngle _).current_angle_ = _
      rw [hsa.1, hf.2.1, clampedAngle_of_range (clampedAngle_range target).1
        (clampedAngle_range target).2]

/-! ## Audible feedback -/

theorem playErrorBeep_sound (r : Robot) :
    (playErrorBeep r).sound = r.sound ++ errorPattern := by
  simp [playErrorBeep, beep, buzzerSleep, Buzzer.switchOn, Buzzer.switchOff, errorPattern,
    Nat.iterate]

theorem showError_sound (r : Robot) : (showError r).sound = r.sound ++ errorPattern :=
  playErrorBeep_sound r

theorem playSuccessBeep_sound (r : Robot) :
    (playSuccessBeep r).sound = r.sound ++ successPattern := by
  simp [playSuccessBeep, beep, buzzerSleep, Buzzer.switchOn, Buzzer.switchOff,
    successPattern]

theorem playConfirmBeep_sound (r : Robot) :
    (playConfirmBeep r).sound = r.sound ++ confirmPattern := by
  simp [playConfirmBeep, beep, buzzerSleep, Buzzer.switchOn, Buzzer.switchOff,
    confirmPattern]

/-- The wait loop of `homeLinearRail()` is silent until it times out, and then plays
the error pattern. -/
theorem homeWait_sound (env : Env) (start : Nat) :
    ∀ (fuel : Nat) (r : Robot) (res : Robot × Bool), homeWait env start fuel r = .done res →
      (res.2 = true → res.1.sound = r.sound ++ errorPattern) ∧
      (res.2 = false → res.1.sound = r.sound) := by
  intro fuel
  induction fuel with
  | zero => intro r res h; simp [homeWait] at h
  | succ n ih =>
    intro r res h
    unfold homeWait at h
    split at h
    · simp only [Run.done.injEq] at h
      subst h
      exact ⟨fun hf => by simp at hf, fun _ => rfl⟩
    · simp only at h
      split at h
      · simp only [Run.done.injEq] at h
        subst h
        exact ⟨fun _ => showError_sound _, fun hf => by simp at hf⟩
      · have hh := ih _ _ h
        exact ⟨fun hf => hh.1 hf, fun hf => hh.2 hf⟩

theorem waitNoKey_sound (env : Env) :
    ∀ (fuel : Nat) (r r' : Robot), waitNoKey env fuel r = .done r' → r'.sound = r.sound := by
  intro fuel
  induction fuel with
  | zero => intro r r' h; simp [waitNoKey] at h
  | succ n ih =>
    intro r r' h
    unfold waitNoKey at h
    simp only at h
    split at h
    · have hh := ih _ _ h
      exact hh
    · simp only [Run.done.injEq] at h
      subst h
      rfl

theorem waitAnyKey_sound (env : Env) :
    ∀ (fuel : Nat) (r : Robot) (res : Char × Robot), waitAnyKey env fuel r = .done res →
      res.2.sound = r.sound := by
  intro fuel
  induction fuel with
  | zero => intro r res h; simp [waitAnyKey] at h
  | succ n ih =>
    intro r res h
    unfold waitAnyKey at h
    simp only at h
    split at h
    · have hh := ih _ _ h
      exact hh
    · simp only [Run.done.injEq] at h
      subst h
      rfl

theorem waitForKey_sound (env : Env) (fuel : Nat) (r : Robot) (res : Char × Robot)
    (h : waitForKey env fuel r = .done res) : res.2.sound = r.sound := by
  unfold waitForKey at h
  obtain ⟨r1, h1, h2⟩ := Run.bind_eq_done h
  exact (waitAnyKey_sound env fuel r1 res h2).trans (waitNoKey_sound env fuel r r1 h1)

/-- The HOMING step whose wait times out: it returns, and the only sound of the step
is the error pattern. -/
theorem homing_timeout_sound (env : Env) (fuel : Nat) (r : Robot)
    (h : r.currentState = .STATE_HOMING)
    (hexit : (homingWait env fuel r).map (fun res => res.2) = .done true) :
    ∃ r', updateStateMachine env fuel r = .done r' ∧
      r'.sound = r.sound ++ errorPattern := by
  rw [homing_step env fuel r h, homeLinearRail_eq]
  unfold Run.map at hexit
  obtain ⟨res, hres, hflag⟩ := Run.bind_eq_done hexit
  simp only [Run.done.injEq] at hflag
  have hs := (homeWait_sound env _ fuel _ res hres).1 hflag
  rw [hres]
  simp only [Run.bind, hflag, if_true]
  exact ⟨_, rfl, hs⟩

/-- C34. The error pattern played by `playErrorBeep()`, and so by `showError`, is
three beeps of 150 ms each followed by a pause of 100 ms; as a sequence of on and off
durations it differs, from its first beep on, from the success pattern (100 ms on,
50 ms off, 100 ms on) and from the confirmation pattern (one beep of 100 ms).  A
HOMING step whose wait times out returns having played exactly the error pattern; a
VERIFY_OBJECT step with a negative reading returns having played exactly the error
pattern; and a VERIFY_OBJECT step with a reading above the threshold plays the error
pattern before its wait for a key starts, and nothing else until it returns. -/
theorem C34_error_paths_play_error_pattern (env : Env) (fuel : Nat) (r : Robot) :
    ((playErrorBeep r).sound = r.sound ++ errorPattern ∧
      (showError r).sound = r.sound ++ errorPattern ∧
      (playSuccessBeep r).sound = r.sound ++ successPattern ∧
      (playConfirmBeep r).sound = r.sound ++ confirmPattern) ∧
    (errorPattern = [(true, 150), (false, 100), (true, 150), (false, 100), (true, 150),
        (false, 100)] ∧
      successPattern = [(true, 100), (false, 50), (true, 100)] ∧
      confirmPattern = [(true, 100)] ∧
      errorPattern ≠ successPattern ∧ errorPattern ≠ confirmPattern ∧
      errorPattern.head? ≠ successPattern.head? ∧
      errorPattern.head? ≠ confirmPattern.head?) ∧
    (r.currentState = .STATE_HOMING →
      (homingWait env fuel r).map (fun res => res.2) = .done true →
      ∃ r', updateStateMachine env fuel r = .done r' ∧
        r'.sound = r.sound ++ errorPattern) ∧
    (r.currentState = .STATE_VERIFY_OBJECT → reading env r < 0 →
      ∃ r', updateStateMachine env fuel r = .done r' ∧
        r'.sound = r.sound ++ errorPattern) ∧
    (r.currentState = .STATE_VERIFY_OBJECT → reading env r > 8 →
      updateStateMachine env fuel r =
        (waitForKey env fuel (showError r)).bind (fun res =>
          .done { res.2 with currentState := .STATE_VERIFY_OBJECT }) ∧
      (∀ r', updateStateMachine env fuel r = .done r' →
        r'.sound = r.sound ++ errorPattern)) := by
  refine ⟨⟨playErrorBeep_sound r, showError_sound r, playSuccessBeep_sound r,
    playConfirmBeep_sound r⟩, ⟨rfl, rfl, rfl, by decide, by decide, by decide, by decide⟩,
    homing_timeout_sound env fuel r, ?_, ?_⟩
  · intro h hd
    rw [verifyObject_negative env fuel r h hd]
    exact ⟨_, rfl, showError_sound r⟩
  · intro h hd
    have h0 : ¬ Ultrasonic.measureDistance (env.echo_pulse_us r.now) < 0 := by
      have : (8 : ℚ) < Ultrasonic.measureDistance (env.echo_pulse_us r.now) := hd
      linarith
    have h8 : Ultrasonic.measureDistance (env.echo_pulse_us r.now)
        > OBJECT_DETECTION_THRESHOLD_CM := hd
    rw [verifyObject_step env fuel r h, if_neg h0, if_pos h8]
    refine ⟨rfl, ?_⟩
    intro r' hr'
    obtain ⟨res, hres, hdone⟩ := Run.bind_eq_done hr'
    simp only [Run.done.injEq] at hdone
    subst hdone
    exact (waitForKey_sound env fuel _ res hres).trans (showError_sound r)

/-! ## The move commanded by `moveToPosition` -/

theorem moveToPosition_eq (env : Env) (fuel : Nat) (r : Robot) (t : ℚ)
    (hne : t ≠ r.currentPosition) :
    moveToPosition env fuel r t =
      (moveWait env fuel (startMove r t)).bind fun res =>
        if res.2 then .done (res.1, .emergencyStop)
        else .done ({ res.1 with currentPosition := t }, .arrived) := by
  unfold moveToPosition startMove
  simp only
  rw [if_neg (sub_ne_zero.2 hne)]

theorem moveToPosition_same (env : Env) (fuel : Nat) (r : Robot) :
    moveToPosition env fuel r r.currentPosition = .done (r, .alreadyThere) := by
  unfold moveToPosition
  simp

theorem startMove_motor (r : Robot) (t : ℚ) :
    (startMove r t).motor.timed_move_active_ = true ∧
    (startMove r t).motor.move_duration_
      = move_time_ms (t - r.currentPosition) % 4294967296 ∧
    (startMove r t).motor.move_start_time_ = to_ms_since_boot r ∧
    (startMove r t).motor.current_speed_ = 70 ∧
    (r.currentPosition < t → (startMove r t).motor.current_direction_ = .FORWARD) ∧
    (t < r.currentPosition → (startMove r t).motor.current_direction_ = .REVERSE) ∧
    (startMove r t).currentPosition = r.currentPosition := by
  refine ⟨rfl, rfl, rfl, ?_, ?_, ?_, rfl⟩
  · simp [startMove, MotorDriver.moveFor, MotorDriver.run, MotorDriver.setSpeed,
      MotorDriver.updatePWM, MOTOR_SPEED]
  · intro h
    have hpos : t - r.currentPosition > 0 := sub_pos.2 h
    simp [startMove, MotorDriver.moveFor, MotorDriver.run, MotorDriver.setSpeed,
      MotorDriver.updatePWM, MotorDriver.setDirection, hpos]
  · intro h
    have hneg : ¬ (t - r.currentPosition > 0) := not_lt.2 (le_of_lt (sub_neg.2 h))
    simp [startMove, MotorDriver.moveFor, MotorDriver.run, MotorDriver.setSpeed,
      MotorDriver.updatePWM, MotorDriver.setDirection, hneg]

/-- The `double` evaluation of the travel time is exact when the distance is a whole
multiple of 50 mm. -/
theorem move_time_multiple (d : ℚ) (n : Nat) (hd : |d| = 50 * (n : ℚ))
    (hn : 1000 * n < 4294967296) :
    move_time d = 1000 * (n : ℚ) ∧ move_time_ms d = 1000 * n ∧
    Int.toNat ⌊|d| / 50 * 1000⌋ = 1000 * n := by
  obtain ⟨_, f64_natCast⟩ := f64_facts
  have e1 : |d| / 50 = (n : ℚ) := by rw [hd]; ring
  have c1 : f64 (n : ℚ) = n := f64_natCast n (by omega)
  have c2 : f64 ((n : ℚ) * 1000) = (n : ℚ) * 1000 := by
    have := f64_natCast (n * 1000) (by omega)
    exact_mod_cast this
  have hm : move_time d = 1000 * (n : ℚ) := by
    unfold move_time MM_PER_SECOND
    rw [e1, c1, c2]; ring
  have hfl : ⌊(1000 * (n : ℚ))⌋ = ((1000 * n : ℕ) : ℤ) := by
    have : (1000 * (n : ℚ)) = (((1000 * n : ℕ) : ℤ) : ℚ) := by push_cast; ring
    rw [this, Int.floor_intCast]
  refine ⟨hm, ?_, ?_⟩
  · unfold move_time_ms
    rw [hm, hfl, Int.toNat_ofNat]
    exact Nat.mod_eq_of_lt hn
  · rw [e1, mul_comm, hfl, Int.toNat_ofNat]

theorem configured_move_times (k : Nat) (hk1 : 1 ≤ k) (hk9 : k ≤ 9) :
    (move_time_ms (PUZZLE_POSITIONS.getD (k - 1) 0 - HOME_POSITION) = 1000 * k ∧
      HOME_POSITION < PUZZLE_POSITIONS.getD (k - 1) 0) ∧
    (move_time_ms (DROP_OFF_POSITION - PUZZLE_POSITIONS.getD (k - 1) 0) = (10 - k) * 1000 ∧
      PUZZLE_POSITIONS.getD (k - 1) 0 < DROP_OFF_POSITION) ∧
    (move_time_ms (HOME_POSITION - DROP_OFF_POSITION) = 10000 ∧
      HOME_POSITION < DROP_OFF_POSITION) := by
  interval_cases k <;> decide!

/-- C32 (counterexample). From position 0 with the target at 201 mm, the formula
`trunc(|t - p| / 50 * 1000)` gives 4020 ms, but the move commanded lasts 4019 ms:
the source evaluates the quotient 201 / 50 in `double`, where it is rounded below
4.02, so the product with 1000 stays below 4020 and the conversion truncates it. -/
theorem C32_duration_at_201_mm :
    (boot envNoInput).currentPosition = 0 ∧
    (201 : ℚ) ≠ (boot envNoInput).currentPosition ∧
    f32 (201 - (boot envNoInput).currentPosition) = 201 ∧
    Int.toNat ⌊|201 - (boot envNoInput).currentPosition| / 50 * 1000⌋ = 4020 ∧
    move_time (201 - (boot envNoInput).currentPosition) < 4020 ∧
    (startMove (boot envNoInput) 201).motor.move_duration_ = 4019 ∧
    (startMove (boot envNoInput) 201).motor.move_duration_
      ≠ Int.toNat ⌊|201 - (boot envNoInput).currentPosition| / 50 * 1000⌋ := by
  decide!

/-- C32 (amended). For every state and every target `t` other than the current
position `p`, with the `float` difference `t - p` exact and the travel time
evaluated below 2^32 ms: `moveToPosition(t)` is the wait loop entered with a timed
move armed at the current clock value, at speed 70, the position still `p`,
direction FORWARD if `t > p` and REVERSE if `t < p`, whose duration is the value of
`(fabs(t - p) / 50) * 1000`, the quotient and the product each rounded to `double`,
truncated to an integer.  Whenever `|t - p|` is a whole multiple `50 n` of 50 mm
below 16 777 216 mm, that duration is exactly `1000 n = trunc(|t - p| / 50 * 1000)`
ms.  With the configured positions the duration is `1000 k` ms forward from home to
piece `k`, `(10 - k) * 1000` ms forward from piece `k` to the drop-off and 10 000 ms
reverse from the drop-off to home.  When `t = p` the function returns at once with
the state, motor and position included, unchanged. -/
theorem C32_move_command (env : Env) (fuel : Nat) (r : Robot) (t : ℚ)
    (hne : t ≠ r.currentPosition)
    (hexact : f32 (t - r.currentPosition) = t - r.currentPosition)
    (hfit : move_time (t - r.currentPosition) < 4294967296) :
    (moveToPosition env fuel r t =
      (moveWait env fuel (startMove r t)).bind fun res =>
        if res.2 then .done (res.1, .emergencyStop)
        else .done ({ res.1 with currentPosition := t }, .arrived)) ∧
    ((startMove r t).motor.timed_move_active_ = true ∧
      (startMove r t).motor.move_duration_
        = Int.toNat ⌊f64 (f64 (|f32 (t - r.currentPosition)| / 50) * 1000)⌋ ∧
      (startMove r t).motor.move_start_time_ = to_ms_since_boot r ∧
      (startMove r t).motor.current_speed_ = 70 ∧
      (r.currentPosition < t → (startMove r t).motor.current_direction_ = .FORWARD) ∧
      (t < r.currentPosition → (startMove r t).motor.current_direction_ = .REVERSE) ∧
      (startMove r t).currentPosition = r.currentPosition) ∧
    (∀ n : Nat, |t - r.currentPosition| = 50 * (n : ℚ) → 50 * n < 16777216 →
      (startMove r t).motor.move_duration_ = 1000 * n ∧
      Int.toNat ⌊|t - r.currentPosition| / 50 * 1000⌋ = 1000 * n) ∧
    (∀ k : Nat, 1 ≤ k → k ≤ 9 →
      (move_time_ms (PUZZLE_POSITIONS.getD (k - 1) 0 - HOME_POSITION) = 1000 * k ∧
        HOME_POSITION < PUZZLE_POSITIONS.getD (k - 1) 0) ∧
      (move_time_ms (DROP_OFF_POSITION - PUZZLE_POSITIONS.getD (k - 1) 0)
          = (10 - k) * 1000 ∧
        PUZZLE_POSITIONS.getD (k - 1) 0 < DROP_OFF_POSITION) ∧
      (move_time_ms (HOME_POSITION - DROP_OFF_POSITION) = 10000 ∧
        HOME_POSITION < DROP_OFF_POSITION)) ∧
    moveToPosition env fuel r r.currentPosition = .done (r, .alreadyThere) := by
  obtain ⟨h1, h2, h3, h4, h5, h6, h7⟩ := startMove_motor r t
  have hm : move_time_ms (t - r.currentPosition)
      = Int.toNat ⌊move_time (t - r.currentPosition)⌋ := by
    unfold move_time_ms
    apply Nat.mod_eq_of_lt
    have h1 : ⌊move_time (t - r.currentPosition)⌋ < 4294967296 := by
      rw [Int.floor_lt]
      exact_mod_cast hfit
    omega
  have hlt : move_time_ms (t - r.currentPosition) < 4294967296 := by
    unfold move_time_ms
    exact Nat.mod_lt _ (by decide)
  refine ⟨moveToPosition_eq env fuel r t hne, ⟨h1, ?_, h3, h4, h5, h6, h7⟩, ?_,
    configured_move_times, moveToPosition_same env fuel r⟩
  · rw [h2, Nat.mod_eq_of_lt hlt, hm, hexact]
    rfl
  · intro n hn hlim
    have hmul := move_time_multiple (t - r.currentPosition) n hn (by omega)
    refine ⟨?_, hmul.2.2⟩
    rw [h2, Nat.mod_eq_of_lt hlt, hmul.2.1]

/-- Witness for C32 (amended): the move from home to the place of piece 5, 250 mm
away, right after start-up. -/
theorem C32_move_command_witness :
    ((startMove (boot envPickFive) 250).motor.move_duration_ = 5000 ∧
      (startMove (boot envPickFive) 250).motor.current_direction_ = .FORWARD) ∧
    ((moveToPosition envPickFive 1001 (boot envPickFive) 250 =
      (moveWait envPickFive 1001 (startMove (boot envPickFive) 250)).bind fun res =>
        if res.2 then .done (res.1, .emergencyStop)
        else .done ({ res.1 with currentPosition := 250 }, .arrived)) ∧
    ((startMove (boot envPickFive) 250).motor.timed_move_active_ = true ∧
      (startMove (boot envPickFive) 250).motor.move_duration_
        = Int.toNat ⌊f64 (f64 (|f32 (250 - (boot envPickFive).currentPosition)| / 50)
            * 1000)⌋ ∧
      (startMove (boot envPickFive) 250).motor.move_start_time_
        = to_ms_since_boot (boot envPickFive) ∧
      (startMove (boot envPickFive) 250).motor.current_speed_ = 70 ∧
      ((boot envPickFive).currentPosition < 250 →
        (startMove (boot envPickFive) 250).motor.current_direction_ = .FORWARD) ∧
      (250 < (boot envPickFive).currentPosition →
        (startMove (boot envPickFive) 250).motor.current_direction_ = .REVERSE) ∧
      (startMove (boot envPickFive) 250).currentPosition
        = (boot envPickFive).currentPosition) ∧
    (∀ n : Nat, |250 - (boot envPickFive).currentPosition| = 50 * (n : ℚ) →
      50 * n < 16777216 →
      (startMove (boot envPickFive) 250).motor.move_duration_ = 1000 * n ∧
      Int.toNat ⌊|250 - (boot envPickFive).currentPosition| / 50 * 1000⌋ = 1000 * n) ∧
    (∀ k : Nat, 1 ≤ k → k ≤ 9 →
      (move_time_ms (PUZZLE_POSITIONS.getD (k - 1) 0 - HOME_POSITION) = 1000 * k ∧
        HOME_POSITION < PUZZLE_POSITIONS.getD (k - 1) 0) ∧
      (move_time_ms (DROP_OFF_POSITION - PUZZLE_POSITIONS.getD (k - 1) 0)
          = (10 - k) * 1000 ∧
        PUZZLE_POSITIONS.getD (k - 1) 0 < DROP_OFF_POSITION) ∧
      (move_time_ms (HOME_POSITION - DROP_OFF_POSITION) = 10000 ∧
        HOME_POSITION < DROP_OFF_POSITION)) ∧
    moveToPosition envPickFive 1001 (boot envPickFive) (boot envPickFive).currentPosition
      = .done (boot envPickFive, .alreadyThere)) :=
  ⟨by decide!,
    C32_move_command envPickFive 1001 (boot envPickFive) 250 (by decide!) (by decide!)
      (by decide!)⟩

/-! ## Invariants of the tick loop -/

/-- What a workflow step that returns can leave as the state: MOVE_TO_PICKUP only
from WAIT_INPUT and with a selected target from 1 to 9, never ERROR, and
MANUAL_CONTROL only when the step started there. -/
theorem step_state (env : Env) (fuel : Nat) (r r' : Robot)
    (h : updateStateMachine env fuel r = .done r') :
    (r'.currentState = .STATE_MOVE_TO_PICKUP →
      r.currentState = .STATE_WAIT_INPUT ∧
      1 ≤ r'.selectedPuzzlePiece ∧ r'.selectedPuzzlePiece ≤ 9) ∧
    r'.currentState ≠ .STATE_ERROR ∧
    (r'.currentState = .STATE_MANUAL_CONTROL →
      r.currentState = .STATE_MANUAL_CONTROL) := by
  cases hs : r.currentState
  case STATE_WAIT_INPUT =>
    rw [waitInput_step env fuel r hs] at h
    by_cases hk : '1' ≤ (pollKey env r).1 ∧ (pollKey env r).1 ≤ '9'
    · rw [if_pos hk] at h
      simp only [Run.done.injEq] at h
      subst h
      have hn := digit_toNat _ hk
      refine ⟨fun _ => ⟨rfl, ?_, ?_⟩, by simp, by simp⟩
      · show (1 : Int) ≤ ((pollKey env r).1.toNat : Int) - ('0'.toNat : Int)
        have : ('0'.toNat : Int) = 48 := rfl
        omega
      · show ((pollKey env r).1.toNat : Int) - ('0'.toNat : Int) ≤ 9
        have : ('0'.toNat : Int) = 48 := rfl
        omega
    · rw [if_neg hk] at h
      simp only [Run.done.injEq] at h
      subst h
      have hst : (pollKey env r).2.currentState = .STATE_WAIT_INPUT := hs
      simp [hst]
  all_goals
    unfold updateStateMachine at h
    rw [hs] at h
    simp only at h
    first
      | (simp only [Run.done.injEq] at h
         subst h
         simp [hs])
      | (obtain ⟨x, _, hd⟩ := Run.bind_eq_done h
         simp only [Run.done.injEq] at hd
         subst hd
         simp)
      | (split at h
         · obtain ⟨x, _, hd⟩ := Run.bind_eq_done h
           simp only [Run.done.injEq] at hd
           subst hd
           simp
         · simp at h)
      | (split at h
         · simp only [Run.done.injEq] at h
           subst h
           simp
         · split at h
           · obtain ⟨x, _, hd⟩ := Run.bind_eq_done h
             simp only [Run.done.injEq] at hd
             subst hd
             simp
           · simp only [Run.done.injEq] at h
             subst h
             simp)

theorem refresh_frame (env : Env) (r : Robot) :
    (refresh env r).currentState = r.currentState ∧
    (refresh env r).selectedPuzzlePiece = r.selectedPuzzlePiece :=
  ⟨rfl, rfl⟩

theorem emergencyStopCheck_frame (r : Robot) :
    ((emergencyStopCheck r).currentState = r.currentState ∨
      (emergencyStopCheck r).currentState = .STATE_IDLE) ∧
    (emergencyStopCheck r).selectedPuzzlePiece = r.selectedPuzzlePiece := by
  unfold emergencyStopCheck
  simp only
  split_ifs
  · exact ⟨Or.inr rfl, rfl⟩
  · exact ⟨Or.inl rfl, rfl⟩

theorem homeCheck_frame (r : Robot) :
    ((homeCheck r).currentState = r.currentState ∨
      (homeCheck r).currentState = .STATE_HOMING) ∧
    (homeCheck r).selectedPuzzlePiece = r.selectedPuzzlePiece := by
  unfold homeCheck
  simp only
  split_ifs
  · exact ⟨Or.inr rfl, rfl⟩
  · exact ⟨Or.inl rfl, rfl⟩

theorem manualRequested_frame (r : Robot) :
    (manualRequested r).2.currentState = r.currentState ∧
    (manualRequested r).2.selectedPuzzlePiece = r.selectedPuzzlePiece := by
  unfold manualRequested
  split_ifs <;> exact ⟨rfl, rfl⟩

/-- A state or the state set by a preemption check is consistent when the state
before was. -/
theorem Consistent.of_frame {r x : Robot} (h : Consistent r)
    (hs : x.currentState = r.currentState ∨ x.currentState = .STATE_IDLE ∨
      x.currentState = .STATE_HOMING)
    (hsel : x.selectedPuzzlePiece = r.selectedPuzzlePiece) : Consistent x := by
  obtain ⟨h1, h2, h3⟩ := h
  rcases hs with hs | hs | hs
  · exact ⟨fun hm => by rw [hsel]; exact h1 (hs ▸ hm), by rw [hs]; exact h2,
      by rw [hs]; exact h3⟩
  · exact ⟨fun hm => by rw [hs] at hm; exact absurd hm (by decide), by rw [hs]; decide,
      by rw [hs]; decide⟩
  · exact ⟨fun hm => by rw [hs] at hm; exact absurd hm (by decide), by rw [hs]; decide,
      by rw [hs]; decide⟩

/-- The workflow step of a tick starts in a consistent state when the tick does. -/
theorem stepStart_consistent (env : Env) (r : Robot) (h : Consistent r) :
    Consistent (stepStart env r).2 := by
  have h1 : Consistent (refresh env r) := h.of_frame (Or.inl rfl) rfl
  have e := emergencyStopCheck_frame (refresh env r)
  have h2 : Consistent (emergencyStopCheck (refresh env r)) :=
    h1.of_frame (e.1.elim Or.inl (fun x => Or.inr (Or.inl x))) e.2
  have c := homeCheck_frame (emergencyStopCheck (refresh env r))
  have h3 : Consistent (homeCheck (emergencyStopCheck (refresh env r))) :=
    h2.of_frame (c.1.elim Or.inl (fun x => Or.inr (Or.inr x))) c.2
  have m := manualRequested_frame (homeCheck (emergencyStopCheck (refresh env r)))
  exact h3.of_frame (Or.inl m.1) m.2

/-- A workflow step that starts in a consistent state and returns ends in one. -/
theorem step_consistent (env : Env) (fuel : Nat) (r r' : Robot) (h : Consistent r)
    (hstep : updateStateMachine env fuel r = .done r') : Consistent r' := by
  obtain ⟨s1, s2, s3⟩ := step_state env fuel r r' hstep
  exact ⟨fun hm => (s1 hm).2, s2, fun hm => h.2.2 (s3 hm)⟩

theorem tick_eq (env : Env) (fuel : Nat) (r : Robot) :
    tick env fuel r =
      if (stepStart env r).1 then .done (handleManualControl (stepStart env r).2)
      else (updateStateMachine env fuel (stepStart env r).2).bind fun r2 =>
        .done (sleep_ms 10 r2) :=
  rfl

/-- A tick that starts in a consistent state and returns ends in one. -/
theorem tick_consistent (env : Env) (fuel : Nat) (r r' : Robot) (h : Consistent r)
    (ht : tick env fuel r = .done r') : Consistent r' := by
  have hs := stepStart_consistent env r h
  rw [tick_eq] at ht
  split at ht
  · simp only [Run.done.injEq] at ht
    subst ht
    have f := handleManualControl_frame (stepStart env r).2
    exact hs.of_frame (Or.inl f.1) f.2.1
  · obtain ⟨r2, h2, hd⟩ := Run.bind_eq_done ht
    simp only [Run.done.injEq] at hd
    subst hd
    exact (step_consistent env fuel _ r2 hs h2).of_frame (Or.inl rfl) rfl

theorem boot_consistent (env : Env) : Consistent (boot env) :=
  ⟨fun h => absurd (show (boot env).currentState = .STATE_MOVE_TO_PICKUP from h)
      (by show RobotState.STATE_HOMING ≠ _; decide),
    by show RobotState.STATE_HOMING ≠ _; decide,
    by show RobotState.STATE_HOMING ≠ _; decide⟩

/-- Every state reached from power-up by passes of the main loop is consistent. -/
theorem ticks_consistent (env : Env) (fuel : Nat) :
    ∀ (n : Nat) (r r' : Robot), Consistent r → ticks env fuel n r = .done r' →
      Consistent r' := by
  intro n
  induction n with
  | zero =>
    intro r r' h ht
    simp only [ticks, Run.done.injEq] at ht
    subst ht
    exact h
  | succ n ih =>
    intro r r' h ht
    unfold ticks at ht
    obtain ⟨r1, h1, h2⟩ := Run.bind_eq_done ht
    exact ih r1 r' (tick_consistent env fuel r r1 h h1) h2

/-! ### No lookup outside the table -/

theorem Run.bind_ne_undefined {α β : Type} {x : Run α} {f : α → Run β}
    (hx : x ≠ .undefinedBehaviour) (hf : ∀ a, x = .done a → f a ≠ .undefinedBehaviour) :
    x.bind f ≠ .undefinedBehaviour := by
  cases x with
  | done a => exact hf a rfl
  | outOfFuel => simp [Run.bind]
  | undefinedBehaviour => exact absurd rfl hx

theorem homeWait_defined (env : Env) (start : Nat) :
    ∀ (fuel : Nat) (r : Robot), homeWait env start fuel r ≠ .undefinedBehaviour := by
  intro fuel
  induction fuel with
  | zero => intro r; simp [homeWait]
  | succ n ih =>
    intro r
    unfold homeWait
    split
    · simp
    · simp only
      split
      · simp
      · exact ih _

theorem moveWait_defined (env : Env) :
    ∀ (fuel : Nat) (r : Robot), moveWait env fuel r ≠ .undefinedBehaviour := by
  intro fuel
  induction fuel with
  | zero => intro r; simp [moveWait]
  | succ n ih =>
    intro r
    unfold moveWait
    simp only
    split
    · simp
    · split
      · simp
      · exact ih _

theorem servoWait_defined :
    ∀ (fuel : Nat) (r : Robot), servoWait fuel r ≠ .undefinedBehaviour := by
  intro fuel
  induction fuel with
  | zero => intro r; simp [servoWait]
  | succ n ih =>
    intro r
    unfold servoWait
    split
    · exact ih _
    · simp

theorem waitNoKey_defined (env : Env) :
    ∀ (fuel : Nat) (r : Robot), waitNoKey env fuel r ≠ .undefinedBehaviour := by
  intro fuel
  induction fuel with
  | zero => intro r; simp [waitNoKey]
  | succ n ih =>
    intro r
    unfold waitNoKey
    simp only
    split
    · exact ih _
    · simp

theorem waitAnyKey_defined (env : Env) :
    ∀ (fuel : Nat) (r : Robot), waitAnyKey env fuel r ≠ .undefinedBehaviour := by
  intro fuel
  induction fuel with
  | zero => intro r; simp [waitAnyKey]
  | succ n ih =>
    intro r
    unfold waitAnyKey
    simp only
    split
    · exact ih _
    · simp

theorem waitForKey_defined (env : Env) (fuel : Nat) (r : Robot) :
    waitForKey env fuel r ≠ .undefinedBehaviour :=
  Run.bind_ne_undefined (waitNoKey_defined env fuel r) fun a _ => waitAnyKey_defined env fuel a

theorem moveToPosition_defined (env : Env) (fuel : Nat) (r : Robot) (t : ℚ) :
    moveToPosition env fuel r t ≠ .undefinedBehaviour := by
  unfold moveToPosition
  simp only
  split
  · simp
  · refine Run.bind_ne_undefined (moveWait_defined env fuel _) fun a _ => ?_
    split <;> simp

theorem homeLinearRail_defined (env : Env) (fuel : Nat) (r : Robot) :
    homeLinearRail env fuel r ≠ .undefinedBehaviour := by
  unfold homeLinearRail
  simp only
  refine Run.bind_ne_undefined (homeWait_defined env _ fuel _) fun a _ => ?_
  split <;> simp

/-- A workflow step that starts in a consistent state makes no lookup outside the
position table. -/
theorem step_defined (env : Env) (fuel : Nat) (r : Robot) (h : Consistent r) :
    updateStateMachine env fuel r ≠ .undefinedBehaviour := by
  unfold updateStateMachine
  split
  · simp
  · exact Run.bind_ne_undefined (homeLinearRail_defined env fuel r) fun a _ => by simp
  · simp
  · simp only
    split <;> simp
  · rename_i hs
    have hsel := h.1 hs
    simp only
    rw [if_pos (by omega)]
    exact Run.bind_ne_undefined (moveToPosition_defined env fuel r _) fun a _ => by simp
  · simp only
    split
    · simp
    · split
      · exact Run.bind_ne_undefined (waitForKey_defined env fuel _) fun a _ => by simp
      · simp
  · refine Run.bind_ne_undefined ?_ fun a _ => by simp
    unfold pickupPuzzlePiece
    exact Run.bind_ne_undefined (servoWait_defined fuel _) fun a _ => by simp
  · exact Run.bind_ne_undefined (moveToPosition_defined env fuel r _) fun a _ => by simp
  · refine Run.bind_ne_undefined ?_ fun a _ => by simp
    unfold releasePuzzlePiece
    exact Run.bind_ne_undefined (servoWait_defined fuel _) fun a _ => by simp
  · exact Run.bind_ne_undefined (moveToPosition_defined env fuel r _) fun a _ => by simp
  · exact Run.bind_ne_undefined (waitForKey_defined env fuel r) fun a _ => by simp
  · simp

theorem tick_defined (env : Env) (fuel : Nat) (r : Robot) (h : Consistent r) :
    tick env fuel r ≠ .undefinedBehaviour := by
  rw [tick_eq]
  split
  · simp
  · exact Run.bind_ne_undefined (step_defined env fuel _ (stepStart_consistent env r h))
      fun a _ => by simp

theorem ticks_defined (env : Env) (fuel : Nat) :
    ∀ (n : Nat) (r : Robot), Consistent r → ticks env fuel n r ≠ .undefinedBehaviour := by
  intro n
  induction n with
  | zero => intro r _; simp [ticks]
  | succ n ih =>
    intro r h
    unfold ticks
    exact Run.bind_ne_undefined (tick_defined env fuel r h)
      fun a ha => ih a (tick_consistent env fuel r a h ha)

theorem elapse_consistent (d : Nat) (r : Robot) (h : Consistent r) :
    Consistent (elapse d r) := h

/-- Every state the program reaches at the top of its main loop is consistent. -/
theorem reachable_consistent (env : Env) (r : Robot) (h : Reachable env r) :
    Consistent r := by
  induction h with
  | start => exact boot_consistent env
  | wait d r _ ih => exact elapse_consistent d r ih
  | pass fuel r r' _ ht ih => exact tick_consistent env fuel r r' ih ht

theorem passes_reachable (env : Env) (fuel : Nat) :
    ∀ (delays : List Nat) (r r' : Robot), Reachable env r →
      passes env fuel delays r = .done r' → Reachable env r' := by
  intro delays
  induction delays with
  | nil =>
    intro r r' h hp
    simp only [passes, Run.done.injEq] at hp
    subst hp
    exact h
  | cons d delays ih =>
    intro r r' h hp
    unfold passes at hp
    obtain ⟨r1, h1, h2⟩ := Run.bind_eq_done hp
    exact ih r1 r' (.pass fuel _ r1 (.wait d r h) h1) h2

theorem ticks_reachable (env : Env) (fuel : Nat) :
    ∀ (n : Nat) (r r' : Robot), Reachable env r →
      ticks env fuel n r = .done r' → Reachable env r' := by
  intro n
  induction n with
  | zero =>
    intro r r' h hp
    simp only [ticks, Run.done.injEq] at hp
    subst hp
    exact h
  | succ n ih =>
    intro r r' h hp
    unfold ticks at hp
    obtain ⟨r1, h1, h2⟩ := Run.bind_eq_done hp
    exact ih r1 r' (.pass fuel r r1 h h1) h2

theorem passes_defined (env : Env) (fuel : Nat) :
    ∀ (delays : List Nat) (r : Robot), Consistent r →
      passes env fuel delays r ≠ .undefinedBehaviour := by
  intro delays
  induction delays with
  | nil => intro r _; simp [passes]
  | cons d delays ih =>
    intro r h
    unfold passes
    exact Run.bind_ne_undefined (tick_defined env fuel _ (elapse_consistent d r h))
      fun a ha => ih a (tick_consistent env fuel _ a (elapse_consistent d r h) ha)

/-- C35. For every environment (any key presses, emergency-stop, home and manual
inputs at any times) and every state the program reaches at the top of its main
loop, with any execution time between and before the passes: if the state is
MOVE_TO_PICKUP the selected target is from 1 to 9; when the next pass runs a workflow
step and that step starts in MOVE_TO_PICKUP, the selected target is from 1 to 9, so
the index `selectedPuzzlePiece - 1` is from 0 to 8, inside the table of 9 positions;
and neither the next pass nor any sequence of passes from power-up, with or without
execution time between them, runs into a lookup outside the table. -/
theorem C35_pickup_index_in_table (env : Env) (fuel : Nat) (r : Robot)
    (h : Reachable env r) :
    (r.currentState = .STATE_MOVE_TO_PICKUP →
      1 ≤ r.selectedPuzzlePiece ∧ r.selectedPuzzlePiece ≤ 9) ∧
    ((stepStart env r).1 = false →
      (stepStart env r).2.currentState = .STATE_MOVE_TO_PICKUP →
      (1 ≤ (stepStart env r).2.selectedPuzzlePiece ∧
        (stepStart env r).2.selectedPuzzlePiece ≤ 9) ∧
      ((stepStart env r).2.selectedPuzzlePiece - 1).toNat < PUZZLE_POSITIONS.length ∧
      0 ≤ (stepStart env r).2.selectedPuzzlePiece - 1) ∧
    updateStateMachine env fuel (stepStart env r).2 ≠ .undefinedBehaviour ∧
    tick env fuel r ≠ .undefinedBehaviour ∧
    (∀ m, ticks env fuel m (boot env) ≠ .undefinedBehaviour) ∧
    (∀ delays, passes env fuel delays (boot env) ≠ .undefinedBehaviour) := by
  have hc := reachable_consistent env r h
  have hs := stepStart_consistent env r hc
  refine ⟨hc.1, ?_, step_defined env fuel _ hs, tick_defined env fuel r hc,
    fun m => ticks_defined env fuel m (boot env) (boot_consistent env),
    fun delays => passes_defined env fuel delays (boot env) (boot_consistent env)⟩
  intro _ hm
  have hsel := hs.1 hm
  refine ⟨hsel, ?_, by omega⟩
  show _ < 9
  omega

/-- Witness for C35: the run in `envManualThenPick` with the execution times
`manualPickDelays` before its passes.  The fourth to sixth pass drive the rail by
hand (the manual-forward input is debounced-pressed, the pass ends without a sleep,
so the clock advances by the execution time only) and leave the workflow in
WAIT_INPUT; after eight passes the state is MOVE_TO_PICKUP with target 1 selected. -/
theorem C35_pickup_index_in_table_witness :
    ((stepStart envManualThenPick (elapse 60 (afterPasses 3))).1 = true ∧
      (stepStart envManualThenPick (elapse 60 (afterPasses 5))).1 = true ∧
      (afterPasses 6).currentState = .STATE_WAIT_INPUT ∧
      (afterPasses 6).now = (afterPasses 3).now + (60 + 100 + 60) ∧
      (afterPasses 8).currentState = .STATE_MOVE_TO_PICKUP ∧
      (afterPasses 8).selectedPuzzlePiece = 1 ∧
      (stepStart envManualThenPick (afterPasses 8)).1 = false) ∧
    (((afterPasses 8).currentState = .STATE_MOVE_TO_PICKUP →
      1 ≤ (afterPasses 8).selectedPuzzlePiece ∧
      (afterPasses 8).selectedPuzzlePiece ≤ 9) ∧
    ((stepStart envManualThenPick (afterPasses 8)).1 = false →
      (stepStart envManualThenPick (afterPasses 8)).2.currentState
        = .STATE_MOVE_TO_PICKUP →
      (1 ≤ (stepStart envManualThenPick (afterPasses 8)).2.selectedPuzzlePiece ∧
        (stepStart envManualThenPick (afterPasses 8)).2.selectedPuzzlePiece ≤ 9) ∧
      ((stepStart envManualThenPick (afterPasses 8)).2.selectedPuzzlePiece - 1).toNat
        < PUZZLE_POSITIONS.length ∧
      0 ≤ (stepStart envManualThenPick (afterPasses 8)).2.selectedPuzzlePiece - 1) ∧
    updateStateMachine envManualThenPick 2000
        (stepStart envManualThenPick (afterPasses 8)).2 ≠ .undefinedBehaviour ∧
    tick envManualThenPick 2000 (afterPasses 8) ≠ .undefinedBehaviour ∧
    (∀ m, ticks envManualThenPick 2000 m (boot envManualThenPick)
      ≠ .undefinedBehaviour) ∧
    (∀ delays, passes envManualThenPick 2000 delays (boot envManualThenPick)
      ≠ .undefinedBehaviour)) :=
  ⟨by decide!,
    C35_pickup_index_in_table envManualThenPick 2000 (afterPasses 8)
      (passes_reachable envManualThenPick 2000 (manualPickDelays.take 8)
        (boot envManualThenPick) (afterPasses 8) .start (by decide!))⟩

/-- C36. For every environment and every state the program reaches at the top of its
main loop, with any execution time between and before the passes: the workflow state
is neither ERROR nor MANUAL_CONTROL, and neither is the state in which the workflow
step of the next pass starts.  Every workflow step that returns, from any state,
leaves a state other than ERROR (the state set by `showError` is overwritten before
the step ends) and leaves MANUAL_CONTROL only if it started there; the stop and home
checks assign only IDLE and HOMING, and manual control, the refresh and the passage
of time assign no state. -/
theorem C36_never_error_or_manual (env : Env) (fuel : Nat) (r : Robot)
    (h : Reachable env r) :
    (r.currentState ≠ .STATE_ERROR ∧ r.currentState ≠ .STATE_MANUAL_CONTROL) ∧
    ((stepStart env r).2.currentState ≠ .STATE_ERROR ∧
      (stepStart env r).2.currentState ≠ .STATE_MANUAL_CONTROL) ∧
    (∀ r', tick env fuel r = .done r' →
      r'.currentState ≠ .STATE_ERROR ∧ r'.currentState ≠ .STATE_MANUAL_CONTROL) ∧
    (∀ x x', updateStateMachine env fuel x = .done x' →
      x'.currentState ≠ .STATE_ERROR ∧
      (x'.currentState = .STATE_MANUAL_CONTROL →
        x.currentState = .STATE_MANUAL_CONTROL)) ∧
    (∀ x, ((emergencyStopCheck x).currentState = x.currentState ∨
        (emergencyStopCheck x).currentState = .STATE_IDLE) ∧
      ((homeCheck x).currentState = x.currentState ∨
        (homeCheck x).currentState = .STATE_HOMING) ∧
      (handleManualControl x).currentState = x.currentState ∧
      (refresh env x).currentState = x.currentState ∧
      ∀ d, (elapse d x).currentState = x.currentState) := by
  have hc := reachable_consistent env r h
  have hs := stepStart_consistent env r hc
  refine ⟨hc.2, hs.2, fun r' ht => (tick_consistent env fuel r r' hc ht).2, ?_, ?_⟩
  · intro x x' hx
    have := step_state env fuel x x' hx
    exact ⟨this.2.1, this.2.2⟩
  · intro x
    exact ⟨(emergencyStopCheck_frame x).1, (homeCheck_frame x).1,
      (handleManualControl_frame x).1, rfl, fun _ => rfl⟩

/-- Witness for C36: the run in `envManualThenPick` with the execution times
`manualPickDelays`, after five passes: the fourth and fifth pass drove the rail by
hand, the manual-forward input is still held, and the workflow state is WAIT_INPUT. -/
theorem C36_never_error_or_manual_witness :
    ((stepStart envManualThenPick (elapse 100 (afterPasses 4))).1 = true ∧
      (afterPasses 5).manualFwdButton.isPressed = true ∧
      (afterPasses 5).currentState = .STATE_WAIT_INPUT) ∧
    (((afterPasses 5).currentState ≠ .STATE_ERROR ∧
      (afterPasses 5).currentState ≠ .STATE_MANUAL_CONTROL) ∧
    ((stepStart envManualThenPick (afterPasses 5)).2.currentState ≠ .STATE_ERROR ∧
      (stepStart envManualThenPick (afterPasses 5)).2.currentState
        ≠ .STATE_MANUAL_CONTROL) ∧
    (∀ r', tick envManualThenPick 2000 (afterPasses 5) = .done r' →
      r'.currentState ≠ .STATE_ERROR ∧ r'.currentState ≠ .STATE_MANUAL_CONTROL) ∧
    (∀ x x', updateStateMachine envManualThenPick 2000 x = .done x' →
      x'.currentState ≠ .STATE_ERROR ∧
      (x'.currentState = .STATE_MANUAL_CONTROL →
        x.currentState = .STATE_MANUAL_CONTROL)) ∧
    (∀ x, ((emergencyStopCheck x).currentState = x.currentState ∨
        (emergencyStopCheck x).currentState = .STATE_IDLE) ∧
      ((homeCheck x).currentState = x.currentState ∨
        (homeCheck x).currentState = .STATE_HOMING) ∧
      (handleManualControl x).currentState = x.currentState ∧
      (refresh envManualThenPick x).currentState = x.currentState ∧
      ∀ d, (elapse d x).currentState = x.currentState)) :=
  ⟨by decide!,
    C36_never_error_or_manual envManualThenPick 2000 (afterPasses 5)
      (passes_reachable envManualThenPick 2000 (manualPickDelays.take 5)
        (boot envManualThenPick) (afterPasses 5) .start (by decide!))⟩

end Symbion
